import Mathlib

/-! # Transactional enqueuing of notifications

A shallow embedding of `v1/services/enqueuer.go` (`Enqueuer.Enqueue`) together with the
collaborators it talks to: the id generator, the messages repository, the storage
transaction and the job queue.

Collaborators are modelled as oracles over the history of effects observed so far, every
effect of a call is recorded in a trace, and the iteration order of the Go map
`jobsByMessageID` is a parameter of the run (one order per `range` statement).

The file also embeds the directory lookup of `uaa/uaa.go` (`tokenHost`,
`UsersEmailsByIDs`), the boot steps of `application/application.go` (`ConfigureSMTP`,
`StartQueueGauge`, `StartMessageGC`), the worker start-up of `web/router.go`
(`StartWorkers`) and the route table of `web/user_preferences_router.go`
(`NewUserPreferencesRouter`), each with the library calls it makes as oracles.
-/

namespace Notifications

/-! ## Data model -/

/-- The constant `StatusQueued` of `enqueuer.go`. -/
def StatusQueued : String := "queued"

/-- Modelled from the spec: the type `HTML` of the options is declared outside the files at
hand; it is carried as a value that `Enqueue` only copies. -/
structure HTML where
  BodyContent : String
deriving DecidableEq, Repr

/-- Modelled from the spec: `cf.CloudControllerSpace` is declared outside the files at hand;
the tests build it from a `Name`, and `Enqueue` only copies it. -/
structure CloudControllerSpace where
  Name : String
deriving DecidableEq, Repr

/-- Modelled from the spec: `cf.CloudControllerOrganization` is declared outside the files at
hand; the tests build it from a `Name`, and `Enqueue` only copies it. -/
structure CloudControllerOrganization where
  Name : String
deriving DecidableEq, Repr

/-- Modelled from the spec: `time.Time` of the Go standard library, carried as a number of
nanoseconds that `Enqueue` only copies. -/
structure Time where
  nanoseconds : Int
deriving DecidableEq, Repr

/-- The struct `Options` of `enqueuer.go`. -/
structure Options where
  ReplyTo : String
  Subject : String
  KindDescription : String
  SourceDescription : String
  Text : String
  HTML : HTML
  KindID : String
  To : String
  Role : String
  Endorsement : String
  TemplateID : String
deriving DecidableEq, Repr

/-- The struct `Delivery` of `enqueuer.go`. -/
structure Delivery where
  MessageID : String
  Options : Options
  UserGUID : String
  Email : String
  Space : CloudControllerSpace
  Organization : CloudControllerOrganization
  ClientID : String
  UAAHost : String
  Scope : String
  VCAPRequestID : String
  RequestReceived : Time
deriving DecidableEq, Repr

/-- Modelled from the spec: the recipient type `User` is declared outside the files at hand;
`Enqueue` reads its `GUID` and `Email` fields. -/
structure User where
  GUID : String
  Email : String
deriving DecidableEq, Repr

/-- Modelled from the spec: the type `Response` is declared outside the files at hand;
`Enqueue` fills these four fields. -/
structure Response where
  Status : String
  Recipient : String
  NotificationID : String
  VCAPRequestID : String
deriving DecidableEq, Repr

/-- Modelled from the spec: `models.Message` is declared outside the files at hand; `Enqueue`
sets its `ID` and `Status`. -/
structure Message where
  ID : String
  Status : String
deriving DecidableEq, Repr

/-- Modelled from the spec: `gobble.Job` is declared outside the files at hand; a job carries
the serialized delivery payload, which the tests read back with `Unmarshal`. -/
structure Job where
  Payload : Delivery
deriving DecidableEq, Repr

/-- Modelled from the spec: `gobble.NewJob` wraps the payload in a fresh job. -/
def NewJob (d : Delivery) : Job := ⟨d⟩

/-! ## Effects and collaborators -/

deriving instance DecidableEq for Except

/-- One observable effect of `Enqueue` on a collaborator, with the collaborator's answer
(`none` is Go's `nil` error). -/
inductive Event where
  | generate (result : Except String String)
  | begin
  | upsert (message : Message) (err : Option String)
  | rollback
  | commit (err : Option String)
  | enqueue (job : Job) (err : Option String)
deriving DecidableEq, Repr

/-- The effects observed so far, oldest first. -/
abbrev History := List Event

/-- The type `GUIDGenerationFunc`: a call yields an id or an error; the answer may depend
on everything that happened before. -/
abbrev GUIDGenerationFunc := History → Except String String

/-- The interface `messagesRepoUpserter`: the error of `Upsert` on a message. -/
abbrev messagesRepoUpserter := History → Message → Option String

/-- The part of `gobble.QueueInterface` used here: the error of `Enqueue` on a job. -/
abbrev QueueInterface := History → Job → Option String

/-- The part of the transaction used here whose answer is inspected: the error of `Commit`. -/
structure ConnectionInterface where
  Commit : History → Option String

/-- The struct `Enqueuer`. -/
structure Enqueuer where
  queue : QueueInterface
  guidGenerator : GUIDGenerationFunc
  messagesRepo : messagesRepoUpserter

/-- The Go map `jobsByMessageID`, as an association list with pairwise distinct keys. -/
abbrev JobMap := List (String × Job)

/-- The assignment `m[k] = v`: overwrite the entry of `k`, or add one. -/
def JobMap.set : JobMap → String → Job → JobMap
  | [], k, v => [(k, v)]
  | (k', v') :: rest, k, v =>
    if k' = k then (k, v) :: rest else (k', v') :: JobMap.set rest k v

/-- The keys of a job map. -/
def JobMap.keys (m : JobMap) : List String := m.map Prod.fst

/-- An iteration order of a Go map: `range` visits every entry once, in an order of the
runtime's choosing. -/
structure MapOrder where
  range : JobMap → JobMap
  perm : ∀ m, (range m).Perm m

/-- The iteration order that visits entries as stored. -/
def MapOrder.stored : MapOrder := ⟨id, fun _ => List.Perm.refl _⟩

/-- The iteration order that visits entries in reverse. -/
def MapOrder.reversed : MapOrder := ⟨List.reverse, fun m => List.reverse_perm m⟩

/-- The choices of the Go runtime during one call: the order of each of the two `range`
statements over `jobsByMessageID`. -/
structure Runtime where
  rangeMessages : MapOrder
  rangeJobs : MapOrder

/-- How a call ends: it returns a response list, or panics with an error. -/
inductive Outcome where
  | returned (responses : List Response)
  | panicked (err : String)
deriving DecidableEq, Repr

/-- A finished call: how it ended and the effects it had, oldest first. -/
structure Run where
  outcome : Outcome
  trace : List Event
deriving DecidableEq, Repr

/-! ## `Enqueuer.Enqueue` -/

/-- The recipient reported in a response: `user.Email`, or `user.GUID` when that is empty. -/
def recipientOf (user : User) : String :=
  if user.Email = "" then user.GUID else user.Email

section Enqueue

variable (enqueuer : Enqueuer) (options : Options) (space : CloudControllerSpace)
  (organization : CloudControllerOrganization) (clientID uaaHost scope vcapRequestID : String)
  (reqReceived : Time)

/-- The job built for one user and message id (lines 71-83). -/
def jobFor (user : User) (messageID : String) : Job :=
  NewJob
    { Options := options
      UserGUID := user.GUID
      Email := user.Email
      Space := space
      Organization := organization
      ClientID := clientID
      MessageID := messageID
      UAAHost := uaaHost
      Scope := scope
      VCAPRequestID := vcapRequestID
      RequestReceived := reqReceived }

/-- The response built for one user and message id (lines 85-95). -/
def responseFor (user : User) (messageID : String) : Response :=
  { Status := StatusQueued
    NotificationID := messageID
    Recipient := recipientOf user
    VCAPRequestID := vcapRequestID }

/-- The map after the assignments of the first loop for the given users and ids, in turn. -/
def assignJobs : JobMap → List User → List String → JobMap
  | m, user :: users, messageID :: ids =>
    assignJobs
      (m.set messageID
        (jobFor options space organization clientID uaaHost scope vcapRequestID reqReceived
          user messageID))
      users ids
  | m, _, _ => m

/-- The first loop (lines 65-96): one generated id, one map assignment and one appended
response per user; a generator error panics. Returns the error or the final
`(responses, jobsByMessageID)`, and the effects. -/
def buildLoop : History → List User → List Response → JobMap →
    Except String (List Response × JobMap) × List Event
  | _, [], responses, jobsByMessageID => (.ok (responses, jobsByMessageID), [])
  | h, user :: users, responses, jobsByMessageID =>
    match enqueuer.guidGenerator h with
    | .error err => (.error err, [Event.generate (.error err)])
    | .ok messageID =>
      let r := buildLoop (h ++ [Event.generate (.ok messageID)]) users
        (responses ++ [responseFor vcapRequestID user messageID])
        (jobsByMessageID.set messageID
          (jobFor options space organization clientID uaaHost scope vcapRequestID reqReceived
            user messageID))
      (r.1, Event.generate (.ok messageID) :: r.2)

/-- The second loop (lines 100-109) over the visited entries: upsert a queued message per
entry, stopping at the first error. Returns that error, if any, and the effects. -/
def upsertLoop : History → JobMap → Option String × List Event
  | _, [] => (none, [])
  | h, (messageID, _) :: rest =>
    let message : Message := { ID := messageID, Status := StatusQueued }
    match enqueuer.messagesRepo h message with
    | some err => (some err, [Event.upsert message (some err)])
    | none =>
      let r := upsertLoop (h ++ [Event.upsert message none]) rest
      (r.1, Event.upsert message none :: r.2)

/-- The third loop (lines 115-120) over the visited entries: hand each job to the queue,
stopping at the first error. Returns that error, if any, and the effects. -/
def enqueueLoop : History → JobMap → Option String × List Event
  | _, [] => (none, [])
  | h, (_, job) :: rest =>
    match enqueuer.queue h job with
    | some err => (some err, [Event.enqueue job (some err)])
    | none =>
      let r := enqueueLoop (h ++ [Event.enqueue job none]) rest
      (r.1, Event.enqueue job none :: r.2)

/-- The method `Enqueuer.Enqueue` (lines 61-123), run by `runtime` after the effects `h0`. -/
def Enqueuer.Enqueue (runtime : Runtime) (h0 : History) (conn : ConnectionInterface)
    (users : List User) : Run :=
  match buildLoop enqueuer options space organization clientID uaaHost scope vcapRequestID
      reqReceived h0 users [] [] with
  | (.error err, gen) => ⟨.panicked err, gen⟩
  | (.ok (responses, jobsByMessageID), gen) =>
    let h1 := h0 ++ gen ++ [Event.begin]
    match upsertLoop enqueuer h1 (runtime.rangeMessages.range jobsByMessageID) with
    | (some _, ups) => ⟨.returned [], gen ++ [Event.begin] ++ ups ++ [Event.rollback]⟩
    | (none, ups) =>
      match conn.Commit (h1 ++ ups) with
      | some err => ⟨.returned [], gen ++ [Event.begin] ++ ups ++ [Event.commit (some err)]⟩
      | none =>
        let h2 := h1 ++ ups ++ [Event.commit none]
        match enqueueLoop enqueuer h2 (runtime.rangeJobs.range jobsByMessageID) with
        | (some _, enqs) =>
          ⟨.returned [], gen ++ [Event.begin] ++ ups ++ [Event.commit none] ++ enqs⟩
        | (none, enqs) =>
          ⟨.returned responses, gen ++ [Event.begin] ++ ups ++ [Event.commit none] ++ enqs⟩

end Enqueue

/-! ## Observations on a trace -/

/-- The id produced, when the effect is a successful call of the generator. -/
def Event.generatedID : Event → Option String
  | Event.generate (.ok messageID) => some messageID
  | _ => none

/-- The message written, when the effect is an upsert that returned no error. -/
def Event.upsertedMessage : Event → Option Message
  | Event.upsert message none => some message
  | _ => none

/-- The job accepted, when the effect is a queue insert that returned no error. -/
def Event.enqueuedJob : Event → Option Job
  | Event.enqueue job none => some job
  | _ => none

/-- The ids the generator produced, in call order. -/
def generatedIDs (t : List Event) : List String := t.filterMap Event.generatedID

/-- The messages whose upsert returned no error, in call order. -/
def upsertedMessages (t : List Event) : List Message := t.filterMap Event.upsertedMessage

/-- The jobs the queue accepted, in call order. -/
def enqueuedJobs (t : List Event) : List Job := t.filterMap Event.enqueuedJob

/-- Whether the effect is a collaborator answering with an error. -/
def Event.isFailure : Event → Bool
  | Event.generate (.error _) => true
  | Event.upsert _ (some _) => true
  | Event.commit (some _) => true
  | Event.enqueue _ (some _) => true
  | _ => false

/-- Whether the effect is the messages repository or the transaction answering with an
error. -/
def Event.isStorageFailure : Event → Bool
  | Event.upsert _ (some _) => true
  | Event.commit (some _) => true
  | _ => false

/-- Whether the effect is an upsert that returned an error. -/
def Event.isUpsertFailure : Event → Bool
  | Event.upsert _ (some _) => true
  | _ => false

/-- Whether the effect is a queue insert that returned an error. -/
def Event.isEnqueueFailure : Event → Bool
  | Event.enqueue _ (some _) => true
  | _ => false

/-- Whether the effect is a call of `Commit`. -/
def Event.isCommit : Event → Bool
  | Event.commit _ => true
  | _ => false

/-- Whether the effect is a call of `queue.Enqueue`. -/
def Event.isEnqueue : Event → Bool
  | Event.enqueue _ _ => true
  | _ => false

/-- Whether the effect is a call of `Upsert`. -/
def Event.isUpsert : Event → Bool
  | Event.upsert _ _ => true
  | _ => false

/-- Whether the effect is a call of the id generator. -/
def Event.isGenerate : Event → Bool
  | Event.generate _ => true
  | _ => false

/-! ## Storage -/

/-- Modelled from the spec: the storage behind the transaction is outside the files at hand.
It holds the committed message rows and, while a transaction is open, the rows written in
it. -/
structure Store where
  rows : List Message
  pending : Option (List Message)
deriving DecidableEq, Repr

/-- Modelled from the spec: an upsert replaces the row with the same id, or adds one. -/
def upsertRow (rows : List Message) (message : Message) : List Message :=
  rows.filter (fun r => r.ID != message.ID) ++ [message]

/-- Modelled from the spec: the effect of one event on the storage. `Begin` opens a
transaction; a successful upsert inside it is pending (outside one it is written at once);
`Rollback` and a failed `Commit` drop the pending rows; a successful `Commit` writes them
(section 4.2, steps 3 and 4: no partial message records survive a failed transaction). -/
def Store.apply (s : Store) : Event → Store
  | Event.begin => { s with pending := some [] }
  | Event.upsert message none =>
    match s.pending with
    | some ws => { s with pending := some (ws ++ [message]) }
    | none => { s with rows := upsertRow s.rows message }
  | Event.rollback => { s with pending := none }
  | Event.commit (some _) => { s with pending := none }
  | Event.commit none =>
    match s.pending with
    | some ws => { rows := ws.foldl upsertRow s.rows, pending := none }
    | none => s
  | _ => s

/-- Modelled from the spec: the storage after a sequence of effects. -/
def Store.replay (s : Store) (t : List Event) : Store := t.foldl Store.apply s

/-- The upsert of a queued message for a visited entry, answered without error. -/
def upsertOk (e : String × Job) : Event :=
  Event.upsert { ID := e.1, Status := StatusQueued } none

/-- The queue insert of the job of a visited entry, answered without error. -/
def enqueueOk (e : String × Job) : Event := Event.enqueue e.2 none

/-- A successful call of the generator. -/
def generateOk (messageID : String) : Event := Event.generate (.ok messageID)

/-- The ids of the message rows a call leaves committed, starting from empty storage. -/
def committedMessageIDs (t : List Event) : List String :=
  ((Store.replay ⟨[], none⟩ t).rows).map (fun m => m.ID)

/-- The message ids of the jobs a call placed on the queue. -/
def enqueuedMessageIDs (t : List Event) : List String :=
  (enqueuedJobs t).map (fun job => job.Payload.MessageID)

/-! ## Test fixtures -/

/-- A generator handing out the ids of `ids` in turn, one per earlier effect, and failing
once they are used up. -/
def listGenerator (ids : List String) : GUIDGenerationFunc :=
  fun h => match ids.get? h.length with
    | some messageID => .ok messageID
    | none => .error "exhausted"

/-- An enqueuer whose queue and repository never fail, drawing ids from `ids`. -/
def reliableEnqueuer (ids : List String) : Enqueuer :=
  { queue := fun _ _ => none
    guidGenerator := listGenerator ids
    messagesRepo := fun _ _ => none }

/-- An enqueuer whose repository rejects every upsert. -/
def upsertFailingEnqueuer (ids : List String) : Enqueuer :=
  { queue := fun _ _ => none
    guidGenerator := listGenerator ids
    messagesRepo := fun _ _ => some "BOOM!" }

/-- An enqueuer whose queue rejects every job. -/
def queueFailingEnqueuer (ids : List String) : Enqueuer :=
  { queue := fun _ _ => some "queue is down"
    guidGenerator := listGenerator ids
    messagesRepo := fun _ _ => none }

/-- A connection whose commit succeeds. -/
def committingConn : ConnectionInterface := ⟨fun _ => none⟩

/-- A connection whose commit fails, as in the test of the failing transaction. -/
def failingConn : ConnectionInterface := ⟨fun _ => some "the commit blew up"⟩

/-- The runtime visiting map entries as stored in both loops. -/
def storedRuntime : Runtime := ⟨MapOrder.stored, MapOrder.stored⟩

/-- The runtime visiting map entries in reverse when upserting and as stored when
enqueuing. -/
def reversedRuntime : Runtime := ⟨MapOrder.reversed, MapOrder.stored⟩

/-- The empty options value `Options{}`. -/
def noOptions : Options :=
  { ReplyTo := "", Subject := "", KindDescription := "", SourceDescription := "", Text := "",
    HTML := ⟨""⟩, KindID := "", To := "", Role := "", Endorsement := "", TemplateID := "" }

/-- Two recipients: one known by GUID, one by email. -/
def twoUsers : List User := [⟨"user-1", ""⟩, ⟨"", "user-2@example.com"⟩]

/-- Two recipients known by GUID. -/
def twoGUIDs : List User := [⟨"user-1", ""⟩, ⟨"user-2", ""⟩]

/-- The call of the tests: space, organization, client, scope and request id as there. -/
def testEnqueue (enqueuer : Enqueuer) (runtime : Runtime) (conn : ConnectionInterface)
    (users : List User) : Run :=
  enqueuer.Enqueue noOptions ⟨"the-space"⟩ ⟨"the-org"⟩ "the-client" "" "my.scope"
    "some-request-id" ⟨0⟩ runtime [] conn users

/-- A connection whose commit fails exactly when the last effect before it is the successful
upsert of the message "id-2": its answer depends on the order of the upserts in the
transaction. -/
def orderSensitiveConn : ConnectionInterface :=
  ⟨fun h => if h.getLast? = some (Event.upsert ⟨"id-2", "queued"⟩ none)
    then some "the commit blew up" else none⟩

/-- A connection whose commit succeeds exactly when the first effect of the history is the
generator call that answered "id-1": its answer depends on the order of the effects, but not
on the order of the upserts in the transaction. -/
def firstEffectConn : ConnectionInterface :=
  ⟨fun h => if h.head? = some (Event.generate (.ok "id-1"))
    then none else some "the commit blew up"⟩

/-! ## Calls that may panic -/

/-- How a Go call ends: it returns its results, or panics. -/
inductive Completion (α : Type) where
  | returned (results : α)
  | panicked (message : String)
deriving DecidableEq, Repr

/-! ## The UAA client (`uaa/uaa.go`) -/

namespace uaa

/-- The struct `User` of `uaa.go`. -/
structure User where
  ID : String
  Emails : List String
deriving DecidableEq, Repr

/-- Modelled from the spec: `warrant.User` belongs to a library outside the files at hand;
`newUserFromWarrantUser` reads its `ID` and `Emails`. -/
structure WarrantUser where
  ID : String
  Emails : List String
deriving DecidableEq, Repr

/-- A value of a token claim (Go's `interface{}`): a string, or a value of another type. -/
inductive ClaimValue where
  | text (value : String)
  | other
deriving DecidableEq, Repr

/-- Modelled from the spec: `jwt.Token` belongs to a library outside the files at hand;
`tokenHost` reads its `Claims` map, in which a key may be absent. -/
structure Token where
  Claims : String → Option ClaimValue

/-- Modelled from the spec: `url.URL` of the Go standard library; `tokenHost` reads `Scheme`
and `Host`. -/
structure URL where
  Scheme : String
  Host : String
deriving DecidableEq, Repr

/-- Modelled from the spec: `warrant.Config`, with the two fields `uaa.go` sets. -/
structure WarrantConfig where
  Host : String
  SkipVerifySSL : Bool
deriving DecidableEq, Repr

/-- Modelled from the spec: `warrant.Query`, with the field `uaa.go` sets. -/
structure WarrantQuery where
  Filter : String
deriving DecidableEq, Repr

/-- One call of `uaaClient.Users.List` and its answer. -/
structure ListCall where
  config : WarrantConfig
  query : WarrantQuery
  token : String
  answer : Except String (List WarrantUser)
deriving DecidableEq

/-- The libraries `uaa.go` calls: `jwt.Parse` (token and key), `url.Parse`, and the directory
query `Users.List` of a warrant client, whose answer may depend on the calls made before. -/
structure Libraries where
  jwtParse : String → String → Except String Token
  urlParse : String → Except String URL
  usersList : List ListCall → WarrantConfig → WarrantQuery → String →
    Except String (List WarrantUser)

/-- The struct `ZonedUAAClient`. -/
structure ZonedUAAClient where
  clientID : String
  clientSecret : String
  verifySSL : Bool
  UAAPublicKey : String

/-- The function `newUserFromWarrantUser` (lines 117-123). -/
def newUserFromWarrantUser (warrantUser : WarrantUser) : User :=
  { ID := warrantUser.ID, Emails := warrantUser.Emails }

/-- The filter `fmt.Sprintf("Id eq \"%s\"", id)` of line 57. -/
def idFilter (id : String) : String := "Id eq \"" ++ id ++ "\""

/-- The method `tokenHost` (lines 71-85): the results `(host, err)`, or a panic when the
type assertion `Claims["iss"].(string)` fails. -/
def ZonedUAAClient.tokenHost (z : ZonedUAAClient) (lib : Libraries) (token : String) :
    Completion (String × Option String) :=
  match lib.jwtParse token z.UAAPublicKey with
  | .error err => .returned ("", some err)
  | .ok parsedToken =>
    match parsedToken.Claims "iss" with
    | some (.text iss) =>
      match lib.urlParse iss with
      | .error err => .returned ("", some err)
      | .ok tokenIssuerURL =>
        .returned (tokenIssuerURL.Scheme ++ "://" ++ tokenIssuerURL.Host, none)
    | _ => .panicked "interface conversion: interface is not string"

/-- The loop of `UsersEmailsByIDs` (lines 55-66): one query per id, appending the users
found; the first query error ends the call with a nil list and that error. Returns the
results `(users, err)` and the calls made. -/
def usersLoop (lib : Libraries) (config : WarrantConfig) (token : String) :
    List ListCall → List String → List User → (List User × Option String) × List ListCall
  | _, [], myUsers => ((myUsers, none), [])
  | h, id :: ids, myUsers =>
    match lib.usersList h config ⟨idFilter id⟩ token with
    | .error err => (([], some err), [⟨config, ⟨idFilter id⟩, token, .error err⟩])
    | .ok users =>
      let r := usersLoop lib config token (h ++ [⟨config, ⟨idFilter id⟩, token, .ok users⟩]) ids
        (myUsers ++ users.map newUserFromWarrantUser)
      (r.1, ⟨config, ⟨idFilter id⟩, token, .ok users⟩ :: r.2)

/-- A finished directory lookup: how it ended and the directory queries it made. -/
structure Lookup where
  outcome : Completion (List User × Option String)
  calls : List ListCall

/-- The method `UsersEmailsByIDs` (lines 43-69); a nil slice is the empty list. -/
def ZonedUAAClient.UsersEmailsByIDs (z : ZonedUAAClient) (lib : Libraries) (token : String)
    (ids : List String) : Lookup :=
  match z.tokenHost lib token with
  | .panicked message => ⟨.panicked message, []⟩
  | .returned (_, some err) => ⟨.returned ([], some err), []⟩
  | .returned (uaaHost, none) =>
    let r := usersLoop lib ⟨uaaHost, !z.verifySSL⟩ token [] ids []
    ⟨.returned r.1, r.2⟩

/-- A client as built by `NewZonedUAAClient`. -/
def testClient : ZonedUAAClient :=
  { clientID := "notifications", clientSecret := "secret", verifySSL := true,
    UAAPublicKey := "the-key" }

/-- Libraries for the examples: every token parses to the issuer
"https://uaa.example.com", and the directory knows every id except "missing". -/
def testLibraries : Libraries :=
  { jwtParse := fun _ _ =>
      .ok ⟨fun key => if key = "iss" then some (.text "https://uaa.example.com") else none⟩
    urlParse := fun _ => .ok ⟨"https", "uaa.example.com"⟩
    usersList := fun _ _ query _ =>
      if query.Filter = idFilter "missing" then .error "directory is down"
      else .ok [⟨"some-user", ["some-user@example.com"]⟩] }

/-- Libraries for the examples in which no token parses. -/
def rejectingLibraries : Libraries :=
  { jwtParse := fun _ _ => .error "token is malformed"
    urlParse := fun _ => .ok ⟨"https", "uaa.example.com"⟩
    usersList := fun _ _ _ _ => .ok [] }

/-- The users found by one call of `Users.List`, converted as in lines 63-65; none when the
call answered with an error. -/
def ListCall.users (call : ListCall) : List User :=
  match call.answer with
  | .ok users => users.map newUserFromWarrantUser
  | .error _ => []

/-- Whether the call of `Users.List` answered with an error. -/
def ListCall.isFailure (call : ListCall) : Bool :=
  match call.answer with
  | .ok _ => false
  | .error _ => true

/-- Libraries for the examples in which no token parses, with a directory that knows every
id. -/
def staleTokenLibraries : Libraries :=
  { jwtParse := fun _ _ => .error "token is expired"
    urlParse := fun _ => .ok ⟨"https", "uaa.example.com"⟩
    usersList := fun _ _ _ _ => .ok [⟨"some-user", ["some-user@example.com"]⟩] }

/-- Libraries for the examples in which every token parses to claims without an "iss"
entry. -/
def issuerlessLibraries : Libraries :=
  { jwtParse := fun _ _ => .ok ⟨fun _ => none⟩
    urlParse := fun _ => .ok ⟨"https", "uaa.example.com"⟩
    usersList := fun _ _ _ _ => .ok [] }

/-- Libraries for the examples in which every token parses to claims whose "iss" entry is
not a string. -/
def numericIssuerLibraries : Libraries :=
  { jwtParse := fun _ _ => .ok ⟨fun key => if key = "iss" then some .other else none⟩
    urlParse := fun _ => .ok ⟨"https", "uaa.example.com"⟩
    usersList := fun _ _ _ _ => .ok [] }

end uaa

/-! ## Application boot (`application/application.go`) -/

namespace application

/-- The constant `WorkerCount` of `application.go`. -/
def WorkerCount : Nat := 10

/-- Modelled from the spec: the part of the `VCAPApplication` environment read here. -/
structure VCAPApplication where
  InstanceIndex : Int
deriving DecidableEq, Repr

/-- Modelled from the spec: the part of `Environment` read by the functions at hand. -/
structure Environment where
  VCAPApplication : VCAPApplication
  TestMode : Bool
  SMTPTLS : Bool
deriving DecidableEq, Repr

/-- The struct `Application`; the mother and the migrator are handles it only passes on. -/
structure Application where
  env : Environment
deriving DecidableEq, Repr

/-- The duration `time.Hour`, in nanoseconds. -/
def Hour : Int := 3600000000000

/-- A background runner started during boot. -/
inductive BootEffect where
  | queueGaugeRun
  | messageGCRun (messageLifetime pollingInterval : Int)
deriving DecidableEq, Repr

/-- The method `StartQueueGauge` (lines 102-109): the runners it starts. -/
def Application.StartQueueGauge (app : Application) : List BootEffect :=
  if app.env.VCAPApplication.InstanceIndex ≠ 0 then []
  else [BootEffect.queueGaugeRun]

/-- The method `StartMessageGC` (lines 167-176): the runners it starts. -/
def Application.StartMessageGC (_app : Application) : List BootEffect :=
  let messageLifetime := 24 * Hour
  let pollingInterval := 1 * Hour
  [BootEffect.messageGCRun messageLifetime pollingInterval]

/-- Modelled from the spec: the mail client handed out by the mother, declared outside the
files at hand: the error of `Connect`, the error of `Hello`, and the answer of `Extension`
(whether the extension is supported, and its parameters). -/
structure MailClient where
  Connect : Option String
  Hello : Option String
  Extension : String → Bool × String

/-- One effect of `ConfigureSMTP`: a call on the mail client, or a fatal log entry with its
action and error message. -/
inductive SMTPEffect where
  | connect
  | hello
  | extension (name : String)
  | quit
  | fatal (action message : String)
deriving DecidableEq, Repr

/-- A finished configuration check: how it ended and its effects, oldest first. -/
structure Configuration where
  outcome : Completion Unit
  effects : List SMTPEffect
deriving DecidableEq, Repr

/-- The error message of line 80. -/
def tlsNotSupportedMessage : String :=
  "SMTP TLS configuration mismatch: Configured to use TLS over SMTP, but the mail server " ++
    "does not support the \"STARTTLS\" extension."

/-- The error message of line 84. -/
def tlsNotConfiguredMessage : String :=
  "SMTP TLS configuration mismatch: Not configured to use TLS over SMTP, but the mail " ++
    "server does support the \"STARTTLS\" extension."

/-- The method `ConfigureSMTP` (lines 59-86). Modelled from the spec: `logger.Fatal` of the
logging library records the action and panics with the error, so the call ends there. -/
def Application.ConfigureSMTP (app : Application) (mailClient : MailClient) : Configuration :=
  if app.env.TestMode then ⟨.returned (), []⟩
  else
    match mailClient.Connect with
    | some err =>
      ⟨.panicked err, [SMTPEffect.connect, SMTPEffect.fatal "smtp-connect-errored" err]⟩
    | none =>
      match mailClient.Hello with
      | some err =>
        ⟨.panicked err, [SMTPEffect.connect, SMTPEffect.hello,
          SMTPEffect.fatal "smtp-hello-errored" err]⟩
      | none =>
        let startTLSSupported := (mailClient.Extension "STARTTLS").1
        if !startTLSSupported && app.env.SMTPTLS then
          ⟨.panicked tlsNotSupportedMessage,
            [SMTPEffect.connect, SMTPEffect.hello, SMTPEffect.extension "STARTTLS",
              SMTPEffect.quit, SMTPEffect.fatal "smtp-config-mismatch" tlsNotSupportedMessage]⟩
        else if startTLSSupported && !app.env.SMTPTLS then
          ⟨.panicked tlsNotConfiguredMessage,
            [SMTPEffect.connect, SMTPEffect.hello, SMTPEffect.extension "STARTTLS",
              SMTPEffect.quit, SMTPEffect.fatal "smtp-config-mismatch" tlsNotConfiguredMessage]⟩
        else
          ⟨.returned (), [SMTPEffect.connect, SMTPEffect.hello,
            SMTPEffect.extension "STARTTLS", SMTPEffect.quit]⟩

/-- A mail server that answers and supports STARTTLS. -/
def tlsMailClient : MailClient :=
  { Connect := none, Hello := none, Extension := fun _ => (true, "") }

end application

/-! ## Worker start-up (`web/router.go`) -/

namespace web

/-- The constant `WorkerCount` of `router.go`. -/
def WorkerCount : Nat := 10

/-- Modelled from the spec: the part of `config.Environment` read by `StartWorkers`. -/
structure Environment where
  SMTPUser : String
  SMTPPass : String
  SMTPHost : String
  SMTPPort : String
  VerifySSL : Bool
deriving DecidableEq, Repr

/-- One effect of `StartWorkers`: a mail client is requested (with the error answered, if
any), a delivery worker is constructed, a worker is started. -/
inductive WorkerEffect where
  | newClient (user pass addr : String) (err : Option String)
  | newDeliveryWorker (id : Nat) (insecure : Bool)
  | work (id : Nat)
deriving DecidableEq, Repr

/-- The constructor `mail.NewClient`: the error it answers, which may depend on the effects
so far. -/
abbrev NewClient := List WorkerEffect → String → String → String → Option String

/-- The function `net.JoinHostPort` of the Go standard library. -/
def JoinHostPort (host port : String) : String :=
  if ':' ∈ host.toList then "[" ++ host ++ "]:" ++ port else host ++ ":" ++ port

/-- The loop of `StartWorkers` (lines 49-57) from index `i` with `remaining` iterations to
go (`remaining = WorkerCount - i`): the panic message, if any, and the effects. -/
def startLoop (env : Environment) (newClient : NewClient) :
    Nat → Nat → List WorkerEffect → Option String × List WorkerEffect
  | 0, _, _ => (none, [])
  | remaining + 1, i, h =>
    let addr := JoinHostPort env.SMTPHost env.SMTPPort
    match newClient h env.SMTPUser env.SMTPPass addr with
    | some err => (some err, [WorkerEffect.newClient env.SMTPUser env.SMTPPass addr (some err)])
    | none =>
      let effects := [WorkerEffect.newClient env.SMTPUser env.SMTPPass addr none,
        WorkerEffect.newDeliveryWorker (i + 1) (!env.VerifySSL), WorkerEffect.work (i + 1)]
      let r := startLoop env newClient remaining (i + 1) (h ++ effects)
      (r.1, effects ++ r.2)

/-- A finished start-up: how it ended and its effects, oldest first. -/
structure Startup where
  outcome : Completion Unit
  effects : List WorkerEffect
deriving DecidableEq, Repr

/-- The function `StartWorkers` (lines 47-58), for the environment `config.NewEnvironment()`
returned. -/
def StartWorkers (env : Environment) (newClient : NewClient) : Startup :=
  match startLoop env newClient WorkerCount 0 [] with
  | (some err, effects) => ⟨.panicked err, effects⟩
  | (none, effects) => ⟨.returned (), effects⟩

/-- The id of the worker constructed, when the effect is a construction. -/
def WorkerEffect.constructedID : WorkerEffect → Option Nat
  | WorkerEffect.newDeliveryWorker id _ => some id
  | _ => none

/-- The id of the worker started, when the effect is a start. -/
def WorkerEffect.startedID : WorkerEffect → Option Nat
  | WorkerEffect.work id => some id
  | _ => none

/-- Whether the effect is a mail client request answered with an error. -/
def WorkerEffect.isFailure : WorkerEffect → Bool
  | WorkerEffect.newClient _ _ _ (some _) => true
  | _ => false

/-- The ids of the workers constructed, in order. -/
def constructedIDs (effects : List WorkerEffect) : List Nat :=
  effects.filterMap WorkerEffect.constructedID

/-- The ids of the workers started, in order. -/
def startedIDs (effects : List WorkerEffect) : List Nat :=
  effects.filterMap WorkerEffect.startedID

/-- A mail client constructor that fails for the third worker: three effects are recorded
per worker, so six effects precede the third request. -/
def failingAtThird : NewClient :=
  fun h _ _ _ => if h.length = 6 then some "connection refused" else none

/-- An environment for the examples. -/
def testEnvironment : Environment :=
  { SMTPUser := "user", SMTPPass := "pass", SMTPHost := "smtp.example.com", SMTPPort := "587",
    VerifySSL := true }

/-! ### The user preferences router (`web/user_preferences_router.go`) -/

/-- Modelled from the spec: the middleware `Authenticator` is declared outside the files at
hand; it is told apart by the scopes it was built for. -/
structure Authenticator where
  Scopes : List String
deriving DecidableEq, Repr

/-- Modelled from the spec: the middleware `RequestLogging`, a value the router passes on. -/
structure RequestLogging where
  Name : String
deriving DecidableEq, Repr

/-- Modelled from the spec: the middleware `CORS`, a value the router passes on. -/
structure CORS where
  Origin : String
deriving DecidableEq, Repr

/-- Modelled from the spec: the middleware `DatabaseAllocator`, a value the router passes
on. -/
structure DatabaseAllocator where
  Trace : Bool
deriving DecidableEq, Repr

/-- A middleware of a stack: one of the values handed to `Use`. -/
inductive Middleware where
  | logging (m : RequestLogging)
  | requestCounter
  | cors (m : CORS)
  | authenticator (m : Authenticator)
  | databaseAllocator (m : DatabaseAllocator)
deriving DecidableEq, Repr

/-- The handlers built in `NewUserPreferencesRouter`; the services they are built from are
values the router passes on. -/
inductive Handler where
  | OptionsPreferences
  | GetPreferences
  | UpdatePreferences
  | GetPreferencesForUser
  | UpdateSpecificUserPreferences
deriving DecidableEq, Repr

/-- Modelled from the spec: a `stack.Stack`, a handler and the middleware run before it, in
order. -/
structure Stack where
  Handler : Handler
  Middleware : List Middleware
deriving DecidableEq, Repr

/-- The constructor `stack.NewStack`. -/
def NewStack (handler : Handler) : Stack := ⟨handler, []⟩

/-- The method `Use` of a stack: append the middleware. -/
def Stack.Use (s : Stack) (middleware : List web.Middleware) : Stack :=
  { s with Middleware := s.Middleware ++ middleware }

/-- A route registered with `router.Handle(path, stack).Methods(method).Name(name)`. -/
structure Route where
  Path : String
  Stack : Stack
  Method : String
  Name : String
deriving DecidableEq, Repr

/-- The function `NewUserPreferencesRouter` (lines 11-33): the routes, in registration
order. -/
def NewUserPreferencesRouter (logging : RequestLogging) (cors : CORS)
    (notificationPreferencesReadAuthenticator : Authenticator)
    (databaseAllocator : DatabaseAllocator)
    (notificationPreferencesAdminAuthenticator : Authenticator)
    (notificationPreferencesWriteAuthenticator : Authenticator) : List Route :=
  [ ⟨"/user_preferences",
      (NewStack Handler.OptionsPreferences).Use
        [.logging logging, .requestCounter, .cors cors],
      "OPTIONS", "OPTIONS /user_preferences"⟩,
    ⟨"/user_preferences",
      (NewStack Handler.GetPreferences).Use
        [.logging logging, .requestCounter, .cors cors,
          .authenticator notificationPreferencesReadAuthenticator,
          .databaseAllocator databaseAllocator],
      "GET", "GET /user_preferences"⟩,
    ⟨"/user_preferences",
      (NewStack Handler.UpdatePreferences).Use
        [.logging logging, .requestCounter, .cors cors,
          .authenticator notificationPreferencesWriteAuthenticator,
          .databaseAllocator databaseAllocator],
      "PATCH", "PATCH /user_preferences"⟩,
    ⟨"/user_preferences/\x7buser_id\x7d",
      (NewStack Handler.OptionsPreferences).Use
        [.logging logging, .requestCounter, .cors cors],
      "OPTIONS", "OPTIONS /user_preferences/\x7buser_id\x7d"⟩,
    ⟨"/user_preferences/\x7buser_id\x7d",
      (NewStack Handler.GetPreferencesForUser).Use
        [.logging logging, .requestCounter, .cors cors,
          .authenticator notificationPreferencesAdminAuthenticator,
          .databaseAllocator databaseAllocator],
      "GET", "GET /user_preferences/\x7buser_id\x7d"⟩,
    ⟨"/user_preferences/\x7buser_id\x7d",
      (NewStack Handler.UpdateSpecificUserPreferences).Use
        [.logging logging, .requestCounter, .cors cors,
          .authenticator notificationPreferencesAdminAuthenticator,
          .databaseAllocator databaseAllocator],
      "PATCH", "PATCH /user_preferences/\x7buser_id\x7d"⟩ ]

/-- The authenticators of a stack, in order. -/
def Stack.authenticators (s : Stack) : List Authenticator :=
  s.Middleware.filterMap fun
    | web.Middleware.authenticator a => some a
    | _ => none

/-- Whether the middleware is an authenticator. -/
def Middleware.isAuthenticator : Middleware → Bool
  | Middleware.authenticator _ => true
  | _ => false

/-- Whether the middleware is a database allocator. -/
def Middleware.isDatabaseAllocator : Middleware → Bool
  | Middleware.databaseAllocator _ => true
  | _ => false

/-- The router of the examples, with three different authenticators. -/
def testRouter : List Route :=
  NewUserPreferencesRouter ⟨"logging"⟩ ⟨"*"⟩ ⟨["notification_preferences.read"]⟩ ⟨false⟩
    ⟨["notification_preferences.admin"]⟩ ⟨["notification_preferences.write"]⟩

end web

end Notifications

namespace Notifications

/-! ## The job map -/

theorem JobMap.keys_set (m : JobMap) (k : String) (v : Job) :
    JobMap.keys (JobMap.set m k v) =
      if k ∈ JobMap.keys m then JobMap.keys m else JobMap.keys m ++ [k] := by
  induction m with
  | nil => simp [JobMap.set, JobMap.keys]
  | cons e rest ih =>
    obtain ⟨k', v'⟩ := e
    unfold JobMap.keys at ih ⊢
    by_cases hk : k' = k
    · subst hk
      simp [JobMap.set]
    · have hk' : ¬ k = k' := fun h => hk h.symm
      simp only [JobMap.set, hk, if_false, List.map_cons, ih, List.mem_cons, hk', false_or]
      split <;> simp

theorem JobMap.mem_keys_set (m : JobMap) (k : String) (v : Job) (x : String) :
    x ∈ JobMap.keys (JobMap.set m k v) ↔ x = k ∨ x ∈ JobMap.keys m := by
  rw [JobMap.keys_set]
  split
  · constructor
    · exact Or.inr
    · rintro (rfl | h)
      · assumption
      · exact h
  · simp [or_comm]

theorem JobMap.nodup_keys_set (m : JobMap) (k : String) (v : Job)
    (h : (JobMap.keys m).Nodup) : (JobMap.keys (JobMap.set m k v)).Nodup := by
  rw [JobMap.keys_set]
  split
  · exact h
  · rename_i hk
    exact List.Nodup.append h (List.nodup_singleton k) (by simpa using hk)

theorem JobMap.set_of_not_mem (m : JobMap) (k : String) (v : Job)
    (h : k ∉ JobMap.keys m) : JobMap.set m k v = m ++ [(k, v)] := by
  induction m with
  | nil => rfl
  | cons e rest ih =>
    obtain ⟨k', v'⟩ := e
    simp only [JobMap.keys, List.map_cons, List.mem_cons, not_or] at h
    have hk : ¬ k' = k := fun h' => h.1 h'.symm
    simp only [JobMap.set, hk, if_false, List.cons_append]
    rw [ih h.2]

/-! ## Observations on the traces of the loops -/

@[simp] theorem generatedIDs_append (a b : List Event) :
    generatedIDs (a ++ b) = generatedIDs a ++ generatedIDs b := by
  simp [generatedIDs]

@[simp] theorem upsertedMessages_append (a b : List Event) :
    upsertedMessages (a ++ b) = upsertedMessages a ++ upsertedMessages b := by
  simp [upsertedMessages]

@[simp] theorem enqueuedJobs_append (a b : List Event) :
    enqueuedJobs (a ++ b) = enqueuedJobs a ++ enqueuedJobs b := by
  simp [enqueuedJobs]

@[simp] theorem generatedIDs_generateOk (ids : List String) :
    generatedIDs (ids.map generateOk) = ids := by
  induction ids with
  | nil => rfl
  | cons a t ih => simpa [generatedIDs, generateOk, Event.generatedID] using ih

@[simp] theorem generatedIDs_upsertOk (es : JobMap) : generatedIDs (es.map upsertOk) = [] := by
  induction es with
  | nil => rfl
  | cons a t _ => simp [generatedIDs, upsertOk, Event.generatedID]

@[simp] theorem generatedIDs_enqueueOk (es : JobMap) :
    generatedIDs (es.map enqueueOk) = [] := by
  induction es with
  | nil => rfl
  | cons a t _ => simp [generatedIDs, enqueueOk, Event.generatedID]

@[simp] theorem upsertedMessages_generateOk (ids : List String) :
    upsertedMessages (ids.map generateOk) = [] := by
  induction ids with
  | nil => rfl
  | cons a t _ => simp [upsertedMessages, generateOk, Event.upsertedMessage]

@[simp] theorem upsertedMessages_upsertOk (es : JobMap) :
    upsertedMessages (es.map upsertOk) =
      es.map (fun e => ({ ID := e.1, Status := StatusQueued } : Message)) := by
  induction es with
  | nil => rfl
  | cons a t ih => simpa [upsertedMessages, upsertOk, Event.upsertedMessage] using ih

@[simp] theorem upsertedMessages_enqueueOk (es : JobMap) :
    upsertedMessages (es.map enqueueOk) = [] := by
  induction es with
  | nil => rfl
  | cons a t _ => simp [upsertedMessages, enqueueOk, Event.upsertedMessage]

@[simp] theorem enqueuedJobs_generateOk (ids : List String) :
    enqueuedJobs (ids.map generateOk) = [] := by
  induction ids with
  | nil => rfl
  | cons a t _ => simp [enqueuedJobs, generateOk, Event.enqueuedJob]

@[simp] theorem enqueuedJobs_upsertOk (es : JobMap) : enqueuedJobs (es.map upsertOk) = [] := by
  induction es with
  | nil => rfl
  | cons a t _ => simp [enqueuedJobs, upsertOk, Event.enqueuedJob]

@[simp] theorem enqueuedJobs_enqueueOk (es : JobMap) :
    enqueuedJobs (es.map enqueueOk) = es.map Prod.snd := by
  induction es with
  | nil => rfl
  | cons a t ih => simpa [enqueuedJobs, enqueueOk, Event.enqueuedJob] using ih

@[simp] theorem generatedIDs_nil : generatedIDs [] = [] := rfl

@[simp] theorem upsertedMessages_nil : upsertedMessages [] = [] := rfl

@[simp] theorem enqueuedJobs_nil : enqueuedJobs [] = [] := rfl

@[simp] theorem generatedIDs_cons (e : Event) (t : List Event) :
    generatedIDs (e :: t) = (e.generatedID).toList ++ generatedIDs t := by
  cases h : e.generatedID <;> simp [generatedIDs, h]

@[simp] theorem upsertedMessages_cons (e : Event) (t : List Event) :
    upsertedMessages (e :: t) = (e.upsertedMessage).toList ++ upsertedMessages t := by
  cases h : e.upsertedMessage <;> simp [upsertedMessages, h]

@[simp] theorem enqueuedJobs_cons (e : Event) (t : List Event) :
    enqueuedJobs (e :: t) = (e.enqueuedJob).toList ++ enqueuedJobs t := by
  cases h : e.enqueuedJob <;> simp [enqueuedJobs, h]

theorem JobMap.mem_set (m : JobMap) (k : String) (v : Job) (e : String × Job)
    (h : e ∈ JobMap.set m k v) : e = (k, v) ∨ e ∈ m := by
  induction m with
  | nil => simpa [JobMap.set] using h
  | cons e' rest ih =>
    obtain ⟨k', v'⟩ := e'
    by_cases hk : k' = k
    · simp only [JobMap.set, hk, if_true, List.mem_cons] at h
      rcases h with h | h
      · exact Or.inl h
      · exact Or.inr (List.mem_cons_of_mem _ h)
    · simp only [JobMap.set, hk, if_false, List.mem_cons] at h
      rcases h with h | h
      · exact Or.inr (h ▸ List.mem_cons_self _ _)
      · rcases ih h with h' | h'
        · exact Or.inl h'
        · exact Or.inr (List.mem_cons_of_mem _ h')

section Loops

variable (enqueuer : Enqueuer) (options : Options) (space : CloudControllerSpace)
  (organization : CloudControllerOrganization) (clientID uaaHost scope vcapRequestID : String)
  (reqReceived : Time)

/-! ## The first loop -/

theorem buildLoop_ok (users : List User) :
    ∀ (h : History) (rs : List Response) (m : JobMap) (rs' : List Response) (m' : JobMap)
      (gen : List Event),
      buildLoop enqueuer options space organization clientID uaaHost scope vcapRequestID
          reqReceived h users rs m = (.ok (rs', m'), gen) →
      ∃ ids : List String, ids.length = users.length ∧ gen = ids.map generateOk ∧
        rs' = rs ++ List.zipWith (responseFor vcapRequestID) users ids ∧
        m' = assignJobs options space organization clientID uaaHost scope vcapRequestID
          reqReceived m users ids := by
  induction users with
  | nil =>
    intro h rs m rs' m' gen hb
    simp only [buildLoop, Prod.mk.injEq, Except.ok.injEq] at hb
    obtain ⟨⟨h1, h2⟩, h3⟩ := hb
    exact ⟨[], rfl, by simp [← h3], by simp [h1], by simp [assignJobs, h2]⟩
  | cons user users ih =>
    intro h rs m rs' m' gen hb
    unfold buildLoop at hb
    split at hb
    · simp at hb
    · rename_i messageID hg
      simp only [Prod.mk.injEq] at hb
      obtain ⟨h1, h2⟩ := hb
      obtain ⟨ids, hl, hgen, hrs, hm⟩ := ih _ _ _ rs' m' _ (Prod.ext h1 rfl)
      refine ⟨messageID :: ids, by simp [hl], ?_, ?_, ?_⟩
      · subst h2; exact congrArg (List.cons _) hgen
      · rw [hrs]; simp
      · rw [hm]; rfl

theorem buildLoop_error (users : List User) :
    ∀ (h : History) (rs : List Response) (m : JobMap) (err : String) (gen : List Event),
      buildLoop enqueuer options space organization clientID uaaHost scope vcapRequestID
          reqReceived h users rs m = (.error err, gen) →
      ∃ ids : List String, ids.length < users.length ∧
        gen = ids.map generateOk ++ [Event.generate (.error err)] := by
  induction users with
  | nil =>
    intro h rs m err gen hb
    simp [buildLoop] at hb
  | cons user users ih =>
    intro h rs m err gen hb
    unfold buildLoop at hb
    split at hb
    · rename_i err' hg
      simp only [Prod.mk.injEq, Except.error.injEq] at hb
      exact ⟨[], by simp, by simp [← hb.2, hb.1]⟩
    · rename_i messageID hg
      simp only [Prod.mk.injEq] at hb
      obtain ⟨h1, h2⟩ := hb
      obtain ⟨ids, hl, hgen⟩ := ih _ _ _ err _ (Prod.ext h1 rfl)
      refine ⟨messageID :: ids, by simpa using hl, ?_⟩
      subst h2; exact congrArg (List.cons _) hgen

/-! ## The second and third loops -/

theorem upsertLoop_none (es : JobMap) :
    ∀ (h : History) (ups : List Event), upsertLoop enqueuer h es = (none, ups) →
      ups = es.map upsertOk := by
  induction es with
  | nil => intro h ups hu; simp [upsertLoop] at hu; simp [hu]
  | cons e es ih =>
    intro h ups hu
    obtain ⟨k, v⟩ := e
    simp only [upsertLoop] at hu
    split at hu
    · simp at hu
    · simp only [Prod.mk.injEq] at hu
      obtain ⟨hu1, hu2⟩ := hu
      subst hu2
      exact congrArg (List.cons _) (ih _ _ (Prod.ext hu1 rfl))

theorem upsertLoop_some (es : JobMap) :
    ∀ (h : History) (err : String) (ups : List Event),
      upsertLoop enqueuer h es = (some err, ups) →
      ∃ (done : JobMap) (e : String × Job) (rest : JobMap), es = done ++ e :: rest ∧
        ups = done.map upsertOk ++ [Event.upsert { ID := e.1, Status := StatusQueued } (some err)] := by
  induction es with
  | nil => intro h err ups hu; simp [upsertLoop] at hu
  | cons e es ih =>
    intro h err ups hu
    obtain ⟨k, v⟩ := e
    simp only [upsertLoop] at hu
    split at hu
    · rename_i err' _
      simp only [Prod.mk.injEq, Option.some.injEq] at hu
      exact ⟨[], (k, v), es, rfl, by simp [← hu.2, hu.1]⟩
    · simp only [Prod.mk.injEq] at hu
      obtain ⟨done, e, rest, hes, hups⟩ := ih _ err _ (Prod.ext hu.1 rfl)
      refine ⟨(k, v) :: done, e, rest, by simp [hes], ?_⟩
      obtain ⟨hu1, hu2⟩ := hu
      subst hu2
      exact congrArg (List.cons _) hups

theorem enqueueLoop_none (es : JobMap) :
    ∀ (h : History) (enqs : List Event), enqueueLoop enqueuer h es = (none, enqs) →
      enqs = es.map enqueueOk := by
  induction es with
  | nil => intro h enqs hu; simp [enqueueLoop] at hu; simp [hu]
  | cons e es ih =>
    intro h enqs hu
    obtain ⟨k, v⟩ := e
    unfold enqueueLoop at hu
    split at hu
    · simp at hu
    · simp only [Prod.mk.injEq] at hu
      obtain ⟨hu1, hu2⟩ := hu
      subst hu2
      exact congrArg (List.cons _) (ih _ _ (Prod.ext hu1 rfl))

theorem enqueueLoop_some (es : JobMap) :
    ∀ (h : History) (err : String) (enqs : List Event),
      enqueueLoop enqueuer h es = (some err, enqs) →
      ∃ (done : JobMap) (e : String × Job) (rest : JobMap), es = done ++ e :: rest ∧
        enqs = done.map enqueueOk ++ [Event.enqueue e.2 (some err)] := by
  induction es with
  | nil => intro h err enqs hu; simp [enqueueLoop] at hu
  | cons e es ih =>
    intro h err enqs hu
    obtain ⟨k, v⟩ := e
    unfold enqueueLoop at hu
    split at hu
    · rename_i err' _
      simp only [Prod.mk.injEq, Option.some.injEq] at hu
      exact ⟨[], (k, v), es, rfl, by simp [← hu.2, hu.1]⟩
    · simp only [Prod.mk.injEq] at hu
      obtain ⟨done, e, rest, hes, hups⟩ := ih _ err _ (Prod.ext hu.1 rfl)
      refine ⟨(k, v) :: done, e, rest, by simp [hes], ?_⟩
      obtain ⟨hu1, hu2⟩ := hu
      subst hu2
      exact congrArg (List.cons _) hups

/-! ## The map built by the first loop -/

theorem mem_keys_assignJobs (users : List User) :
    ∀ (ids : List String) (m : JobMap), ids.length = users.length → ∀ x : String,
      (x ∈ JobMap.keys (assignJobs options space organization clientID uaaHost scope
          vcapRequestID reqReceived m users ids) ↔ x ∈ JobMap.keys m ∨ x ∈ ids) := by
  induction users with
  | nil =>
    intro ids m hl x
    cases ids with
    | nil => simp [assignJobs]
    | cons a t => simp at hl
  | cons user users ih =>
    intro ids m hl x
    cases ids with
    | nil => simp at hl
    | cons a t =>
      simp only [List.length_cons, add_left_inj] at hl
      simp only [assignJobs, ih t _ hl x, JobMap.mem_keys_set, List.mem_cons]
      tauto

theorem nodup_keys_assignJobs (users : List User) :
    ∀ (ids : List String) (m : JobMap), (JobMap.keys m).Nodup →
      (JobMap.keys (assignJobs options space organization clientID uaaHost scope
          vcapRequestID reqReceived m users ids)).Nodup := by
  induction users with
  | nil => intro ids m hm; simpa [assignJobs] using hm
  | cons user users ih =>
    intro ids m hm
    cases ids with
    | nil => simpa [assignJobs] using hm
    | cons a t =>
      simp only [assignJobs]
      exact ih t _ (JobMap.nodup_keys_set m a _ hm)

theorem mem_assignJobs (users : List User) :
    ∀ (ids : List String) (m : JobMap) (e : String × Job),
      e ∈ assignJobs options space organization clientID uaaHost scope vcapRequestID
          reqReceived m users ids →
      e ∈ m ∨ ∃ p ∈ users.zip ids, e = (p.2, jobFor options space organization clientID uaaHost
          scope vcapRequestID reqReceived p.1 p.2) := by
  induction users with
  | nil => intro ids m e he; left; simpa [assignJobs] using he
  | cons user users ih =>
    intro ids m e he
    cases ids with
    | nil => left; simpa [assignJobs] using he
    | cons a t =>
      simp only [assignJobs] at he
      rcases ih t _ e he with h | ⟨p, hp, hpe⟩
      · rcases JobMap.mem_set _ _ _ _ h with h' | h'
        · right
          exact ⟨(user, a), by simp, h'⟩
        · exact Or.inl h'
      · right
        exact ⟨p, by simp [hp], hpe⟩

theorem assignJobs_of_nodup (users : List User) :
    ∀ (ids : List String) (m : JobMap), ids.Nodup → (∀ x ∈ ids, x ∉ JobMap.keys m) →
      assignJobs options space organization clientID uaaHost scope vcapRequestID
          reqReceived m users ids =
        m ++ List.zipWith (fun user messageID => (messageID, jobFor options space organization
          clientID uaaHost scope vcapRequestID reqReceived user messageID)) users ids := by
  induction users with
  | nil => intro ids m _ _; simp [assignJobs]
  | cons user users ih =>
    intro ids m hn hd
    cases ids with
    | nil => simp [assignJobs]
    | cons a t =>
      have ha : a ∉ JobMap.keys m := hd a (List.mem_cons_self _ _)
      rw [List.nodup_cons] at hn
      simp only [assignJobs, JobMap.set_of_not_mem m a _ ha, List.zipWith_cons_cons]
      rw [ih t _ hn.2]
      · simp
      · intro x hx
        simp only [JobMap.keys, List.map_append, List.map_cons, List.map_nil, List.mem_append,
          List.mem_singleton, not_or]
        refine ⟨hd x (List.mem_cons_of_mem _ hx), ?_⟩
        rintro rfl
        exact hn.1 hx

theorem length_assignJobs (users : List User) (ids : List String)
    (hl : ids.length = users.length) :
    (assignJobs options space organization clientID uaaHost scope vcapRequestID
      reqReceived [] users ids).length = ids.dedup.length := by
  have hk := nodup_keys_assignJobs options space organization clientID uaaHost scope
    vcapRequestID reqReceived users ids [] (by simp [JobMap.keys])
  have hm := mem_keys_assignJobs options space organization clientID uaaHost scope
    vcapRequestID reqReceived users ids [] hl
  have h1 : (assignJobs options space organization clientID uaaHost scope vcapRequestID
      reqReceived [] users ids).length = (JobMap.keys (assignJobs options space organization
        clientID uaaHost scope vcapRequestID reqReceived [] users ids)).length := by
    simp [JobMap.keys]
  rw [h1, ← List.toFinset_card_of_nodup hk, ← List.card_toFinset]
  congr 1
  ext x
  rw [List.mem_toFinset, List.mem_toFinset, hm x]
  simp [JobMap.keys]

/-! ## The shape of a call -/

/-- Every call of `Enqueue` ends in one of five ways: the generator fails (panic), an upsert
fails (rollback), the commit fails, a queue insert fails, or everything succeeds. -/
theorem Enqueue_shape (runtime : Runtime) (h0 : History) (conn : ConnectionInterface)
    (users : List User) :
    (∃ (ids : List String) (err : String), ids.length < users.length ∧
      enqueuer.Enqueue options space organization clientID uaaHost scope vcapRequestID
        reqReceived runtime h0 conn users =
        ⟨.panicked err, ids.map generateOk ++ [Event.generate (.error err)]⟩) ∨
    (∃ ids : List String, ids.length = users.length ∧
      ((∃ (done : JobMap) (e : String × Job) (rest : JobMap) (err : String),
        runtime.rangeMessages.range
          (assignJobs options space organization clientID uaaHost scope vcapRequestID
            reqReceived [] users ids) = done ++ e :: rest ∧
        enqueuer.Enqueue options space organization clientID uaaHost scope vcapRequestID
          reqReceived runtime h0 conn users =
          ⟨.returned [], ids.map generateOk ++ [Event.begin] ++
            (done.map upsertOk ++
              [Event.upsert { ID := e.1, Status := StatusQueued } (some err)]) ++
            [Event.rollback]⟩) ∨
      (∃ err : String,
        enqueuer.Enqueue options space organization clientID uaaHost scope vcapRequestID
          reqReceived runtime h0 conn users =
          ⟨.returned [], ids.map generateOk ++ [Event.begin] ++
            (runtime.rangeMessages.range
              (assignJobs options space organization clientID uaaHost scope vcapRequestID
                reqReceived [] users ids)).map upsertOk ++
            [Event.commit (some err)]⟩) ∨
      (∃ (done : JobMap) (e : String × Job) (rest : JobMap) (err : String),
        runtime.rangeJobs.range
          (assignJobs options space organization clientID uaaHost scope vcapRequestID
            reqReceived [] users ids) = done ++ e :: rest ∧
        enqueuer.Enqueue options space organization clientID uaaHost scope vcapRequestID
          reqReceived runtime h0 conn users =
          ⟨.returned [], ids.map generateOk ++ [Event.begin] ++
            (runtime.rangeMessages.range
              (assignJobs options space organization clientID uaaHost scope vcapRequestID
                reqReceived [] users ids)).map upsertOk ++
            [Event.commit none] ++
            (done.map enqueueOk ++ [Event.enqueue e.2 (some err)])⟩) ∨
      enqueuer.Enqueue options space organization clientID uaaHost scope vcapRequestID
          reqReceived runtime h0 conn users =
        ⟨.returned (List.zipWith (responseFor vcapRequestID) users ids),
          ids.map generateOk ++ [Event.begin] ++
            (runtime.rangeMessages.range
              (assignJobs options space organization clientID uaaHost scope vcapRequestID
                reqReceived [] users ids)).map upsertOk ++
            [Event.commit none] ++
            (runtime.rangeJobs.range
              (assignJobs options space organization clientID uaaHost scope vcapRequestID
                reqReceived [] users ids)).map enqueueOk⟩)) := by
  unfold Enqueuer.Enqueue
  split
  · rename_i err gen hb
    obtain ⟨ids, hl, hgen⟩ := buildLoop_error enqueuer options space organization clientID
      uaaHost scope vcapRequestID reqReceived users _ _ _ _ _ hb
    exact Or.inl ⟨ids, err, hl, by rw [hgen]⟩
  · rename_i responses jobsByMessageID gen hb
    obtain ⟨ids, hl, hgen, hrs, hm⟩ := buildLoop_ok enqueuer options space organization
      clientID uaaHost scope vcapRequestID reqReceived users _ _ _ _ _ _ hb
    refine Or.inr ⟨ids, hl, ?_⟩
    subst hgen hm
    simp only [List.nil_append] at hrs
    subst hrs
    dsimp only
    split
    · rename_i err ups hu
      obtain ⟨done, e, rest, hes, hups⟩ := upsertLoop_some enqueuer _ _ _ _ hu
      exact Or.inl ⟨done, e, rest, err, hes, by rw [hups]⟩
    · rename_i ups hu
      have hups := upsertLoop_none enqueuer _ _ _ hu
      subst hups
      split
      · rename_i err hc
        exact Or.inr (Or.inl ⟨err, rfl⟩)
      · split
        · rename_i err enqs hq
          obtain ⟨done, e, rest, hes, henqs⟩ := enqueueLoop_some enqueuer _ _ _ _ hq
          exact Or.inr (Or.inr (Or.inl ⟨done, e, rest, err, hes, by rw [henqs]⟩))
        · rename_i enqs hq
          have henqs := enqueueLoop_none enqueuer _ _ _ hq
          subst henqs
          exact Or.inr (Or.inr (Or.inr rfl))

/-- The trace of a call in which every collaborator succeeded. -/
theorem Enqueue_of_no_failure (runtime : Runtime) (h0 : History) (conn : ConnectionInterface)
    (users : List User)
    (hok : ∀ e ∈ (enqueuer.Enqueue options space organization clientID uaaHost scope
      vcapRequestID reqReceived runtime h0 conn users).trace, e.isFailure = false) :
    ∃ ids : List String, ids.length = users.length ∧
      enqueuer.Enqueue options space organization clientID uaaHost scope vcapRequestID
          reqReceived runtime h0 conn users =
        ⟨.returned (List.zipWith (responseFor vcapRequestID) users ids),
          ids.map generateOk ++ [Event.begin] ++
            (runtime.rangeMessages.range
              (assignJobs options space organization clientID uaaHost scope vcapRequestID
                reqReceived [] users ids)).map upsertOk ++
            [Event.commit none] ++
            (runtime.rangeJobs.range
              (assignJobs options space organization clientID uaaHost scope vcapRequestID
                reqReceived [] users ids)).map enqueueOk⟩ := by
  rcases Enqueue_shape enqueuer options space organization clientID uaaHost scope
    vcapRequestID reqReceived runtime h0 conn users with
    ⟨ids, err, _, hrun⟩ | ⟨ids, hl, ⟨done, e, rest, err, _, hrun⟩ | ⟨err, hrun⟩ |
      ⟨done, e, rest, err, _, hrun⟩ | hrun⟩
  · rw [hrun] at hok
    have := hok (Event.generate (.error err)) (by simp)
    simp [Event.isFailure] at this
  · rw [hrun] at hok
    have := hok (Event.upsert { ID := e.1, Status := StatusQueued } (some err)) (by simp)
    simp [Event.isFailure] at this
  · rw [hrun] at hok
    have := hok (Event.commit (some err)) (by simp)
    simp [Event.isFailure] at this
  · rw [hrun] at hok
    have := hok (Event.enqueue e.2 (some err)) (by simp)
    simp [Event.isFailure] at this
  · exact ⟨ids, hl, hrun⟩

/-- The trace of a call that returned a non-empty response list. -/
theorem Enqueue_of_returned_nonempty (runtime : Runtime) (h0 : History)
    (conn : ConnectionInterface) (users : List User) (rs : List Response)
    (hr : (enqueuer.Enqueue options space organization clientID uaaHost scope
      vcapRequestID reqReceived runtime h0 conn users).outcome = .returned rs)
    (hne : rs ≠ []) :
    ∃ ids : List String, ids.length = users.length ∧
      rs = List.zipWith (responseFor vcapRequestID) users ids ∧
      (enqueuer.Enqueue options space organization clientID uaaHost scope vcapRequestID
          reqReceived runtime h0 conn users).trace =
        ids.map generateOk ++ [Event.begin] ++
            (runtime.rangeMessages.range
              (assignJobs options space organization clientID uaaHost scope vcapRequestID
                reqReceived [] users ids)).map upsertOk ++
            [Event.commit none] ++
            (runtime.rangeJobs.range
              (assignJobs options space organization clientID uaaHost scope vcapRequestID
                reqReceived [] users ids)).map enqueueOk := by
  rcases Enqueue_shape enqueuer options space organization clientID uaaHost scope
    vcapRequestID reqReceived runtime h0 conn users with
    ⟨ids, err, _, hrun⟩ | ⟨ids, hl, ⟨done, e, rest, err, _, hrun⟩ | ⟨err, hrun⟩ |
      ⟨done, e, rest, err, _, hrun⟩ | hrun⟩
  · rw [hrun] at hr; simp at hr
  · rw [hrun] at hr
    simp only [Outcome.returned.injEq] at hr
    exact absurd hr.symm hne
  · rw [hrun] at hr
    simp only [Outcome.returned.injEq] at hr
    exact absurd hr.symm hne
  · rw [hrun] at hr
    simp only [Outcome.returned.injEq] at hr
    exact absurd hr.symm hne
  · rw [hrun] at hr ⊢
    simp only [Outcome.returned.injEq] at hr
    exact ⟨ids, hl, hr.symm, rfl⟩

/-- Every entry of the map built by the first loop holds a job that carries the entry's key
as its message id. -/
theorem messageID_of_mem_assignJobs (users : List User) (ids : List String)
    (e : String × Job)
    (he : e ∈ assignJobs options space organization clientID uaaHost scope vcapRequestID
      reqReceived [] users ids) : e.2.Payload.MessageID = e.1 := by
  rcases mem_assignJobs options space organization clientID uaaHost scope vcapRequestID
    reqReceived users ids [] e he with h | ⟨p, _, hp⟩
  · simp at h
  · rw [hp]; rfl

/-- What a call in which every collaborator succeeded returns, generates, upserts and
enqueues. -/
theorem observations_of_no_failure (runtime : Runtime) (h0 : History)
    (conn : ConnectionInterface) (users : List User)
    (hok : ∀ e ∈ (enqueuer.Enqueue options space organization clientID uaaHost scope
      vcapRequestID reqReceived runtime h0 conn users).trace, e.isFailure = false) :
    ∃ ids : List String, ids.length = users.length ∧
      (enqueuer.Enqueue options space organization clientID uaaHost scope vcapRequestID
        reqReceived runtime h0 conn users).outcome =
        .returned (List.zipWith (responseFor vcapRequestID) users ids) ∧
      generatedIDs (enqueuer.Enqueue options space organization clientID uaaHost scope
        vcapRequestID reqReceived runtime h0 conn users).trace = ids ∧
      upsertedMessages (enqueuer.Enqueue options space organization clientID uaaHost scope
        vcapRequestID reqReceived runtime h0 conn users).trace =
        (runtime.rangeMessages.range (assignJobs options space organization clientID uaaHost
          scope vcapRequestID reqReceived [] users ids)).map
          (fun e => ({ ID := e.1, Status := StatusQueued } : Message)) ∧
      enqueuedJobs (enqueuer.Enqueue options space organization clientID uaaHost scope
        vcapRequestID reqReceived runtime h0 conn users).trace =
        (runtime.rangeJobs.range (assignJobs options space organization clientID uaaHost
          scope vcapRequestID reqReceived [] users ids)).map Prod.snd := by
  obtain ⟨ids, hl, hrun⟩ := Enqueue_of_no_failure enqueuer options space organization
    clientID uaaHost scope vcapRequestID reqReceived runtime h0 conn users hok
  rw [hrun]
  exact ⟨ids, hl, rfl, by simp [Event.generatedID], by simp [Event.upsertedMessage],
    by simp [Event.enqueuedJob]⟩

/-- The message ids of the jobs of visited entries are the keys of the entries. -/
theorem messageIDs_of_range (order : MapOrder) (users : List User) (ids : List String) :
    ((order.range (assignJobs options space organization clientID uaaHost scope
      vcapRequestID reqReceived [] users ids)).map Prod.snd).map
        (fun job => job.Payload.MessageID) =
      JobMap.keys (order.range (assignJobs options space organization clientID uaaHost scope
        vcapRequestID reqReceived [] users ids)) := by
  simp only [JobMap.keys, List.map_map]
  apply List.map_congr_left
  intro e he
  exact messageID_of_mem_assignJobs options space organization clientID uaaHost scope
    vcapRequestID reqReceived users ids e ((order.perm _).mem_iff.mp he)

/-- The keys of the visited entries are a permutation of the keys of the map. -/
theorem keys_range_perm (order : MapOrder) (m : JobMap) :
    (JobMap.keys (order.range m)).Perm (JobMap.keys m) :=
  (order.perm m).map Prod.fst

/-- With pairwise distinct ids, the keys of the map built by the first loop are a permutation
of the ids. -/
theorem keys_assignJobs_perm (users : List User) (ids : List String)
    (hl : ids.length = users.length) (hd : ids.Nodup) :
    (JobMap.keys (assignJobs options space organization clientID uaaHost scope
      vcapRequestID reqReceived [] users ids)).Perm ids := by
  refine (List.perm_ext_iff_of_nodup (nodup_keys_assignJobs options space organization
    clientID uaaHost scope vcapRequestID reqReceived users ids [] (by simp [JobMap.keys]))
    hd).mpr ?_
  intro x
  rw [mem_keys_assignJobs options space organization clientID uaaHost scope
    vcapRequestID reqReceived users ids [] hl x]
  simp [JobMap.keys]

/-- The message ids of the jobs built for users and ids of equal number are the ids. -/
theorem messageIDs_zipWith_jobFor (users : List User) :
    ∀ ids : List String, ids.length = users.length →
      (List.zipWith (jobFor options space organization clientID uaaHost scope vcapRequestID
        reqReceived) users ids).map (fun job => job.Payload.MessageID) = ids := by
  induction users with
  | nil =>
    intro ids hl
    cases ids with
    | nil => rfl
    | cons a t => simp at hl
  | cons user users ih =>
    intro ids hl
    cases ids with
    | nil => simp at hl
    | cons a t =>
      simp only [List.length_cons, add_left_inj] at hl
      simp only [List.zipWith_cons_cons, List.map_cons, ih t hl]
      rfl

/-! ## Storage lemmas -/

theorem Store.replay_append (s : Store) (a b : List Event) :
    s.replay (a ++ b) = (s.replay a).replay b := by
  simp [Store.replay, List.foldl_append]

theorem Store.replay_generateOk (s : Store) (ids : List String) :
    s.replay (ids.map generateOk) = s := by
  induction ids with
  | nil => rfl
  | cons a t ih =>
    simp only [Store.replay, List.map_cons, List.foldl_cons] at ih ⊢
    exact ih

theorem Store.replay_upsertOk (es : JobMap) :
    ∀ (rows ws : List Message),
      Store.replay ⟨rows, some ws⟩ (es.map upsertOk) =
        ⟨rows, some (ws ++ es.map (fun e => ({ ID := e.1, Status := StatusQueued } : Message)))⟩ := by
  induction es with
  | nil => intro rows ws; simp [Store.replay]
  | cons a t ih =>
    intro rows ws
    simp only [Store.replay, List.map_cons, List.foldl_cons] at ih ⊢
    have : Store.apply ⟨rows, some ws⟩ (upsertOk a) =
        ⟨rows, some (ws ++ [({ ID := a.1, Status := StatusQueued } : Message)])⟩ := rfl
    rw [this, ih]
    simp

theorem mem_ids_foldl_upsertRow (ws : List Message) :
    ∀ (rows : List Message) (x : String),
      x ∈ (ws.foldl upsertRow rows).map (fun m => m.ID) ↔
        x ∈ rows.map (fun m => m.ID) ∨ x ∈ ws.map (fun m => m.ID) := by
  induction ws with
  | nil => intro rows x; simp
  | cons w ws ih =>
    intro rows x
    simp only [List.foldl_cons, ih, List.map_cons, List.mem_cons]
    have : x ∈ (upsertRow rows w).map (fun m => m.ID) ↔
        x ∈ rows.map (fun m => m.ID) ∨ x = w.ID := by
      simp only [upsertRow, List.map_append, List.mem_append, List.mem_map, List.mem_filter,
        List.map_cons, List.map_nil, List.mem_singleton]
      constructor
      · rintro (⟨m, ⟨hm, _⟩, rfl⟩ | h)
        · exact Or.inl ⟨m, hm, rfl⟩
        · exact Or.inr h
      · rintro (⟨m, hm, rfl⟩ | h)
        · by_cases hw : m.ID = w.ID
          · exact Or.inr hw
          · exact Or.inl ⟨m, ⟨hm, by simpa using hw⟩, rfl⟩
        · exact Or.inr h
    rw [this]
    tauto

theorem Store.replay_of_isEnqueue (t : List Event) :
    ∀ s : Store, (∀ e ∈ t, e.isEnqueue = true) → s.replay t = s := by
  induction t with
  | nil => intro s _; rfl
  | cons a t ih =>
    intro s h
    have ha : a.isEnqueue = true := h a (List.mem_cons_self _ _)
    have hs : s.apply a = s := by
      cases a <;> first | rfl | simp [Event.isEnqueue] at ha
    simp only [Store.replay, List.foldl_cons, hs]
    exact ih s (fun e he => h e (List.mem_cons_of_mem _ he))

/-- The ids committed by a call that got past a successful commit are the keys of the visited
entries. -/
theorem mem_committedMessageIDs_after_commit (ids : List String) (es : JobMap)
    (tail : List Event) (htail : ∀ e ∈ tail, e.isEnqueue = true) (x : String) :
    x ∈ committedMessageIDs
        (ids.map generateOk ++ [Event.begin] ++ es.map upsertOk ++ [Event.commit none] ++ tail) ↔
      x ∈ JobMap.keys es := by
  unfold committedMessageIDs
  simp only [Store.replay_append, Store.replay_generateOk]
  have hb : Store.replay ⟨[], none⟩ [Event.begin] = ⟨[], some []⟩ := rfl
  rw [hb, Store.replay_upsertOk]
  have hc : Store.replay ⟨[], some ([] ++ es.map
      (fun e => ({ ID := e.1, Status := StatusQueued } : Message)))⟩ [Event.commit none] =
      ⟨(es.map (fun e => ({ ID := e.1, Status := StatusQueued } : Message))).foldl upsertRow [],
        none⟩ := rfl
  rw [hc, Store.replay_of_isEnqueue tail _ htail, mem_ids_foldl_upsertRow]
  simp [JobMap.keys]

/-- A call whose transaction is rolled back or fails to commit leaves no committed id. -/
theorem committedMessageIDs_of_failed_transaction (ids : List String) (es : JobMap)
    (tail : List Event)
    (htail : (∃ (m : Message) (err : String),
        tail = [Event.upsert m (some err), Event.rollback]) ∨
      ∃ err : String, tail = [Event.commit (some err)]) :
    committedMessageIDs (ids.map generateOk ++ [Event.begin] ++ es.map upsertOk ++ tail) = [] := by
  unfold committedMessageIDs
  simp only [Store.replay_append, Store.replay_generateOk]
  have hb : Store.replay ⟨[], none⟩ [Event.begin] = ⟨[], some []⟩ := rfl
  rw [hb, Store.replay_upsertOk]
  rcases htail with ⟨m, err, rfl⟩ | ⟨err, rfl⟩ <;> rfl

/-! ## Splitting a trace -/

/-- An occurrence in an append of an element that is not in the left part lies in the right
part. -/
theorem split_right_of_not_mem {α : Type} (A B pre post : List α) (e : α)
    (h : A ++ B = pre ++ e :: post) (hA : e ∉ A) :
    ∃ B₁ : List α, pre = A ++ B₁ ∧ B = B₁ ++ e :: post := by
  rcases List.append_eq_append_iff.mp h with ⟨a, hpre, hB⟩ | ⟨c, hA', hc⟩
  · exact ⟨a, hpre, hB⟩
  · cases c with
    | nil =>
      simp only [List.nil_append, List.append_nil] at hc hA'
      exact ⟨[], by simp [hA'], hc.symm⟩
    | cons x c =>
      simp only [List.cons_append, List.cons.injEq] at hc
      exact absurd (by rw [hA', hc.1]; simp) hA

/-- An occurrence in an append of an element that is not in the right part lies in the left
part. -/
theorem split_left_of_not_mem {α : Type} (A B pre post : List α) (e : α)
    (h : A ++ B = pre ++ e :: post) (hB : e ∉ B) :
    ∃ A₂ : List α, A = pre ++ e :: A₂ ∧ post = A₂ ++ B := by
  rcases List.append_eq_append_iff.mp h with ⟨a, _, hB'⟩ | ⟨c, hA', hc⟩
  · exact absurd (by rw [hB']; simp) hB
  · cases c with
    | nil =>
      simp only [List.nil_append] at hc
      exact absurd (by rw [← hc]; simp) hB
    | cons x c =>
      simp only [List.cons_append, List.cons.injEq] at hc
      exact ⟨c, by rw [hA', hc.1], hc.2⟩

/-! ## Rows written by a commit -/

theorem mem_foldl_upsertRow_of_mem_rows (ws : List Message) :
    ∀ (rows : List Message) (r : Message), r ∈ rows → r.ID ∉ ws.map (fun m => m.ID) →
      r ∈ ws.foldl upsertRow rows := by
  induction ws with
  | nil => intro rows r hr _; simpa using hr
  | cons w ws ih =>
    intro rows r hr hid
    simp only [List.map_cons, List.mem_cons, not_or] at hid
    simp only [List.foldl_cons]
    apply ih _ r _ hid.2
    simp only [upsertRow, List.mem_append, List.mem_filter, List.mem_singleton]
    exact Or.inl ⟨hr, by simpa using hid.1⟩

theorem mem_foldl_upsertRow_of_mem (ws : List Message) :
    ∀ (rows : List Message) (w : Message), w ∈ ws →
      (∀ w' ∈ ws, w'.ID = w.ID → w' = w) → w ∈ ws.foldl upsertRow rows := by
  induction ws with
  | nil => intro rows w hw _; simp at hw
  | cons a ws ih =>
    intro rows w hw huniq
    simp only [List.foldl_cons]
    by_cases hin : w ∈ ws
    · exact ih _ w hin (fun w' hw' => huniq w' (List.mem_cons_of_mem _ hw'))
    · have hwa : w = a := by
        rcases List.mem_cons.mp hw with h | h
        · exact h
        · exact absurd h hin
      subst hwa
      apply mem_foldl_upsertRow_of_mem_rows
      · simp [upsertRow]
      · intro hid
        simp only [List.mem_map] at hid
        obtain ⟨w', hw', hid'⟩ := hid
        exact hin (huniq w' (List.mem_cons_of_mem _ hw') hid' ▸ hw')

theorem of_mem_foldl_upsertRow (ws : List Message) :
    ∀ (rows : List Message) (r : Message), r ∈ ws.foldl upsertRow rows →
      r ∈ ws ∨ (r ∈ rows ∧ r.ID ∉ ws.map (fun m => m.ID)) := by
  induction ws with
  | nil => intro rows r hr; right; simpa using hr
  | cons w ws ih =>
    intro rows r hr
    simp only [List.foldl_cons] at hr
    rcases ih _ r hr with h | ⟨h1, h2⟩
    · exact Or.inl (List.mem_cons_of_mem _ h)
    · simp only [upsertRow, List.mem_append, List.mem_filter, List.mem_singleton] at h1
      rcases h1 with ⟨h3, h4⟩ | h3
      · right
        refine ⟨h3, ?_⟩
        simp only [List.map_cons, List.mem_cons, not_or]
        exact ⟨by simpa using h4, h2⟩
      · exact Or.inl (h3 ▸ List.mem_cons_self _ _)

/-- The committed rows after a call that got past a successful commit: the rows before, with
the queued message of every visited entry upserted. -/
theorem rows_after_commit (s : Store) (ids : List String) (es : JobMap) (tail : List Event)
    (htail : ∀ e ∈ tail, e.isEnqueue = true) :
    (s.replay (ids.map generateOk ++ [Event.begin] ++ es.map upsertOk ++ [Event.commit none] ++
      tail)).rows =
      (es.map (fun e => ({ ID := e.1, Status := StatusQueued } : Message))).foldl upsertRow
        s.rows := by
  simp only [Store.replay_append, Store.replay_generateOk]
  have hb : s.replay [Event.begin] = ⟨s.rows, some []⟩ := rfl
  rw [hb, Store.replay_upsertOk]
  have hc : Store.replay ⟨s.rows, some ([] ++ es.map
      (fun e => ({ ID := e.1, Status := StatusQueued } : Message)))⟩ [Event.commit none] =
      ⟨(es.map (fun e => ({ ID := e.1, Status := StatusQueued } : Message))).foldl upsertRow
        s.rows, none⟩ := rfl
  rw [hc, Store.replay_of_isEnqueue tail _ htail]

/-- After a successful commit every key of the visited entries has its queued row, and every
row with such an id is queued. -/
theorem queued_row_of_mem_keys (s : Store) (ids : List String) (es : JobMap)
    (tail : List Event) (htail : ∀ e ∈ tail, e.isEnqueue = true) (k : String)
    (hk : k ∈ JobMap.keys es) :
    ({ ID := k, Status := StatusQueued } : Message) ∈
      (s.replay (ids.map generateOk ++ [Event.begin] ++ es.map upsertOk ++
        [Event.commit none] ++ tail)).rows ∧
    ∀ row ∈ (s.replay (ids.map generateOk ++ [Event.begin] ++ es.map upsertOk ++
        [Event.commit none] ++ tail)).rows, row.ID = k → row.Status = StatusQueued := by
  rw [rows_after_commit s ids es tail htail]
  constructor
  · apply mem_foldl_upsertRow_of_mem
    · simp only [JobMap.keys, List.mem_map] at hk ⊢
      obtain ⟨e, he, rfl⟩ := hk
      exact ⟨e, he, rfl⟩
    · intro w' hw' hid
      simp only [List.mem_map] at hw'
      obtain ⟨e, _, rfl⟩ := hw'
      simp only at hid
      rw [hid]
  · intro row hrow hid
    rcases of_mem_foldl_upsertRow _ _ _ hrow with h | ⟨_, h⟩
    · simp only [List.mem_map] at h
      obtain ⟨e, _, rfl⟩ := h
      rfl
    · exfalso
      apply h
      simp only [JobMap.keys, List.mem_map] at hk ⊢
      obtain ⟨e, he, rfl⟩ := hk
      exact ⟨_, ⟨e, he, rfl⟩, hid.symm⟩

/-- The jobs of the visited entries are pairwise distinct. -/
theorem nodup_jobs_range (order : MapOrder) (users : List User) (ids : List String) :
    ((order.range (assignJobs options space organization clientID uaaHost scope
      vcapRequestID reqReceived [] users ids)).map Prod.snd).Nodup := by
  apply List.Nodup.of_map (fun job => job.Payload.MessageID)
  rw [messageIDs_of_range]
  exact (keys_range_perm order _).nodup_iff.mpr
    (nodup_keys_assignJobs options space organization clientID uaaHost scope vcapRequestID
      reqReceived users ids [] (by simp [JobMap.keys]))

/-- The ids a call generates do not depend on the iteration order of the map: they are the
ids generated by the first loop. -/
theorem generatedIDs_trace (runtime : Runtime) (h0 : History) (conn : ConnectionInterface)
    (users : List User) :
    generatedIDs (enqueuer.Enqueue options space organization clientID uaaHost scope
      vcapRequestID reqReceived runtime h0 conn users).trace =
      generatedIDs (buildLoop enqueuer options space organization clientID uaaHost scope
        vcapRequestID reqReceived h0 users [] []).2 := by
  unfold Enqueuer.Enqueue
  split
  · rename_i err gen hb
    rw [hb]
  · rename_i responses jobsByMessageID gen hb
    rw [hb]
    dsimp only
    split
    · rename_i err ups hu
      obtain ⟨done, e, rest, _, hups⟩ := upsertLoop_some enqueuer _ _ _ _ hu
      subst hups
      simp [Event.generatedID]
    · rename_i ups hu
      have hups := upsertLoop_none enqueuer _ _ _ hu
      subst hups
      split
      · simp [Event.generatedID]
      · split
        · rename_i err enqs hq
          obtain ⟨done, e, rest, _, henqs⟩ := enqueueLoop_some enqueuer _ _ _ _ hq
          subst henqs
          simp [Event.generatedID]
        · rename_i enqs hq
          have henqs := enqueueLoop_none enqueuer _ _ _ hq
          subst henqs
          simp [Event.generatedID]

/-- The order of the effects of a call: generator calls only, or generator calls, `Begin`,
upserts, and then `Rollback`, a failed `Commit`, or a successful `Commit` and queue inserts. -/
theorem Enqueue_trace_form (runtime : Runtime) (h0 : History) (conn : ConnectionInterface)
    (users : List User) :
    (∀ e ∈ (enqueuer.Enqueue options space organization clientID uaaHost scope
      vcapRequestID reqReceived runtime h0 conn users).trace, e.isGenerate = true) ∨
    ∃ G U R : List Event,
      (enqueuer.Enqueue options space organization clientID uaaHost scope vcapRequestID
        reqReceived runtime h0 conn users).trace = G ++ [Event.begin] ++ U ++ R ∧
      (∀ x ∈ G, x.isGenerate = true) ∧ (∀ x ∈ U, x.isUpsert = true) ∧
      (R = [Event.rollback] ∨ (∃ err : String, R = [Event.commit (some err)]) ∨
        ∃ Q : List Event, R = Event.commit none :: Q ∧ ∀ x ∈ Q, x.isEnqueue = true) := by
  have hgen : ∀ ids : List String, ∀ x ∈ ids.map generateOk, x.isGenerate = true := by
    intro ids x hx
    simp only [List.mem_map] at hx
    obtain ⟨a, _, rfl⟩ := hx
    rfl
  have hups : ∀ es : JobMap, ∀ x ∈ es.map upsertOk, x.isUpsert = true := by
    intro es x hx
    simp only [List.mem_map] at hx
    obtain ⟨a, _, rfl⟩ := hx
    rfl
  have henq : ∀ es : JobMap, ∀ x ∈ es.map enqueueOk, x.isEnqueue = true := by
    intro es x hx
    simp only [List.mem_map] at hx
    obtain ⟨a, _, rfl⟩ := hx
    rfl
  rcases Enqueue_shape enqueuer options space organization clientID uaaHost scope
    vcapRequestID reqReceived runtime h0 conn users with
    ⟨ids, err, _, hrun⟩ | ⟨ids, hl, ⟨done, e, rest, err, _, hrun⟩ | ⟨err, hrun⟩ |
      ⟨done, e, rest, err, _, hrun⟩ | hrun⟩
  · left
    rw [hrun]
    intro x hx
    simp only [List.mem_append, List.mem_singleton] at hx
    rcases hx with hx | rfl
    · exact hgen ids x hx
    · rfl
  · right
    rw [hrun]
    refine ⟨_, _, _, rfl, hgen ids, ?_, Or.inl rfl⟩
    intro x hx
    simp only [List.mem_append, List.mem_singleton] at hx
    rcases hx with hx | rfl
    · exact hups done x hx
    · rfl
  · right
    rw [hrun]
    exact ⟨_, _, _, rfl, hgen ids, hups _, Or.inr (Or.inl ⟨err, rfl⟩)⟩
  · right
    rw [hrun]
    refine ⟨_, _, _, List.append_assoc _ [Event.commit none] _, hgen ids, hups _,
      Or.inr (Or.inr ⟨done.map enqueueOk ++ [Event.enqueue e.2 (some err)], rfl, ?_⟩)⟩
    intro x hx
    simp only [List.mem_append, List.mem_singleton] at hx
    rcases hx with hx | rfl
    · exact henq done x hx
    · rfl
  · right
    rw [hrun]
    exact ⟨_, _, _, List.append_assoc _ [Event.commit none] _, hgen ids, hups _,
      Or.inr (Or.inr ⟨_, rfl, henq _⟩)⟩

/-! ## Collaborators that answer by argument -/

/-- With a repository whose answer depends only on the message, the upsert loop meets no
error exactly when the repository accepts the message of every visited entry. -/
theorem upsertLoop_eq_none_iff
    (hups : ∀ (h h' : History) (m : Message),
      enqueuer.messagesRepo h m = enqueuer.messagesRepo h' m) (es : JobMap) :
    ∀ h : History, (upsertLoop enqueuer h es).1 = none ↔
      ∀ e ∈ es, enqueuer.messagesRepo [] { ID := e.1, Status := StatusQueued } = none := by
  induction es with
  | nil => intro h; simp [upsertLoop]
  | cons e es ih =>
    intro h
    obtain ⟨k, v⟩ := e
    simp only [upsertLoop, List.mem_cons, forall_eq_or_imp]
    split
    · rename_i err hr
      rw [hups h [] _] at hr
      simp [hr]
    · rename_i hr
      rw [hups h [] _] at hr
      simp only [hr, true_and]
      exact ih _

/-- With a queue whose answer depends only on the job, the enqueue loop meets no error
exactly when the queue accepts the job of every visited entry. -/
theorem enqueueLoop_eq_none_iff
    (hq : ∀ (h h' : History) (j : Job), enqueuer.queue h j = enqueuer.queue h' j)
    (es : JobMap) :
    ∀ h : History, (enqueueLoop enqueuer h es).1 = none ↔
      ∀ e ∈ es, enqueuer.queue [] e.2 = none := by
  induction es with
  | nil => intro h; simp [enqueueLoop]
  | cons e es ih =>
    intro h
    obtain ⟨k, v⟩ := e
    simp only [enqueueLoop, List.mem_cons, forall_eq_or_imp]
    split
    · rename_i err hr
      rw [hq h [] _] at hr
      simp [hr]
    · rename_i hr
      rw [hq h [] _] at hr
      simp only [hr, true_and]
      exact ih _

/-- A call whose first loop meets a generator error panics with it. -/
theorem Enqueue_outcome_of_error (runtime : Runtime) (h0 : History)
    (conn : ConnectionInterface) (users : List User) (err : String) (gen : List Event)
    (hb : buildLoop enqueuer options space organization clientID uaaHost scope vcapRequestID
      reqReceived h0 users [] [] = (.error err, gen)) :
    (enqueuer.Enqueue options space organization clientID uaaHost scope vcapRequestID
      reqReceived runtime h0 conn users).outcome = .panicked err := by
  unfold Enqueuer.Enqueue
  rw [hb]

/-- A call whose first loop succeeds returns the responses built there when the upsert loop,
the commit and the enqueue loop all succeed, and the empty list otherwise. -/
theorem Enqueue_outcome_of_ok (runtime : Runtime) (h0 : History)
    (conn : ConnectionInterface) (users : List User) (responses : List Response)
    (jobsByMessageID : JobMap) (gen : List Event)
    (hb : buildLoop enqueuer options space organization clientID uaaHost scope vcapRequestID
      reqReceived h0 users [] [] = (.ok (responses, jobsByMessageID), gen)) :
    (enqueuer.Enqueue options space organization clientID uaaHost scope vcapRequestID
      reqReceived runtime h0 conn users).outcome =
      if (upsertLoop enqueuer (h0 ++ gen ++ [Event.begin])
            (runtime.rangeMessages.range jobsByMessageID)).1 = none ∧
          conn.Commit (h0 ++ gen ++ [Event.begin] ++
            (runtime.rangeMessages.range jobsByMessageID).map upsertOk) = none ∧
          (enqueueLoop enqueuer (h0 ++ gen ++ [Event.begin] ++
            (runtime.rangeMessages.range jobsByMessageID).map upsertOk ++ [Event.commit none])
            (runtime.rangeJobs.range jobsByMessageID)).1 = none
      then .returned responses else .returned [] := by
  unfold Enqueuer.Enqueue
  rw [hb]
  dsimp only
  split
  · rename_i err ups hu
    rw [hu]
    simp
  · rename_i ups hu
    have hups := upsertLoop_none enqueuer _ _ _ hu
    subst hups
    rw [hu]
    split
    · rename_i err hc
      rw [hc]
      simp
    · rename_i hc
      rw [hc]
      split
      · rename_i err enqs hq
        rw [hq]
        simp
      · rename_i enqs hq
        rw [hq]
        simp

end Loops

/-! ## The directory lookup -/

/-- The queries made by the lookup loop are those of an initial segment of the ids. -/
theorem uaa.usersLoop_filters (lib : uaa.Libraries) (config : uaa.WarrantConfig)
    (token : String) (ids : List String) :
    ∀ (h : List uaa.ListCall) (myUsers : List uaa.User),
      ((uaa.usersLoop lib config token h ids myUsers).2).map (fun c => c.query.Filter) =
        (ids.take (uaa.usersLoop lib config token h ids myUsers).2.length).map uaa.idFilter := by
  induction ids with
  | nil => intro h myUsers; simp [uaa.usersLoop]
  | cons id ids ih =>
    intro h myUsers
    simp only [uaa.usersLoop]
    split
    · simp
    · simp only [List.map_cons, List.length_cons, List.take_succ_cons]
      rw [ih]

/-- A query error ends the lookup loop: the failed call is the last one, and the results are
the nil list and that error. -/
theorem uaa.usersLoop_error (lib : uaa.Libraries) (config : uaa.WarrantConfig)
    (token : String) (ids : List String) :
    ∀ (h : List uaa.ListCall) (myUsers : List uaa.User) (call : uaa.ListCall) (err : String),
      call ∈ (uaa.usersLoop lib config token h ids myUsers).2 → call.answer = .error err →
      (uaa.usersLoop lib config token h ids myUsers).1 = ([], some err) ∧
      (uaa.usersLoop lib config token h ids myUsers).2.getLast? = some call := by
  induction ids with
  | nil => intro h myUsers call err hc; simp [uaa.usersLoop] at hc
  | cons id ids ih =>
    intro h myUsers call err hc ha
    simp only [uaa.usersLoop] at hc ⊢
    split at hc
    · rename_i err' _
      simp only [List.mem_singleton] at hc
      subst hc
      simp only [Except.error.injEq] at ha
      subst ha
      simp_all
    · rename_i users hq
      simp only [hq]
      simp only [List.mem_cons] at hc
      rcases hc with rfl | hc
      · simp at ha
      · obtain ⟨h1, h2⟩ := ih _ _ call err hc ha
        refine ⟨h1, ?_⟩
        rw [List.getLast?_cons, h2]
        rfl

/-- When every query succeeds, the lookup loop makes one query per id, in order, with the
client's configuration and token, and returns the users collected so far followed by the
users found by the calls, with no error. -/
theorem uaa.usersLoop_ok (lib : uaa.Libraries) (config : uaa.WarrantConfig)
    (token : String) (ids : List String) :
    ∀ (h : List uaa.ListCall) (myUsers : List uaa.User),
      (∀ call ∈ (uaa.usersLoop lib config token h ids myUsers).2, call.isFailure = false) →
      (uaa.usersLoop lib config token h ids myUsers).1 =
        (myUsers ++ ((uaa.usersLoop lib config token h ids myUsers).2.map
          uaa.ListCall.users).flatten, none) ∧
      ((uaa.usersLoop lib config token h ids myUsers).2).map (fun c => c.query.Filter) =
        ids.map uaa.idFilter ∧
      ∀ call ∈ (uaa.usersLoop lib config token h ids myUsers).2,
        call.config = config ∧ call.token = token := by
  induction ids with
  | nil => intro h myUsers _; simp [uaa.usersLoop]
  | cons id ids ih =>
    intro h myUsers hok
    simp only [uaa.usersLoop] at hok ⊢
    split at hok
    · rename_i err hq
      have hu := hok _ (List.mem_singleton_self _)
      simp [uaa.ListCall.isFailure] at hu
    · rename_i users hq
      simp only [hq]
      obtain ⟨h1, h2, h3⟩ := ih
        (h ++ [⟨config, ⟨uaa.idFilter id⟩, token, .ok users⟩])
        (myUsers ++ users.map uaa.newUserFromWarrantUser)
        (fun call hc => hok call (List.mem_cons_of_mem _ hc))
      refine ⟨?_, ?_, ?_⟩
      · rw [h1]
        simp [uaa.ListCall.users]
      · simp [h2]
      · intro call hc
        simp only [List.mem_cons] at hc
        rcases hc with rfl | hc
        · exact ⟨rfl, rfl⟩
        · exact h3 call hc

/-! ## Worker start-up -/

/-- When no mail client request fails, the start-up loop constructs and starts the workers
`i + 1`, ..., `i + remaining`, in order, and does not panic. -/
theorem web.startLoop_of_no_failure (env : web.Environment) (newClient : web.NewClient)
    (remaining : Nat) :
    ∀ (i : Nat) (h : List web.WorkerEffect),
      (∀ e ∈ (web.startLoop env newClient remaining i h).2, e.isFailure = false) →
      (web.startLoop env newClient remaining i h).1 = none ∧
      web.constructedIDs (web.startLoop env newClient remaining i h).2 =
        List.range' (i + 1) remaining ∧
      web.startedIDs (web.startLoop env newClient remaining i h).2 =
        List.range' (i + 1) remaining := by
  induction remaining with
  | zero => intro i h _; simp [web.startLoop, web.constructedIDs, web.startedIDs]
  | succ n ih =>
    intro i h hok
    simp only [web.startLoop] at hok ⊢
    split at hok
    · rename_i err hq
      have := hok _ (List.mem_singleton_self _)
      simp [web.WorkerEffect.isFailure] at this
    · rename_i hq
      simp only [hq]
      obtain ⟨h1, h2, h3⟩ := ih (i + 1)
        (h ++ [web.WorkerEffect.newClient env.SMTPUser env.SMTPPass
            (web.JoinHostPort env.SMTPHost env.SMTPPort) none,
          web.WorkerEffect.newDeliveryWorker (i + 1) (!env.VerifySSL),
          web.WorkerEffect.work (i + 1)])
        (fun e he => hok e (by simp [he]))
      refine ⟨h1, ?_, ?_⟩
      · simp only [web.constructedIDs] at h2 ⊢
        simp [List.filterMap_append, List.filterMap_cons, web.WorkerEffect.constructedID, h2,
          List.range'_succ]
      · simp only [web.startedIDs] at h3 ⊢
        simp [List.filterMap_append, List.filterMap_cons, web.WorkerEffect.startedID, h3,
          List.range'_succ]

/-- A failed mail client request ends the start-up loop: the loop panics with that error, the
failed request is its last effect, and the workers constructed and started are those of the
iterations before it. -/
theorem web.startLoop_of_failure (env : web.Environment) (newClient : web.NewClient)
    (remaining : Nat) :
    ∀ (i : Nat) (h : List web.WorkerEffect) (user pass addr err : String),
      web.WorkerEffect.newClient user pass addr (some err) ∈
        (web.startLoop env newClient remaining i h).2 →
      (web.startLoop env newClient remaining i h).1 = some err ∧
      (web.startLoop env newClient remaining i h).2.getLast? =
        some (web.WorkerEffect.newClient user pass addr (some err)) ∧
      ∃ k : Nat, k < remaining ∧
        web.constructedIDs (web.startLoop env newClient remaining i h).2 =
          List.range' (i + 1) k ∧
        web.startedIDs (web.startLoop env newClient remaining i h).2 =
          List.range' (i + 1) k := by
  induction remaining with
  | zero => intro i h user pass addr err hmem; simp [web.startLoop] at hmem
  | succ n ih =>
    intro i h user pass addr err hmem
    simp only [web.startLoop] at hmem ⊢
    split at hmem
    · rename_i err' hq
      simp only [List.mem_singleton, web.WorkerEffect.newClient.injEq, Option.some.injEq]
        at hmem
      obtain ⟨hu, hp, ha, he⟩ := hmem
      simp only [hq]
      subst hu hp ha he
      exact ⟨rfl, rfl, 0, Nat.succ_pos n, rfl, rfl⟩
    · rename_i hq
      simp only [hq]
      have hrest : web.WorkerEffect.newClient user pass addr (some err) ∈
          (web.startLoop env newClient n (i + 1)
            (h ++ [web.WorkerEffect.newClient env.SMTPUser env.SMTPPass
                (web.JoinHostPort env.SMTPHost env.SMTPPort) none,
              web.WorkerEffect.newDeliveryWorker (i + 1) (!env.VerifySSL),
              web.WorkerEffect.work (i + 1)])).2 := by
        simpa using hmem
      obtain ⟨h1, h2, k, hk, h3, h4⟩ := ih (i + 1) _ user pass addr err hrest
      refine ⟨h1, ?_, k + 1, Nat.succ_lt_succ hk, ?_, ?_⟩
      · rw [List.getLast?_append, h2]
        rfl
      · simp only [web.constructedIDs] at h3 ⊢
        simp [List.filterMap_append, List.filterMap_cons, web.WorkerEffect.constructedID, h3,
          List.range'_succ]
      · simp only [web.startedIDs] at h4 ⊢
        simp [List.filterMap_append, List.filterMap_cons, web.WorkerEffect.startedID, h4,
          List.range'_succ]

section Claims

variable (enqueuer : Enqueuer) (options : Options) (space : CloudControllerSpace)
  (organization : CloudControllerOrganization) (clientID uaaHost scope vcapRequestID : String)
  (reqReceived : Time)

/-- C1: for a non-empty recipient list, when `Enqueue` returns a non-empty response list, its
trace is a run of generator calls, `Begin`, a run of upserts, a `Commit` that returned no
error, and a run of queue inserts; for every `NotificationID` of the returned list a queued
message with that id was upserted without error between `Begin` and `Commit`, and a job
carrying that message id was accepted by the queue. -/
theorem C1_accepted_requests_recorded_before_return (runtime : Runtime) (h0 : History)
    (conn : ConnectionInterface) (users : List User) (rs : List Response)
    (_hu : users ≠ [])
    (hr : (enqueuer.Enqueue options space organization clientID uaaHost scope
      vcapRequestID reqReceived runtime h0 conn users).outcome = .returned rs)
    (hne : rs ≠ []) :
    ∃ gen ups enqs : List Event,
      (enqueuer.Enqueue options space organization clientID uaaHost scope vcapRequestID
        reqReceived runtime h0 conn users).trace =
        gen ++ [Event.begin] ++ ups ++ [Event.commit none] ++ enqs ∧
      (∀ e ∈ gen, e.isGenerate = true) ∧ (∀ e ∈ ups, e.isUpsert = true) ∧
      (∀ e ∈ enqs, e.isEnqueue = true) ∧
      ∀ r ∈ rs,
        Event.upsert { ID := r.NotificationID, Status := "queued" } none ∈ ups ∧
        ∃ job : Job, Event.enqueue job none ∈ enqs ∧
          job.Payload.MessageID = r.NotificationID := by
  obtain ⟨ids, hl, hrs, htr⟩ := Enqueue_of_returned_nonempty enqueuer options space
    organization clientID uaaHost scope vcapRequestID reqReceived runtime h0 conn users rs hr hne
  refine ⟨_, _, _, htr, ?_, ?_, ?_, ?_⟩
  · intro e he
    simp only [List.mem_map] at he
    obtain ⟨a, _, rfl⟩ := he
    rfl
  · intro e he
    simp only [List.mem_map] at he
    obtain ⟨a, _, rfl⟩ := he
    rfl
  · intro e he
    simp only [List.mem_map] at he
    obtain ⟨a, _, rfl⟩ := he
    rfl
  · intro r hrmem
    have hid : r.NotificationID ∈ ids := by
      rw [hrs] at hrmem
      obtain ⟨i, hi, rfl⟩ := List.mem_iff_getElem.mp hrmem
      simp only [List.getElem_zipWith, responseFor]
      exact List.getElem_mem _
    have hk := (mem_keys_assignJobs options space organization clientID uaaHost scope
      vcapRequestID reqReceived users ids [] hl r.NotificationID).mpr (Or.inr hid)
    simp only [JobMap.keys, List.mem_map] at hk
    obtain ⟨e, he, hek⟩ := hk
    have hmid := messageID_of_mem_assignJobs options space organization clientID uaaHost
      scope vcapRequestID reqReceived users ids e he
    constructor
    · simp only [List.mem_map]
      exact ⟨e, (runtime.rangeMessages.perm _).mem_iff.mpr he, by simp [upsertOk, hek, StatusQueued]⟩
    · refine ⟨e.2, ?_, by rw [hmid, hek]⟩
      simp only [List.mem_map]
      exact ⟨e, (runtime.rangeJobs.perm _).mem_iff.mpr he, rfl⟩

/-- Witness of C1: two recipients, reliable collaborators. -/
theorem C1_accepted_requests_recorded_before_return_witness :
    twoUsers ≠ [] ∧
    (testEnqueue (reliableEnqueuer ["id-1", "id-2"]) storedRuntime committingConn
      twoUsers).outcome =
      .returned [⟨"queued", "user-1", "id-1", "some-request-id"⟩,
        ⟨"queued", "user-2@example.com", "id-2", "some-request-id"⟩] ∧
    ∃ gen ups enqs : List Event,
      (testEnqueue (reliableEnqueuer ["id-1", "id-2"]) storedRuntime committingConn
        twoUsers).trace = gen ++ [Event.begin] ++ ups ++ [Event.commit none] ++ enqs ∧
      (∀ e ∈ gen, e.isGenerate = true) ∧ (∀ e ∈ ups, e.isUpsert = true) ∧
      (∀ e ∈ enqs, e.isEnqueue = true) ∧
      ∀ r ∈ ([⟨"queued", "user-1", "id-1", "some-request-id"⟩,
          ⟨"queued", "user-2@example.com", "id-2", "some-request-id"⟩] : List Response),
        Event.upsert { ID := r.NotificationID, Status := "queued" } none ∈ ups ∧
        ∃ job : Job, Event.enqueue job none ∈ enqs ∧
          job.Payload.MessageID = r.NotificationID :=
  ⟨by decide, by decide,
    C1_accepted_requests_recorded_before_return (reliableEnqueuer ["id-1", "id-2"]) noOptions
      ⟨"the-space"⟩ ⟨"the-org"⟩ "the-client" "" "my.scope" "some-request-id" ⟨0⟩
      storedRuntime [] committingConn twoUsers _ (by decide) (by decide) (by decide)⟩

/-- C2: when no collaborator answers with an error (id generation, every upsert, the commit
and every queue insert succeed), `Enqueue` returns exactly one response per recipient, in
input order: the generator was called once per recipient, and the response of the i-th
recipient has status "queued", the correlation id passed in, and the i-th generated id. -/
theorem C2_success_returns_one_queued_response_per_recipient (runtime : Runtime)
    (h0 : History) (conn : ConnectionInterface) (users : List User)
    (hok : ∀ e ∈ (enqueuer.Enqueue options space organization clientID uaaHost scope
      vcapRequestID reqReceived runtime h0 conn users).trace, e.isFailure = false) :
    ∃ rs : List Response,
      (enqueuer.Enqueue options space organization clientID uaaHost scope vcapRequestID
        reqReceived runtime h0 conn users).outcome = .returned rs ∧
      rs.length = users.length ∧
      (generatedIDs (enqueuer.Enqueue options space organization clientID uaaHost scope
        vcapRequestID reqReceived runtime h0 conn users).trace).length = users.length ∧
      ∀ i : Nat, i < users.length →
        ∃ (r : Response) (messageID : String), rs[i]? = some r ∧
          (generatedIDs (enqueuer.Enqueue options space organization clientID uaaHost scope
            vcapRequestID reqReceived runtime h0 conn users).trace)[i]? = some messageID ∧
          r.Status = "queued" ∧ r.VCAPRequestID = vcapRequestID ∧
          r.NotificationID = messageID := by
  obtain ⟨ids, hl, hrun⟩ := Enqueue_of_no_failure enqueuer options space organization
    clientID uaaHost scope vcapRequestID reqReceived runtime h0 conn users hok
  rw [hrun]
  refine ⟨_, rfl, by simp [hl], by simp [Event.generatedID, hl], ?_⟩
  intro i hi
  have hi' : i < ids.length := hl ▸ hi
  refine ⟨responseFor vcapRequestID users[i] ids[i], ids[i], ?_, ?_, rfl, rfl, rfl⟩
  · rw [List.getElem?_eq_some_iff]
    exact ⟨by simp [hl, hi], by simp⟩
  · simp [Event.generatedID, List.getElem?_eq_getElem hi']

/-- Witness of C2: two recipients, reliable collaborators. -/
theorem C2_success_returns_one_queued_response_per_recipient_witness :
    (∀ e ∈ (testEnqueue (reliableEnqueuer ["id-1", "id-2"]) storedRuntime committingConn
      twoUsers).trace, e.isFailure = false) ∧
    ∃ rs : List Response,
      (testEnqueue (reliableEnqueuer ["id-1", "id-2"]) storedRuntime committingConn
        twoUsers).outcome = .returned rs ∧
      rs.length = twoUsers.length ∧
      (generatedIDs (testEnqueue (reliableEnqueuer ["id-1", "id-2"]) storedRuntime
        committingConn twoUsers).trace).length = twoUsers.length ∧
      ∀ i : Nat, i < twoUsers.length →
        ∃ (r : Response) (messageID : String), rs[i]? = some r ∧
          (generatedIDs (testEnqueue (reliableEnqueuer ["id-1", "id-2"]) storedRuntime
            committingConn twoUsers).trace)[i]? = some messageID ∧
          r.Status = "queued" ∧ r.VCAPRequestID = "some-request-id" ∧
          r.NotificationID = messageID :=
  ⟨by decide,
    C2_success_returns_one_queued_response_per_recipient (reliableEnqueuer ["id-1", "id-2"])
      noOptions ⟨"the-space"⟩ ⟨"the-org"⟩ "the-client" "" "my.scope" "some-request-id" ⟨0⟩
      storedRuntime [] committingConn twoUsers (by decide)⟩

/-- C3: in a call in which no collaborator answers with an error, the response of the i-th
recipient reports the recipient's `Email` when that is non-empty and the recipient's `GUID`
when the `Email` is empty; for a recipient whose `Email` differs from the `GUID`, the `GUID`
is reported exactly when the `Email` is empty. -/
theorem C3_recipient_is_email_else_guid (runtime : Runtime) (h0 : History)
    (conn : ConnectionInterface) (users : List User)
    (hok : ∀ e ∈ (enqueuer.Enqueue options space organization clientID uaaHost scope
      vcapRequestID reqReceived runtime h0 conn users).trace, e.isFailure = false) :
    ∃ rs : List Response,
      (enqueuer.Enqueue options space organization clientID uaaHost scope vcapRequestID
        reqReceived runtime h0 conn users).outcome = .returned rs ∧
      ∀ (i : Nat) (user : User), users[i]? = some user →
        ∃ r : Response, rs[i]? = some r ∧
          (user.Email ≠ "" → r.Recipient = user.Email) ∧
          (user.Email = "" → r.Recipient = user.GUID) ∧
          (user.Email ≠ user.GUID → (r.Recipient = user.GUID ↔ user.Email = "")) := by
  obtain ⟨ids, hl, hrun⟩ := Enqueue_of_no_failure enqueuer options space organization
    clientID uaaHost scope vcapRequestID reqReceived runtime h0 conn users hok
  rw [hrun]
  refine ⟨_, rfl, ?_⟩
  intro i user hu
  obtain ⟨hi, hget⟩ := List.getElem?_eq_some_iff.mp hu
  have hi' : i < ids.length := hl ▸ hi
  refine ⟨responseFor vcapRequestID user ids[i], ?_, ?_, ?_, ?_⟩
  · rw [List.getElem?_eq_some_iff]
    exact ⟨by simp [hl, hi], by simp [hget]⟩
  · intro hne
    simp [responseFor, recipientOf, hne]
  · intro he
    simp [responseFor, recipientOf, he]
  · intro hd
    by_cases he : user.Email = ""
    · simp [responseFor, recipientOf, he]
    · simp [responseFor, recipientOf, he, hd]

/-- Witness of C3: one recipient known by GUID, one by email. -/
theorem C3_recipient_is_email_else_guid_witness :
    (∀ e ∈ (testEnqueue (reliableEnqueuer ["id-1", "id-2"]) storedRuntime committingConn
      twoUsers).trace, e.isFailure = false) ∧
    ∃ rs : List Response,
      (testEnqueue (reliableEnqueuer ["id-1", "id-2"]) storedRuntime committingConn
        twoUsers).outcome = .returned rs ∧
      ∀ (i : Nat) (user : User), twoUsers[i]? = some user →
        ∃ r : Response, rs[i]? = some r ∧
          (user.Email ≠ "" → r.Recipient = user.Email) ∧
          (user.Email = "" → r.Recipient = user.GUID) ∧
          (user.Email ≠ user.GUID → (r.Recipient = user.GUID ↔ user.Email = "")) :=
  ⟨by decide,
    C3_recipient_is_email_else_guid (reliableEnqueuer ["id-1", "id-2"])
      noOptions ⟨"the-space"⟩ ⟨"the-org"⟩ "the-client" "" "my.scope" "some-request-id" ⟨0⟩
      storedRuntime [] committingConn twoUsers (by decide)⟩

/-- C4: when no collaborator answers with an error and the generated ids are pairwise
distinct, exactly one message per recipient is upserted and exactly one job per recipient is
enqueued; the ids of the upserted messages and the message ids of the enqueued jobs are each
pairwise distinct and a permutation of the generated ids. -/
theorem C4_distinct_ids_give_one_message_and_job_per_recipient (runtime : Runtime)
    (h0 : History) (conn : ConnectionInterface) (users : List User)
    (hok : ∀ e ∈ (enqueuer.Enqueue options space organization clientID uaaHost scope
      vcapRequestID reqReceived runtime h0 conn users).trace, e.isFailure = false)
    (hd : (generatedIDs (enqueuer.Enqueue options space organization clientID uaaHost scope
      vcapRequestID reqReceived runtime h0 conn users).trace).Nodup) :
    (upsertedMessages (enqueuer.Enqueue options space organization clientID uaaHost scope
      vcapRequestID reqReceived runtime h0 conn users).trace).length = users.length ∧
    (enqueuedJobs (enqueuer.Enqueue options space organization clientID uaaHost scope
      vcapRequestID reqReceived runtime h0 conn users).trace).length = users.length ∧
    ((upsertedMessages (enqueuer.Enqueue options space organization clientID uaaHost scope
      vcapRequestID reqReceived runtime h0 conn users).trace).map (fun m => m.ID)).Nodup ∧
    ((enqueuedJobs (enqueuer.Enqueue options space organization clientID uaaHost scope
      vcapRequestID reqReceived runtime h0 conn users).trace).map
        (fun job => job.Payload.MessageID)).Nodup ∧
    ((upsertedMessages (enqueuer.Enqueue options space organization clientID uaaHost scope
      vcapRequestID reqReceived runtime h0 conn users).trace).map (fun m => m.ID)).Perm
      (generatedIDs (enqueuer.Enqueue options space organization clientID uaaHost scope
        vcapRequestID reqReceived runtime h0 conn users).trace) ∧
    ((enqueuedJobs (enqueuer.Enqueue options space organization clientID uaaHost scope
      vcapRequestID reqReceived runtime h0 conn users).trace).map
        (fun job => job.Payload.MessageID)).Perm
      (generatedIDs (enqueuer.Enqueue options space organization clientID uaaHost scope
        vcapRequestID reqReceived runtime h0 conn users).trace) := by
  obtain ⟨ids, hl, _, hgen, hups, henq⟩ := observations_of_no_failure enqueuer options space
    organization clientID uaaHost scope vcapRequestID reqReceived runtime h0 conn users hok
  rw [hgen] at hd ⊢
  rw [hups, henq]
  have hkeys := keys_assignJobs_perm options space organization clientID uaaHost scope
    vcapRequestID reqReceived users ids hl hd
  have hp1 : ((runtime.rangeMessages.range (assignJobs options space organization clientID
      uaaHost scope vcapRequestID reqReceived [] users ids)).map
        (fun e => ({ ID := e.1, Status := StatusQueued } : Message))).map (fun m => m.ID) =
      JobMap.keys (runtime.rangeMessages.range (assignJobs options space organization
        clientID uaaHost scope vcapRequestID reqReceived [] users ids)) := by
    simp [JobMap.keys]
  have hq1 := (keys_range_perm runtime.rangeMessages _).trans hkeys
  have hq2 := (keys_range_perm runtime.rangeJobs _).trans hkeys
  rw [messageIDs_of_range, hp1]
  refine ⟨?_, ?_, hq1.nodup_iff.mpr hd, hq2.nodup_iff.mpr hd, hq1, hq2⟩
  · rw [List.length_map, ← hl, ← hq1.length_eq]; simp [JobMap.keys]
  · rw [List.length_map, ← hl, ← hq2.length_eq]; simp [JobMap.keys]

/-- Witness of C4: two recipients, two distinct ids, reliable collaborators, messages upserted in
reverse order. -/
theorem C4_distinct_ids_give_one_message_and_job_per_recipient_witness :
    (∀ e ∈ (testEnqueue (reliableEnqueuer ["id-1", "id-2"]) reversedRuntime committingConn
      twoUsers).trace, e.isFailure = false) ∧
    (generatedIDs (testEnqueue (reliableEnqueuer ["id-1", "id-2"]) reversedRuntime
      committingConn twoUsers).trace).Nodup ∧
    (upsertedMessages (testEnqueue (reliableEnqueuer ["id-1", "id-2"]) reversedRuntime
      committingConn twoUsers).trace).length = twoUsers.length ∧
    (enqueuedJobs (testEnqueue (reliableEnqueuer ["id-1", "id-2"]) reversedRuntime
      committingConn twoUsers).trace).length = twoUsers.length :=
  have h := C4_distinct_ids_give_one_message_and_job_per_recipient
    (reliableEnqueuer ["id-1", "id-2"]) noOptions ⟨"the-space"⟩ ⟨"the-org"⟩ "the-client" ""
    "my.scope" "some-request-id" ⟨0⟩ reversedRuntime [] committingConn twoUsers (by decide)
    (by decide)
  ⟨by decide, by decide, h.1, h.2.1⟩

/-- C5, counterexample: the generator hands the id "id-1" to both of two recipients and no
collaborator fails; two responses are returned, but a single message is upserted and a single
job is enqueued, for the second recipient. -/
theorem C5_colliding_ids_merge_recipients :
    (∀ e ∈ (testEnqueue (reliableEnqueuer ["id-1", "id-1"]) storedRuntime committingConn
      twoGUIDs).trace, e.isFailure = false) ∧
    (testEnqueue (reliableEnqueuer ["id-1", "id-1"]) storedRuntime committingConn
      twoGUIDs).outcome =
      .returned [⟨"queued", "user-1", "id-1", "some-request-id"⟩,
        ⟨"queued", "user-2", "id-1", "some-request-id"⟩] ∧
    upsertedMessages (testEnqueue (reliableEnqueuer ["id-1", "id-1"]) storedRuntime
      committingConn twoGUIDs).trace = [⟨"id-1", "queued"⟩] ∧
    (enqueuedJobs (testEnqueue (reliableEnqueuer ["id-1", "id-1"]) storedRuntime
      committingConn twoGUIDs).trace).map (fun job => job.Payload.UserGUID) = ["user-2"] ∧
    (enqueuedJobs (testEnqueue (reliableEnqueuer ["id-1", "id-1"]) storedRuntime
      committingConn twoGUIDs).trace).length ≠ twoGUIDs.length := by
  decide

/-- C5, amended: when no collaborator answers with an error, `Enqueue` upserts one message
and enqueues one job per distinct generated id and returns one response per recipient; the
number of jobs equals the number of recipients exactly when the generated ids are pairwise
distinct. -/
theorem C5_one_message_and_job_per_distinct_id (runtime : Runtime)
    (h0 : History) (conn : ConnectionInterface) (users : List User)
    (hok : ∀ e ∈ (enqueuer.Enqueue options space organization clientID uaaHost scope
      vcapRequestID reqReceived runtime h0 conn users).trace, e.isFailure = false) :
    (upsertedMessages (enqueuer.Enqueue options space organization clientID uaaHost scope
      vcapRequestID reqReceived runtime h0 conn users).trace).length =
      (generatedIDs (enqueuer.Enqueue options space organization clientID uaaHost scope
        vcapRequestID reqReceived runtime h0 conn users).trace).dedup.length ∧
    (enqueuedJobs (enqueuer.Enqueue options space organization clientID uaaHost scope
      vcapRequestID reqReceived runtime h0 conn users).trace).length =
      (generatedIDs (enqueuer.Enqueue options space organization clientID uaaHost scope
        vcapRequestID reqReceived runtime h0 conn users).trace).dedup.length ∧
    (∃ rs : List Response,
      (enqueuer.Enqueue options space organization clientID uaaHost scope vcapRequestID
        reqReceived runtime h0 conn users).outcome = .returned rs ∧
      rs.length = users.length) ∧
    ((enqueuedJobs (enqueuer.Enqueue options space organization clientID uaaHost scope
      vcapRequestID reqReceived runtime h0 conn users).trace).length = users.length ↔
      (generatedIDs (enqueuer.Enqueue options space organization clientID uaaHost scope
        vcapRequestID reqReceived runtime h0 conn users).trace).Nodup) := by
  obtain ⟨ids, hl, hout, hgen, hups, henq⟩ := observations_of_no_failure enqueuer options
    space organization clientID uaaHost scope vcapRequestID reqReceived runtime h0 conn users
    hok
  have hlen := length_assignJobs options space organization clientID uaaHost scope
    vcapRequestID reqReceived users ids hl
  rw [hgen, hups, henq, hout]
  simp only [List.length_map, (runtime.rangeMessages.perm _).length_eq,
    (runtime.rangeJobs.perm _).length_eq, hlen, true_and]
  refine ⟨⟨_, rfl, by simp [hl]⟩, ?_⟩
  rw [← hl]
  constructor
  · intro h
    have := (List.dedup_sublist ids).eq_of_length h
    exact List.dedup_eq_self.mp this
  · intro h
    rw [List.dedup_eq_self.mpr h]

/-- Witness of C5 (amended): the colliding run of the counterexample. -/
theorem C5_one_message_and_job_per_distinct_id_witness :
    (∀ e ∈ (testEnqueue (reliableEnqueuer ["id-1", "id-1"]) storedRuntime committingConn
      twoGUIDs).trace, e.isFailure = false) ∧
    (enqueuedJobs (testEnqueue (reliableEnqueuer ["id-1", "id-1"]) storedRuntime
      committingConn twoGUIDs).trace).length =
      (generatedIDs (testEnqueue (reliableEnqueuer ["id-1", "id-1"]) storedRuntime
        committingConn twoGUIDs).trace).dedup.length :=
  ⟨by decide,
    (C5_one_message_and_job_per_distinct_id (reliableEnqueuer ["id-1", "id-1"]) noOptions
      ⟨"the-space"⟩ ⟨"the-org"⟩ "the-client" "" "my.scope" "some-request-id" ⟨0⟩
      storedRuntime [] committingConn twoGUIDs (by decide)).2.1⟩

/-- C6: if some upsert or the commit answers with an error during `Enqueue`, the call
returns the empty response list and, whatever the storage held before, the committed message
rows after the call are the committed rows before it. -/
theorem C6_failed_transaction_leaves_rows_unchanged (runtime : Runtime) (h0 : History)
    (conn : ConnectionInterface) (users : List User)
    (hfail : ∃ e ∈ (enqueuer.Enqueue options space organization clientID uaaHost scope
      vcapRequestID reqReceived runtime h0 conn users).trace, e.isStorageFailure = true) :
    (enqueuer.Enqueue options space organization clientID uaaHost scope vcapRequestID
      reqReceived runtime h0 conn users).outcome = .returned [] ∧
    ∀ s : Store,
      (s.replay (enqueuer.Enqueue options space organization clientID uaaHost scope
        vcapRequestID reqReceived runtime h0 conn users).trace).rows = s.rows := by
  rcases Enqueue_shape enqueuer options space organization clientID uaaHost scope
    vcapRequestID reqReceived runtime h0 conn users with
    ⟨ids, err, _, hrun⟩ | ⟨ids, hl, ⟨done, e, rest, err, _, hrun⟩ | ⟨err, hrun⟩ |
      ⟨done, e, rest, err, _, hrun⟩ | hrun⟩
  · rw [hrun] at hfail
    obtain ⟨e', he, hp⟩ := hfail
    simp only [List.mem_append, List.mem_map, List.mem_singleton] at he
    casesm* _ ∨ _, ∃ _, _, _ ∧ _ <;> subst_vars <;>
      simp [generateOk, upsertOk, enqueueOk, Event.isStorageFailure] at hp
  · rw [hrun]
    refine ⟨rfl, fun s => ?_⟩
    simp only [Store.replay_append, Store.replay_generateOk]
    have hb : s.replay [Event.begin] = ⟨s.rows, some []⟩ := rfl
    rw [hb, Store.replay_upsertOk]
    rfl
  · rw [hrun]
    refine ⟨rfl, fun s => ?_⟩
    simp only [Store.replay_append, Store.replay_generateOk]
    have hb : s.replay [Event.begin] = ⟨s.rows, some []⟩ := rfl
    rw [hb, Store.replay_upsertOk]
    rfl
  · rw [hrun] at hfail
    obtain ⟨e', he, hp⟩ := hfail
    simp only [List.mem_append, List.mem_map, List.mem_singleton] at he
    casesm* _ ∨ _, ∃ _, _, _ ∧ _ <;> subst_vars <;>
      simp [generateOk, upsertOk, enqueueOk, Event.isStorageFailure] at hp
  · rw [hrun] at hfail
    obtain ⟨e', he, hp⟩ := hfail
    simp only [List.mem_append, List.mem_map, List.mem_singleton] at he
    casesm* _ ∨ _, ∃ _, _, _ ∧ _ <;> subst_vars <;>
      simp [generateOk, upsertOk, enqueueOk, Event.isStorageFailure] at hp

/-- Witness of C6: the commit of a two-recipient request fails. -/
theorem C6_failed_transaction_leaves_rows_unchanged_witness :
    (∃ e ∈ (testEnqueue (reliableEnqueuer ["id-1", "id-2"]) storedRuntime failingConn
      twoUsers).trace, e.isStorageFailure = true) ∧
    (testEnqueue (reliableEnqueuer ["id-1", "id-2"]) storedRuntime failingConn
      twoUsers).outcome = .returned [] ∧
    ∀ s : Store,
      (s.replay (testEnqueue (reliableEnqueuer ["id-1", "id-2"]) storedRuntime failingConn
        twoUsers).trace).rows = s.rows :=
  ⟨by decide,
    C6_failed_transaction_leaves_rows_unchanged (reliableEnqueuer ["id-1", "id-2"]) noOptions
      ⟨"the-space"⟩ ⟨"the-org"⟩ "the-client" "" "my.scope" "some-request-id" ⟨0⟩
      storedRuntime [] failingConn twoUsers (by decide)⟩

/-- C7: for a non-empty recipient list, if some upsert answers with an error, the trace of
`Enqueue` is a run of generator calls, `Begin`, a run of upserts and `Rollback`: the
transaction is begun and rolled back, `Commit` is never called, no job is handed to the queue,
and the empty response list is returned. -/
theorem C7_upsert_error_rolls_back (runtime : Runtime) (h0 : History)
    (conn : ConnectionInterface) (users : List User) (_hu : users ≠ [])
    (hfail : ∃ e ∈ (enqueuer.Enqueue options space organization clientID uaaHost scope
      vcapRequestID reqReceived runtime h0 conn users).trace, e.isUpsertFailure = true) :
    (enqueuer.Enqueue options space organization clientID uaaHost scope vcapRequestID
      reqReceived runtime h0 conn users).outcome = .returned [] ∧
    (∃ gen ups : List Event,
      (enqueuer.Enqueue options space organization clientID uaaHost scope vcapRequestID
        reqReceived runtime h0 conn users).trace =
        gen ++ [Event.begin] ++ ups ++ [Event.rollback] ∧
      (∀ e ∈ gen, e.isGenerate = true) ∧ (∀ e ∈ ups, e.isUpsert = true)) ∧
    Event.begin ∈ (enqueuer.Enqueue options space organization clientID uaaHost scope
      vcapRequestID reqReceived runtime h0 conn users).trace ∧
    Event.rollback ∈ (enqueuer.Enqueue options space organization clientID uaaHost scope
      vcapRequestID reqReceived runtime h0 conn users).trace ∧
    (∀ e ∈ (enqueuer.Enqueue options space organization clientID uaaHost scope
      vcapRequestID reqReceived runtime h0 conn users).trace,
      e.isCommit = false ∧ e.isEnqueue = false) := by
  rcases Enqueue_shape enqueuer options space organization clientID uaaHost scope
    vcapRequestID reqReceived runtime h0 conn users with
    ⟨ids, err, _, hrun⟩ | ⟨ids, hl, ⟨done, e, rest, err, _, hrun⟩ | ⟨err, hrun⟩ |
      ⟨done, e, rest, err, _, hrun⟩ | hrun⟩
  · rw [hrun] at hfail
    obtain ⟨e', he, hp⟩ := hfail
    simp only [List.mem_append, List.mem_map, List.mem_singleton] at he
    casesm* _ ∨ _, ∃ _, _, _ ∧ _ <;> subst_vars <;>
      simp [generateOk, upsertOk, enqueueOk, Event.isUpsertFailure] at hp
  · rw [hrun]
    refine ⟨rfl, ⟨_, _, rfl, ?_, ?_⟩, by simp, by simp, ?_⟩
    · intro e he
      simp only [List.mem_map] at he
      obtain ⟨a, _, rfl⟩ := he
      rfl
    · intro e he
      simp only [List.mem_append, List.mem_map, List.mem_singleton] at he
      rcases he with ⟨a, _, rfl⟩ | rfl <;> rfl
    · intro e he
      simp only [List.mem_append, List.mem_map, List.mem_singleton] at he
      rcases he with ((⟨a, _, rfl⟩ | rfl) | ⟨a, _, rfl⟩ | rfl) | rfl <;> exact ⟨rfl, rfl⟩
  · rw [hrun] at hfail
    obtain ⟨e', he, hp⟩ := hfail
    simp only [List.mem_append, List.mem_map, List.mem_singleton] at he
    casesm* _ ∨ _, ∃ _, _, _ ∧ _ <;> subst_vars <;>
      simp [generateOk, upsertOk, enqueueOk, Event.isUpsertFailure] at hp
  · rw [hrun] at hfail
    obtain ⟨e', he, hp⟩ := hfail
    simp only [List.mem_append, List.mem_map, List.mem_singleton] at he
    casesm* _ ∨ _, ∃ _, _, _ ∧ _ <;> subst_vars <;>
      simp [generateOk, upsertOk, enqueueOk, Event.isUpsertFailure] at hp
  · rw [hrun] at hfail
    obtain ⟨e', he, hp⟩ := hfail
    simp only [List.mem_append, List.mem_map, List.mem_singleton] at he
    casesm* _ ∨ _, ∃ _, _, _ ∧ _ <;> subst_vars <;>
      simp [generateOk, upsertOk, enqueueOk, Event.isUpsertFailure] at hp

/-- Witness of C7: the repository rejects the upsert of a one-recipient request, as in the
rollback test. -/
theorem C7_upsert_error_rolls_back_witness :
    ([⟨"user-1", ""⟩] : List User) ≠ [] ∧
    (∃ e ∈ (testEnqueue (upsertFailingEnqueuer ["id-1"]) storedRuntime committingConn
      [⟨"user-1", ""⟩]).trace, e.isUpsertFailure = true) ∧
    (testEnqueue (upsertFailingEnqueuer ["id-1"]) storedRuntime committingConn
      [⟨"user-1", ""⟩]).outcome = .returned [] ∧
    Event.rollback ∈ (testEnqueue (upsertFailingEnqueuer ["id-1"]) storedRuntime committingConn
      [⟨"user-1", ""⟩]).trace :=
  have h := C7_upsert_error_rolls_back (upsertFailingEnqueuer ["id-1"]) noOptions
    ⟨"the-space"⟩ ⟨"the-org"⟩ "the-client" "" "my.scope" "some-request-id" ⟨0⟩
    storedRuntime [] committingConn [⟨"user-1", ""⟩] (by decide) (by decide)
  ⟨by decide, by decide, h.1, h.2.2.2.1⟩

/-- C8: if no upsert answers with an error but `Commit` does, the trace of `Enqueue` is a run
of generator calls, `Begin`, a run of successful upserts and the failed `Commit`: `Begin` and
`Commit` are called, `Rollback` is not, no job is handed to the queue, and the empty response
list is returned. -/
theorem C8_commit_error_returns_empty (runtime : Runtime) (h0 : History)
    (conn : ConnectionInterface) (users : List User) (err : String)
    (_hups : ∀ e ∈ (enqueuer.Enqueue options space organization clientID uaaHost scope
      vcapRequestID reqReceived runtime h0 conn users).trace, e.isUpsertFailure = false)
    (hfail : Event.commit (some err) ∈ (enqueuer.Enqueue options space organization clientID
      uaaHost scope vcapRequestID reqReceived runtime h0 conn users).trace) :
    (enqueuer.Enqueue options space organization clientID uaaHost scope vcapRequestID
      reqReceived runtime h0 conn users).outcome = .returned [] ∧
    (∃ gen ups : List Event,
      (enqueuer.Enqueue options space organization clientID uaaHost scope vcapRequestID
        reqReceived runtime h0 conn users).trace =
        gen ++ [Event.begin] ++ ups ++ [Event.commit (some err)] ∧
      (∀ e ∈ gen, e.isGenerate = true) ∧
      (∀ e ∈ ups, e.isUpsert = true ∧ e.isFailure = false)) ∧
    Event.begin ∈ (enqueuer.Enqueue options space organization clientID uaaHost scope
      vcapRequestID reqReceived runtime h0 conn users).trace ∧
    Event.rollback ∉ (enqueuer.Enqueue options space organization clientID uaaHost scope
      vcapRequestID reqReceived runtime h0 conn users).trace ∧
    (∀ e ∈ (enqueuer.Enqueue options space organization clientID uaaHost scope
      vcapRequestID reqReceived runtime h0 conn users).trace, e.isEnqueue = false) := by
  rcases Enqueue_shape enqueuer options space organization clientID uaaHost scope
    vcapRequestID reqReceived runtime h0 conn users with
    ⟨ids, err', _, hrun⟩ | ⟨ids, hl, ⟨done, e, rest, err', _, hrun⟩ | ⟨err', hrun⟩ |
      ⟨done, e, rest, err', _, hrun⟩ | hrun⟩
  · rw [hrun] at hfail
    simp [generateOk] at hfail
  · rw [hrun] at hfail
    simp [generateOk, upsertOk] at hfail
  · rw [hrun] at hfail ⊢
    have herr : err = err' := by
      simpa [generateOk, upsertOk] using hfail
    subst herr
    refine ⟨rfl, ⟨_, _, rfl, ?_, ?_⟩, by simp, ?_, ?_⟩
    · intro e he
      simp only [List.mem_map] at he
      obtain ⟨a, _, rfl⟩ := he
      rfl
    · intro e he
      simp only [List.mem_map] at he
      obtain ⟨a, _, rfl⟩ := he
      exact ⟨rfl, rfl⟩
    · simp [generateOk, upsertOk]
    · intro e he
      simp only [List.mem_append, List.mem_map, List.mem_singleton] at he
      rcases he with ((⟨a, _, rfl⟩ | rfl) | ⟨a, _, rfl⟩) | rfl <;> rfl
  · rw [hrun] at hfail
    simp [generateOk, upsertOk, enqueueOk] at hfail
  · rw [hrun] at hfail
    simp [generateOk, upsertOk, enqueueOk] at hfail

/-- Witness of C8: the commit of a two-recipient request fails, as in the test of the failing
transaction. -/
theorem C8_commit_error_returns_empty_witness :
    (∀ e ∈ (testEnqueue (reliableEnqueuer ["id-1", "id-2"]) storedRuntime failingConn
      twoUsers).trace, e.isUpsertFailure = false) ∧
    Event.commit (some "the commit blew up") ∈
      (testEnqueue (reliableEnqueuer ["id-1", "id-2"]) storedRuntime failingConn
        twoUsers).trace ∧
    (testEnqueue (reliableEnqueuer ["id-1", "id-2"]) storedRuntime failingConn
      twoUsers).outcome = .returned [] ∧
    Event.rollback ∉ (testEnqueue (reliableEnqueuer ["id-1", "id-2"]) storedRuntime failingConn
      twoUsers).trace :=
  have h := C8_commit_error_returns_empty (reliableEnqueuer ["id-1", "id-2"]) noOptions
    ⟨"the-space"⟩ ⟨"the-org"⟩ "the-client" "" "my.scope" "some-request-id" ⟨0⟩
    storedRuntime [] failingConn twoUsers "the commit blew up" (by decide) (by decide)
  ⟨by decide, by decide, h.1, h.2.2.2.1⟩

/-- C10, counterexample: the generator hands the id "id-1" to both of two recipients and no
collaborator fails; both recipients get a response with `NotificationID` "id-1", but no
enqueued job carries the GUID of the first recipient. -/
theorem C10_colliding_ids_leave_recipient_without_job :
    (∀ e ∈ (testEnqueue (reliableEnqueuer ["id-1", "id-1"]) storedRuntime committingConn
      twoGUIDs).trace, e.isFailure = false) ∧
    (testEnqueue (reliableEnqueuer ["id-1", "id-1"]) storedRuntime committingConn
      twoGUIDs).outcome =
      .returned [⟨"queued", "user-1", "id-1", "some-request-id"⟩,
        ⟨"queued", "user-2", "id-1", "some-request-id"⟩] ∧
    (enqueuedJobs (testEnqueue (reliableEnqueuer ["id-1", "id-1"]) storedRuntime
      committingConn twoGUIDs).trace).filter (fun job => job.Payload.UserGUID = "user-1") = [] ∧
    (enqueuedJobs (testEnqueue (reliableEnqueuer ["id-1", "id-1"]) storedRuntime
      committingConn twoGUIDs).trace).count
        ⟨{ MessageID := "id-1", Options := noOptions, UserGUID := "user-1", Email := "",
            Space := ⟨"the-space"⟩, Organization := ⟨"the-org"⟩, ClientID := "the-client",
            UAAHost := "", Scope := "my.scope", VCAPRequestID := "some-request-id",
            RequestReceived := ⟨0⟩ }⟩ ≠ 1 := by
  decide

/-- C10, amended: when no collaborator answers with an error and the generated ids are
pairwise distinct, for the i-th recipient exactly one enqueued job carries the delivery made
of that recipient's `GUID` and `Email`, the `NotificationID` of its response, and the options,
space, organization, client id, UAA host, scope, correlation id and receipt time passed to
`Enqueue`; and every enqueued job carries those eight passed values. -/
theorem C10_distinct_ids_give_each_recipient_one_job (runtime : Runtime)
    (h0 : History) (conn : ConnectionInterface) (users : List User)
    (hok : ∀ e ∈ (enqueuer.Enqueue options space organization clientID uaaHost scope
      vcapRequestID reqReceived runtime h0 conn users).trace, e.isFailure = false)
    (hd : (generatedIDs (enqueuer.Enqueue options space organization clientID uaaHost scope
      vcapRequestID reqReceived runtime h0 conn users).trace).Nodup) :
    (∃ rs : List Response,
      (enqueuer.Enqueue options space organization clientID uaaHost scope vcapRequestID
        reqReceived runtime h0 conn users).outcome = .returned rs ∧
      ∀ (i : Nat) (user : User), users[i]? = some user →
        ∃ r : Response, rs[i]? = some r ∧
          (enqueuedJobs (enqueuer.Enqueue options space organization clientID uaaHost scope
            vcapRequestID reqReceived runtime h0 conn users).trace).count
            ⟨{ MessageID := r.NotificationID, Options := options, UserGUID := user.GUID,
                Email := user.Email, Space := space, Organization := organization,
                ClientID := clientID, UAAHost := uaaHost, Scope := scope,
                VCAPRequestID := vcapRequestID, RequestReceived := reqReceived }⟩ = 1) ∧
    ∀ job ∈ enqueuedJobs (enqueuer.Enqueue options space organization clientID uaaHost scope
        vcapRequestID reqReceived runtime h0 conn users).trace,
      job.Payload.Options = options ∧ job.Payload.Space = space ∧
      job.Payload.Organization = organization ∧ job.Payload.ClientID = clientID ∧
      job.Payload.UAAHost = uaaHost ∧ job.Payload.Scope = scope ∧
      job.Payload.VCAPRequestID = vcapRequestID ∧
      job.Payload.RequestReceived = reqReceived := by
  obtain ⟨ids, hl, hout, hgen, _, henq⟩ := observations_of_no_failure enqueuer options
    space organization clientID uaaHost scope vcapRequestID reqReceived runtime h0 conn users
    hok
  rw [hgen] at hd
  rw [hout, henq]
  constructor
  · refine ⟨_, rfl, ?_⟩
    intro i user hu
    obtain ⟨hi, hget⟩ := List.getElem?_eq_some_iff.mp hu
    have hi' : i < ids.length := hl ▸ hi
    refine ⟨responseFor vcapRequestID user ids[i], ?_, ?_⟩
    · rw [List.getElem?_eq_some_iff]
      exact ⟨by simp [hl, hi], by simp [hget]⟩
    · have hjobs := assignJobs_of_nodup options space organization clientID uaaHost scope
        vcapRequestID reqReceived users ids [] hd (by simp [JobMap.keys])
      rw [List.nil_append] at hjobs
      have hperm : ((runtime.rangeJobs.range (assignJobs options space organization clientID
          uaaHost scope vcapRequestID reqReceived [] users ids)).map Prod.snd).Perm
          (List.zipWith (jobFor options space organization clientID uaaHost scope
            vcapRequestID reqReceived) users ids) := by
        refine ((runtime.rangeJobs.perm _).map Prod.snd).trans ?_
        rw [hjobs, List.map_zipWith]
      rw [hperm.count_eq]
      have hnodup : (List.zipWith (jobFor options space organization clientID uaaHost scope
          vcapRequestID reqReceived) users ids).Nodup := by
        apply List.Nodup.of_map (fun job => job.Payload.MessageID)
        rw [messageIDs_zipWith_jobFor options space organization clientID uaaHost scope
          vcapRequestID reqReceived users ids hl]
        exact hd
      apply List.count_eq_one_of_mem hnodup
      rw [List.mem_iff_getElem]
      refine ⟨i, by simp [hl, hi], ?_⟩
      simp only [List.getElem_zipWith, hget]
      rfl
  · intro job hjob
    simp only [List.mem_map] at hjob
    obtain ⟨e, he, rfl⟩ := hjob
    have hmem := (runtime.rangeJobs.perm _).mem_iff.mp he
    rcases mem_assignJobs options space organization clientID uaaHost scope vcapRequestID
      reqReceived users ids [] e hmem with h | ⟨p, _, hp⟩
    · simp at h
    · rw [hp]
      exact ⟨rfl, rfl, rfl, rfl, rfl, rfl, rfl, rfl⟩

/-- Witness of C10 (amended): two recipients, two distinct ids, reliable collaborators. -/
theorem C10_distinct_ids_give_each_recipient_one_job_witness :
    (∀ e ∈ (testEnqueue (reliableEnqueuer ["id-1", "id-2"]) storedRuntime committingConn
      twoGUIDs).trace, e.isFailure = false) ∧
    (generatedIDs (testEnqueue (reliableEnqueuer ["id-1", "id-2"]) storedRuntime
      committingConn twoGUIDs).trace).Nodup ∧
    ∀ job ∈ enqueuedJobs (testEnqueue (reliableEnqueuer ["id-1", "id-2"]) storedRuntime
        committingConn twoGUIDs).trace,
      job.Payload.Options = noOptions ∧ job.Payload.Space = ⟨"the-space"⟩ ∧
      job.Payload.Organization = ⟨"the-org"⟩ ∧ job.Payload.ClientID = "the-client" ∧
      job.Payload.UAAHost = "" ∧ job.Payload.Scope = "my.scope" ∧
      job.Payload.VCAPRequestID = "some-request-id" ∧
      job.Payload.RequestReceived = ⟨0⟩ :=
  ⟨by decide, by decide,
    (C10_distinct_ids_give_each_recipient_one_job (reliableEnqueuer ["id-1", "id-2"])
      noOptions ⟨"the-space"⟩ ⟨"the-org"⟩ "the-client" "" "my.scope" "some-request-id" ⟨0⟩
      storedRuntime [] committingConn twoGUIDs (by decide) (by decide)).2⟩

/-- C11: after a call of `Enqueue` in which no collaborator answers with an error, whatever
the storage held before, for every job placed on the queue the committed rows hold the message
with the job's `MessageID` and status "queued", and every committed row with that id has
status "queued". -/
theorem C11_every_enqueued_job_has_a_queued_message (runtime : Runtime) (h0 : History)
    (conn : ConnectionInterface) (users : List User)
    (hok : ∀ e ∈ (enqueuer.Enqueue options space organization clientID uaaHost scope
      vcapRequestID reqReceived runtime h0 conn users).trace, e.isFailure = false) :
    ∀ (s : Store),
      ∀ job ∈ enqueuedJobs (enqueuer.Enqueue options space organization clientID uaaHost scope
          vcapRequestID reqReceived runtime h0 conn users).trace,
        ({ ID := job.Payload.MessageID, Status := "queued" } : Message) ∈
          (s.replay (enqueuer.Enqueue options space organization clientID uaaHost scope
            vcapRequestID reqReceived runtime h0 conn users).trace).rows ∧
        ∀ row ∈ (s.replay (enqueuer.Enqueue options space organization clientID uaaHost scope
            vcapRequestID reqReceived runtime h0 conn users).trace).rows,
          row.ID = job.Payload.MessageID → row.Status = "queued" := by
  obtain ⟨ids, hl, hrun⟩ := Enqueue_of_no_failure enqueuer options space organization
    clientID uaaHost scope vcapRequestID reqReceived runtime h0 conn users hok
  intro s job hjob
  rw [hrun] at hjob ⊢
  dsimp only at hjob ⊢
  have hmem : job ∈ (runtime.rangeJobs.range (assignJobs options space organization clientID
      uaaHost scope vcapRequestID reqReceived [] users ids)).map Prod.snd := by
    simpa [Event.enqueuedJob] using hjob
  simp only [List.mem_map] at hmem
  obtain ⟨e, he, rfl⟩ := hmem
  have hin := (runtime.rangeJobs.perm _).mem_iff.mp he
  have hid := messageID_of_mem_assignJobs options space organization clientID uaaHost scope
    vcapRequestID reqReceived users ids e hin
  have hk : e.2.Payload.MessageID ∈ JobMap.keys (runtime.rangeMessages.range (assignJobs
      options space organization clientID uaaHost scope vcapRequestID reqReceived [] users
      ids)) := by
    rw [hid, (keys_range_perm runtime.rangeMessages _).mem_iff]
    exact List.mem_map_of_mem Prod.fst hin
  have htail : ∀ e' ∈ (runtime.rangeJobs.range (assignJobs options space organization
      clientID uaaHost scope vcapRequestID reqReceived [] users ids)).map enqueueOk,
      e'.isEnqueue = true := by
    intro e' he'
    simp only [List.mem_map] at he'
    obtain ⟨a, _, rfl⟩ := he'
    rfl
  exact queued_row_of_mem_keys s ids _ _ htail _ hk

/-- Witness of C11: two recipients, reliable collaborators. -/
theorem C11_every_enqueued_job_has_a_queued_message_witness :
    (∀ e ∈ (testEnqueue (reliableEnqueuer ["id-1", "id-2"]) storedRuntime committingConn
      twoUsers).trace, e.isFailure = false) ∧
    (enqueuedJobs (testEnqueue (reliableEnqueuer ["id-1", "id-2"]) storedRuntime
      committingConn twoUsers).trace).length = 2 ∧
    ∀ (s : Store),
      ∀ job ∈ enqueuedJobs (testEnqueue (reliableEnqueuer ["id-1", "id-2"]) storedRuntime
          committingConn twoUsers).trace,
        ({ ID := job.Payload.MessageID, Status := "queued" } : Message) ∈
          (s.replay (testEnqueue (reliableEnqueuer ["id-1", "id-2"]) storedRuntime
            committingConn twoUsers).trace).rows ∧
        ∀ row ∈ (s.replay (testEnqueue (reliableEnqueuer ["id-1", "id-2"]) storedRuntime
            committingConn twoUsers).trace).rows,
          row.ID = job.Payload.MessageID → row.Status = "queued" :=
  ⟨by decide, by decide,
    C11_every_enqueued_job_has_a_queued_message (reliableEnqueuer ["id-1", "id-2"]) noOptions
      ⟨"the-space"⟩ ⟨"the-org"⟩ "the-client" "" "my.scope" "some-request-id" ⟨0⟩
      storedRuntime [] committingConn twoUsers (by decide)⟩

/-- C12: if the id generator answers with an error during `Enqueue`, the call panics with
that error (no response list is returned), the failed generator call is its last effect, and
every effect of the call is a generator call: no transaction is begun, no message is
upserted, nothing is committed and no job is enqueued. -/
theorem C12_generator_error_panics_before_any_effect (runtime : Runtime) (h0 : History)
    (conn : ConnectionInterface) (users : List User) (err : String)
    (hfail : Event.generate (.error err) ∈ (enqueuer.Enqueue options space organization
      clientID uaaHost scope vcapRequestID reqReceived runtime h0 conn users).trace) :
    (enqueuer.Enqueue options space organization clientID uaaHost scope vcapRequestID
      reqReceived runtime h0 conn users).outcome = .panicked err ∧
    (enqueuer.Enqueue options space organization clientID uaaHost scope vcapRequestID
      reqReceived runtime h0 conn users).trace.getLast? = some (Event.generate (.error err)) ∧
    (∀ e ∈ (enqueuer.Enqueue options space organization clientID uaaHost scope
      vcapRequestID reqReceived runtime h0 conn users).trace,
      e.isGenerate = true ∧ e ≠ Event.begin ∧ e.isUpsert = false ∧ e.isCommit = false ∧
        e.isEnqueue = false) := by
  rcases Enqueue_shape enqueuer options space organization clientID uaaHost scope
    vcapRequestID reqReceived runtime h0 conn users with
    ⟨ids, err', _, hrun⟩ | ⟨ids, hl, ⟨done, e, rest, err', _, hrun⟩ | ⟨err', hrun⟩ |
      ⟨done, e, rest, err', _, hrun⟩ | hrun⟩
  · rw [hrun] at hfail ⊢
    have herr : err = err' := by
      simpa [generateOk] using hfail
    subst herr
    refine ⟨rfl, by simp, ?_⟩
    intro e he
    simp only [List.mem_append, List.mem_map, List.mem_singleton] at he
    rcases he with ⟨a, _, rfl⟩ | rfl
    · exact ⟨rfl, by simp [generateOk], rfl, rfl, rfl⟩
    · exact ⟨rfl, by simp, rfl, rfl, rfl⟩
  · rw [hrun] at hfail
    simp [generateOk, upsertOk] at hfail
  · rw [hrun] at hfail
    simp [generateOk, upsertOk] at hfail
  · rw [hrun] at hfail
    simp [generateOk, upsertOk, enqueueOk] at hfail
  · rw [hrun] at hfail
    simp [generateOk, upsertOk, enqueueOk] at hfail

/-- Witness of C12: the generator has one id for two recipients and fails on the second. -/
theorem C12_generator_error_panics_before_any_effect_witness :
    Event.generate (.error "exhausted") ∈
      (testEnqueue (reliableEnqueuer ["id-1"]) storedRuntime committingConn twoUsers).trace ∧
    (testEnqueue (reliableEnqueuer ["id-1"]) storedRuntime committingConn twoUsers).outcome =
      .panicked "exhausted" ∧
    (testEnqueue (reliableEnqueuer ["id-1"]) storedRuntime committingConn twoUsers).trace =
      [Event.generate (.ok "id-1"), Event.generate (.error "exhausted")] :=
  ⟨by decide,
    (C12_generator_error_panics_before_any_effect (reliableEnqueuer ["id-1"]) noOptions
      ⟨"the-space"⟩ ⟨"the-org"⟩ "the-client" "" "my.scope" "some-request-id" ⟨0⟩
      storedRuntime [] committingConn twoUsers "exhausted" (by decide)).1,
    by decide⟩

/-- C13: in every call of `Enqueue`, at every position of the trace: an upsert is preceded by
`Begin` and by no call of `Commit`, and a queue insert is preceded by a `Commit` that returned
no error. -/
theorem C13_upserts_inside_transaction_enqueues_after_commit (runtime : Runtime)
    (h0 : History) (conn : ConnectionInterface) (users : List User)
    (pre post : List Event) (e : Event)
    (hsplit : (enqueuer.Enqueue options space organization clientID uaaHost scope
      vcapRequestID reqReceived runtime h0 conn users).trace = pre ++ e :: post) :
    (e.isUpsert = true → Event.begin ∈ pre ∧ ∀ x ∈ pre, x.isCommit = false) ∧
    (e.isEnqueue = true → Event.commit none ∈ pre) := by
  rcases Enqueue_trace_form enqueuer options space organization clientID uaaHost scope
    vcapRequestID reqReceived runtime h0 conn users with hall | ⟨G, U, R, htr, hG, hU, hR⟩
  · have he := hall e (by rw [hsplit]; simp)
    constructor
    · intro hu
      cases e <;> simp [Event.isGenerate, Event.isUpsert] at he hu
    · intro hq
      cases e <;> simp [Event.isGenerate, Event.isEnqueue] at he hq
  · rw [htr] at hsplit
    constructor
    · intro hu
      have hnotGB : e ∉ G ++ [Event.begin] := by
        intro hmem
        simp only [List.mem_append, List.mem_singleton] at hmem
        rcases hmem with hmem | rfl
        · have := hG e hmem
          cases e <;> simp [Event.isGenerate, Event.isUpsert] at this hu
        · simp [Event.isUpsert] at hu
      have hnotR : e ∉ R := by
        intro hmem
        rcases hR with rfl | ⟨err, rfl⟩ | ⟨Q, rfl, hQ⟩
        · simp only [List.mem_singleton] at hmem
          subst hmem
          simp [Event.isUpsert] at hu
        · simp only [List.mem_singleton] at hmem
          subst hmem
          simp [Event.isUpsert] at hu
        · simp only [List.mem_cons] at hmem
          rcases hmem with rfl | hmem
          · simp [Event.isUpsert] at hu
          · have := hQ e hmem
            cases e <;> simp [Event.isEnqueue, Event.isUpsert] at this hu
      rw [List.append_assoc] at hsplit
      obtain ⟨B₁, hpre, hB⟩ := split_right_of_not_mem _ _ _ _ _ hsplit hnotGB
      obtain ⟨A₂, hUeq, _⟩ := split_left_of_not_mem _ _ _ _ _ hB hnotR
      subst hpre
      refine ⟨by simp, ?_⟩
      intro x hx
      simp only [List.mem_append, List.mem_singleton] at hx
      rcases hx with (hx | rfl) | hx
      · have := hG x hx
        cases x <;> first | rfl | simp [Event.isGenerate] at this
      · rfl
      · have := hU x (by rw [hUeq]; simp [hx])
        cases x <;> first | rfl | simp [Event.isUpsert] at this
    · intro hq
      rcases hR with rfl | ⟨err, rfl⟩ | ⟨Q, rfl, hQ⟩
      · exfalso
        have hmem : e ∈ G ++ [Event.begin] ++ U ++ [Event.rollback] := by rw [hsplit]; simp
        simp only [List.mem_append, List.mem_singleton] at hmem
        rcases hmem with ((hmem | rfl) | hmem) | rfl
        · have := hG e hmem
          cases e <;> simp [Event.isGenerate, Event.isEnqueue] at this hq
        · simp [Event.isEnqueue] at hq
        · have := hU e hmem
          cases e <;> simp [Event.isUpsert, Event.isEnqueue] at this hq
        · simp [Event.isEnqueue] at hq
      · exfalso
        have hmem : e ∈ G ++ [Event.begin] ++ U ++ [Event.commit (some err)] := by
          rw [hsplit]; simp
        simp only [List.mem_append, List.mem_singleton] at hmem
        rcases hmem with ((hmem | rfl) | hmem) | rfl
        · have := hG e hmem
          cases e <;> simp [Event.isGenerate, Event.isEnqueue] at this hq
        · simp [Event.isEnqueue] at hq
        · have := hU e hmem
          cases e <;> simp [Event.isUpsert, Event.isEnqueue] at this hq
        · simp [Event.isEnqueue] at hq
      · have hnot : e ∉ G ++ [Event.begin] ++ U ++ [Event.commit none] := by
          intro hmem
          simp only [List.mem_append, List.mem_singleton] at hmem
          rcases hmem with ((hmem | rfl) | hmem) | rfl
          · have := hG e hmem
            cases e <;> simp [Event.isGenerate, Event.isEnqueue] at this hq
          · simp [Event.isEnqueue] at hq
          · have := hU e hmem
            cases e <;> simp [Event.isUpsert, Event.isEnqueue] at this hq
          · simp [Event.isEnqueue] at hq
        have hsplit' : (G ++ [Event.begin] ++ U ++ [Event.commit none]) ++ Q =
            pre ++ e :: post := by
          rw [← hsplit]; simp
        obtain ⟨B₁, hpre, _⟩ := split_right_of_not_mem _ _ _ _ _ hsplit' hnot
        subst hpre
        simp

/-- Witness of C13: the second upsert and the first queue insert of a two-recipient request. -/
theorem C13_upserts_inside_transaction_enqueues_after_commit_witness :
    (testEnqueue (reliableEnqueuer ["id-1", "id-2"]) storedRuntime committingConn
      twoUsers).trace =
      (testEnqueue (reliableEnqueuer ["id-1", "id-2"]) storedRuntime committingConn
        twoUsers).trace.take 4 ++ Event.upsert ⟨"id-2", "queued"⟩ none ::
      (testEnqueue (reliableEnqueuer ["id-1", "id-2"]) storedRuntime committingConn
        twoUsers).trace.drop 5 ∧
    Event.begin ∈ (testEnqueue (reliableEnqueuer ["id-1", "id-2"]) storedRuntime
      committingConn twoUsers).trace.take 4 ∧
    ∀ x ∈ (testEnqueue (reliableEnqueuer ["id-1", "id-2"]) storedRuntime committingConn
      twoUsers).trace.take 4, x.isCommit = false :=
  ⟨by decide,
    (C13_upserts_inside_transaction_enqueues_after_commit (reliableEnqueuer ["id-1", "id-2"])
      noOptions ⟨"the-space"⟩ ⟨"the-org"⟩ "the-client" "" "my.scope" "some-request-id" ⟨0⟩
      storedRuntime [] committingConn twoUsers
      ((testEnqueue (reliableEnqueuer ["id-1", "id-2"]) storedRuntime committingConn
        twoUsers).trace.take 4)
      ((testEnqueue (reliableEnqueuer ["id-1", "id-2"]) storedRuntime committingConn
        twoUsers).trace.drop 5)
      (Event.upsert ⟨"id-2", "queued"⟩ none) (by decide)).1 rfl⟩

/-- C14: for a non-empty recipient list, when no collaborator answers with an error,
`Enqueue` calls `Begin`, calls `Commit` (which returns no error), never calls `Rollback`, and
returns a non-empty response list. -/
theorem C14_success_commits_without_rollback (runtime : Runtime) (h0 : History)
    (conn : ConnectionInterface) (users : List User) (hu : users ≠ [])
    (hok : ∀ e ∈ (enqueuer.Enqueue options space organization clientID uaaHost scope
      vcapRequestID reqReceived runtime h0 conn users).trace, e.isFailure = false) :
    Event.begin ∈ (enqueuer.Enqueue options space organization clientID uaaHost scope
      vcapRequestID reqReceived runtime h0 conn users).trace ∧
    Event.commit none ∈ (enqueuer.Enqueue options space organization clientID uaaHost scope
      vcapRequestID reqReceived runtime h0 conn users).trace ∧
    Event.rollback ∉ (enqueuer.Enqueue options space organization clientID uaaHost scope
      vcapRequestID reqReceived runtime h0 conn users).trace ∧
    ∃ rs : List Response,
      (enqueuer.Enqueue options space organization clientID uaaHost scope vcapRequestID
        reqReceived runtime h0 conn users).outcome = .returned rs ∧ rs ≠ [] := by
  obtain ⟨ids, hl, hrun⟩ := Enqueue_of_no_failure enqueuer options space organization
    clientID uaaHost scope vcapRequestID reqReceived runtime h0 conn users hok
  rw [hrun]
  refine ⟨by simp, by simp, by simp [generateOk, upsertOk, enqueueOk], _, rfl, ?_⟩
  intro hnil
  have hlen := congrArg List.length hnil
  simp only [List.length_zipWith, hl, List.length_nil, Nat.min_self] at hlen
  exact hu (List.length_eq_zero.mp hlen)

/-- Witness of C14: two recipients, reliable collaborators, as in the commit test. -/
theorem C14_success_commits_without_rollback_witness :
    twoUsers ≠ [] ∧
    (∀ e ∈ (testEnqueue (reliableEnqueuer ["id-1", "id-2"]) storedRuntime committingConn
      twoUsers).trace, e.isFailure = false) ∧
    Event.begin ∈ (testEnqueue (reliableEnqueuer ["id-1", "id-2"]) storedRuntime
      committingConn twoUsers).trace ∧
    Event.commit none ∈ (testEnqueue (reliableEnqueuer ["id-1", "id-2"]) storedRuntime
      committingConn twoUsers).trace ∧
    Event.rollback ∉ (testEnqueue (reliableEnqueuer ["id-1", "id-2"]) storedRuntime
      committingConn twoUsers).trace ∧
    ∃ rs : List Response,
      (testEnqueue (reliableEnqueuer ["id-1", "id-2"]) storedRuntime committingConn
        twoUsers).outcome = .returned rs ∧ rs ≠ [] :=
  ⟨by decide, by decide,
    C14_success_commits_without_rollback (reliableEnqueuer ["id-1", "id-2"]) noOptions
      ⟨"the-space"⟩ ⟨"the-org"⟩ "the-client" "" "my.scope" "some-request-id" ⟨0⟩
      storedRuntime [] committingConn twoUsers (by decide) (by decide)⟩

/-- C15: if the queue answers the insert of a job with an error, then `Commit` had returned
no error, the failed insert is the last effect of the call, the empty response list is
returned, the queue holds exactly the jobs accepted before the failure and not the rejected
job, and, whatever the storage held before, the committed rows hold a message with status
"queued" for the rejected job and for every generated id. -/
theorem C15_rejected_job_is_lost_but_messages_stay_queued (runtime : Runtime) (h0 : History)
    (conn : ConnectionInterface) (users : List User) (job : Job) (err : String)
    (hfail : Event.enqueue job (some err) ∈ (enqueuer.Enqueue options space organization
      clientID uaaHost scope vcapRequestID reqReceived runtime h0 conn users).trace) :
    (enqueuer.Enqueue options space organization clientID uaaHost scope vcapRequestID
      reqReceived runtime h0 conn users).outcome = .returned [] ∧
    Event.commit none ∈ (enqueuer.Enqueue options space organization clientID uaaHost scope
      vcapRequestID reqReceived runtime h0 conn users).trace ∧
    (∃ pre : List Event,
      (enqueuer.Enqueue options space organization clientID uaaHost scope vcapRequestID
        reqReceived runtime h0 conn users).trace = pre ++ [Event.enqueue job (some err)] ∧
      enqueuedJobs (enqueuer.Enqueue options space organization clientID uaaHost scope
        vcapRequestID reqReceived runtime h0 conn users).trace = enqueuedJobs pre) ∧
    job ∉ enqueuedJobs (enqueuer.Enqueue options space organization clientID uaaHost scope
      vcapRequestID reqReceived runtime h0 conn users).trace ∧
    ∀ s : Store,
      ({ ID := job.Payload.MessageID, Status := "queued" } : Message) ∈
        (s.replay (enqueuer.Enqueue options space organization clientID uaaHost scope
          vcapRequestID reqReceived runtime h0 conn users).trace).rows ∧
      ∀ messageID ∈ generatedIDs (enqueuer.Enqueue options space organization clientID
          uaaHost scope vcapRequestID reqReceived runtime h0 conn users).trace,
        ({ ID := messageID, Status := "queued" } : Message) ∈
          (s.replay (enqueuer.Enqueue options space organization clientID uaaHost scope
            vcapRequestID reqReceived runtime h0 conn users).trace).rows ∧
        ∀ row ∈ (s.replay (enqueuer.Enqueue options space organization clientID uaaHost
            scope vcapRequestID reqReceived runtime h0 conn users).trace).rows,
          row.ID = messageID → row.Status = "queued" := by
  rcases Enqueue_shape enqueuer options space organization clientID uaaHost scope
    vcapRequestID reqReceived runtime h0 conn users with
    ⟨ids, err', _, hrun⟩ | ⟨ids, hl, ⟨done, e, rest, err', _, hrun⟩ | ⟨err', hrun⟩ |
      ⟨done, e, rest, err', hdone, hrun⟩ | hrun⟩
  · rw [hrun] at hfail
    simp [generateOk] at hfail
  · rw [hrun] at hfail
    simp [generateOk, upsertOk] at hfail
  · rw [hrun] at hfail
    simp [generateOk, upsertOk] at hfail
  · rw [hrun] at hfail ⊢
    have hje : job = e.2 ∧ err = err' := by
      simpa [generateOk, upsertOk, enqueueOk] using hfail
    obtain ⟨hj, herr⟩ := hje
    subst herr
    have htail : ∀ e' ∈ done.map enqueueOk ++ [Event.enqueue e.2 (some err)],
        e'.isEnqueue = true := by
      intro e' he'
      simp only [List.mem_append, List.mem_map, List.mem_singleton] at he'
      rcases he' with ⟨a, _, rfl⟩ | rfl <;> rfl
    have hemem : e ∈ assignJobs options space organization clientID uaaHost scope
        vcapRequestID reqReceived [] users ids := by
      apply (runtime.rangeJobs.perm _).mem_iff.mp
      rw [hdone]
      simp
    have hid := messageID_of_mem_assignJobs options space organization clientID uaaHost
      scope vcapRequestID reqReceived users ids e hemem
    have hkeys : ∀ k : String, k ∈ ids → k ∈ JobMap.keys (runtime.rangeMessages.range
        (assignJobs options space organization clientID uaaHost scope vcapRequestID
          reqReceived [] users ids)) := by
      intro k hk
      rw [(keys_range_perm runtime.rangeMessages _).mem_iff,
        mem_keys_assignJobs options space organization clientID uaaHost scope vcapRequestID
          reqReceived users ids [] hl k]
      exact Or.inr hk
    have hjobs : enqueuedJobs (ids.map generateOk ++ [Event.begin] ++
        (runtime.rangeMessages.range (assignJobs options space organization clientID uaaHost
          scope vcapRequestID reqReceived [] users ids)).map upsertOk ++ [Event.commit none] ++
        (done.map enqueueOk ++ [Event.enqueue e.2 (some err)])) = done.map Prod.snd := by
      simp [Event.enqueuedJob]
    have hgen : generatedIDs (ids.map generateOk ++ [Event.begin] ++
        (runtime.rangeMessages.range (assignJobs options space organization clientID uaaHost
          scope vcapRequestID reqReceived [] users ids)).map upsertOk ++ [Event.commit none] ++
        (done.map enqueueOk ++ [Event.enqueue e.2 (some err)])) = ids := by
      simp [Event.generatedID]
    dsimp only
    refine ⟨rfl, by simp, ⟨ids.map generateOk ++ [Event.begin] ++
        (runtime.rangeMessages.range (assignJobs options space organization clientID uaaHost
          scope vcapRequestID reqReceived [] users ids)).map upsertOk ++ [Event.commit none] ++
        done.map enqueueOk, by simp [hj], ?_⟩, ?_, ?_⟩
    · rw [hjobs]
      simp [Event.enqueuedJob]
    · rw [hjobs, hj]
      have hnd := nodup_jobs_range options space organization clientID uaaHost scope
        vcapRequestID reqReceived runtime.rangeJobs users ids
      rw [hdone, List.map_append, List.map_cons] at hnd
      exact fun hmem => (List.nodup_append.mp hnd).2.2 hmem (List.mem_cons_self _ _)
    · intro s
      rw [hgen]
      constructor
      · have hk : job.Payload.MessageID ∈ ids := by
          rw [hj, hid]
          have := List.mem_map_of_mem Prod.fst hemem
          rw [← JobMap.keys, mem_keys_assignJobs options space organization clientID uaaHost
            scope vcapRequestID reqReceived users ids [] hl e.1] at this
          rcases this with h | h
          · simp [JobMap.keys] at h
          · exact h
        exact (queued_row_of_mem_keys s ids _ _ htail _ (hkeys _ hk)).1
      · intro messageID hm
        exact queued_row_of_mem_keys s ids _ _ htail _ (hkeys _ hm)
  · rw [hrun] at hfail
    simp [generateOk, upsertOk, enqueueOk] at hfail

/-- Witness of C15: the queue rejects the job of a one-recipient request. -/
theorem C15_rejected_job_is_lost_but_messages_stay_queued_witness :
    Event.enqueue
      (jobFor noOptions ⟨"the-space"⟩ ⟨"the-org"⟩ "the-client" "" "my.scope" "some-request-id"
        ⟨0⟩ ⟨"user-1", ""⟩ "id-1")
      (some "queue is down") ∈
      (testEnqueue (queueFailingEnqueuer ["id-1"]) storedRuntime committingConn
        [⟨"user-1", ""⟩]).trace ∧
    (testEnqueue (queueFailingEnqueuer ["id-1"]) storedRuntime committingConn
      [⟨"user-1", ""⟩]).outcome = .returned [] ∧
    ∀ s : Store, ({ ID := "id-1", Status := "queued" } : Message) ∈
      (s.replay (testEnqueue (queueFailingEnqueuer ["id-1"]) storedRuntime committingConn
        [⟨"user-1", ""⟩]).trace).rows :=
  have h := C15_rejected_job_is_lost_but_messages_stay_queued (queueFailingEnqueuer ["id-1"])
    noOptions ⟨"the-space"⟩ ⟨"the-org"⟩ "the-client" "" "my.scope" "some-request-id" ⟨0⟩
    storedRuntime [] committingConn [⟨"user-1", ""⟩]
    (jobFor noOptions ⟨"the-space"⟩ ⟨"the-org"⟩ "the-client" "" "my.scope" "some-request-id"
      ⟨0⟩ ⟨"user-1", ""⟩ "id-1")
    "queue is down" (by decide)
  ⟨by decide, h.1, fun s => (h.2.2.2.2 s).1⟩

/-- C16: for the empty recipient list `Enqueue` calls `Begin` and then `Commit` and nothing
else (no generator call, no upsert, no queue insert, no `Rollback`), and returns the empty
response list whatever `Commit` answers. -/
theorem C16_empty_recipient_list (runtime : Runtime) (h0 : History)
    (conn : ConnectionInterface) :
    enqueuer.Enqueue options space organization clientID uaaHost scope vcapRequestID
        reqReceived runtime h0 conn [] =
      ⟨.returned [], [Event.begin, Event.commit (conn.Commit (h0 ++ [Event.begin]))]⟩ ∧
    generatedIDs (enqueuer.Enqueue options space organization clientID uaaHost scope
      vcapRequestID reqReceived runtime h0 conn []).trace = [] ∧
    (∀ e ∈ (enqueuer.Enqueue options space organization clientID uaaHost scope
      vcapRequestID reqReceived runtime h0 conn []).trace,
      e.isGenerate = false ∧ e.isUpsert = false ∧ e.isEnqueue = false ∧
        e ≠ Event.rollback) := by
  have h1 : runtime.rangeMessages.range [] = [] := (runtime.rangeMessages.perm []).eq_nil
  have h2 : runtime.rangeJobs.range [] = [] := (runtime.rangeJobs.perm []).eq_nil
  have hrun : enqueuer.Enqueue options space organization clientID uaaHost scope
      vcapRequestID reqReceived runtime h0 conn [] =
      ⟨.returned [], [Event.begin, Event.commit (conn.Commit (h0 ++ [Event.begin]))]⟩ := by
    simp only [Enqueuer.Enqueue, buildLoop, h1, h2, upsertLoop, enqueueLoop, List.append_nil,
      List.nil_append]
    cases hc : conn.Commit (h0 ++ [Event.begin]) <;> rfl
  rw [hrun]
  refine ⟨rfl, by simp [Event.generatedID], ?_⟩
  intro e he
  simp only [List.mem_cons, List.mem_singleton, List.not_mem_nil, or_false] at he
  rcases he with rfl | rfl
  · exact ⟨rfl, rfl, rfl, by simp⟩
  · exact ⟨rfl, rfl, rfl, by simp⟩

/-- C20: when no collaborator answers with an error, the returned list is in input order:
the generator was called once per recipient and the i-th response reports the i-th recipient
and carries the id of the i-th generator call; and a call with any other iteration order of
the job map in which no collaborator answers with an error returns the same list. -/
theorem C20_responses_in_input_order (runtime runtime' : Runtime) (h0 : History)
    (conn : ConnectionInterface) (users : List User)
    (hok : ∀ e ∈ (enqueuer.Enqueue options space organization clientID uaaHost scope
      vcapRequestID reqReceived runtime h0 conn users).trace, e.isFailure = false)
    (hok' : ∀ e ∈ (enqueuer.Enqueue options space organization clientID uaaHost scope
      vcapRequestID reqReceived runtime' h0 conn users).trace, e.isFailure = false) :
    ∃ rs : List Response,
      (enqueuer.Enqueue options space organization clientID uaaHost scope vcapRequestID
        reqReceived runtime h0 conn users).outcome = .returned rs ∧
      (enqueuer.Enqueue options space organization clientID uaaHost scope vcapRequestID
        reqReceived runtime' h0 conn users).outcome = .returned rs ∧
      rs.length = users.length ∧
      (generatedIDs (enqueuer.Enqueue options space organization clientID uaaHost scope
        vcapRequestID reqReceived runtime h0 conn users).trace).length = users.length ∧
      ∀ (i : Nat) (user : User), users[i]? = some user →
        ∃ messageID : String,
          (generatedIDs (enqueuer.Enqueue options space organization clientID uaaHost scope
            vcapRequestID reqReceived runtime h0 conn users).trace)[i]? = some messageID ∧
          rs[i]? = some
            { Status := "queued"
              Recipient := if user.Email = "" then user.GUID else user.Email
              NotificationID := messageID
              VCAPRequestID := vcapRequestID } := by
  obtain ⟨ids, hl, hout, hgen, _, _⟩ := observations_of_no_failure enqueuer options
    space organization clientID uaaHost scope vcapRequestID reqReceived runtime h0 conn users
    hok
  obtain ⟨ids', _, hout', hgen', _, _⟩ := observations_of_no_failure enqueuer options
    space organization clientID uaaHost scope vcapRequestID reqReceived runtime' h0 conn users
    hok'
  have hsame : ids' = ids := by
    rw [← hgen, ← hgen', generatedIDs_trace, generatedIDs_trace]
  subst hsame
  rw [hgen]
  refine ⟨_, hout, hout', by simp [hl], hl, ?_⟩
  intro i user hu
  obtain ⟨hi, hget⟩ := List.getElem?_eq_some_iff.mp hu
  have hi' : i < ids'.length := hl ▸ hi
  refine ⟨ids'[i], List.getElem?_eq_getElem hi', ?_⟩
  rw [List.getElem?_eq_some_iff]
  exact ⟨by simp [hl, hi], by simp [hget, responseFor, recipientOf, StatusQueued]⟩

/-- Witness of C20: two recipients, reliable collaborators, two iteration orders. -/
theorem C20_responses_in_input_order_witness :
    (∀ e ∈ (testEnqueue (reliableEnqueuer ["id-1", "id-2"]) storedRuntime committingConn
      twoUsers).trace, e.isFailure = false) ∧
    (∀ e ∈ (testEnqueue (reliableEnqueuer ["id-1", "id-2"]) reversedRuntime committingConn
      twoUsers).trace, e.isFailure = false) ∧
    (testEnqueue (reliableEnqueuer ["id-1", "id-2"]) reversedRuntime committingConn
      twoUsers).outcome =
      .returned [⟨"queued", "user-1", "id-1", "some-request-id"⟩,
        ⟨"queued", "user-2@example.com", "id-2", "some-request-id"⟩] ∧
    ∃ rs : List Response,
      (testEnqueue (reliableEnqueuer ["id-1", "id-2"]) storedRuntime committingConn
        twoUsers).outcome = .returned rs ∧
      (testEnqueue (reliableEnqueuer ["id-1", "id-2"]) reversedRuntime committingConn
        twoUsers).outcome = .returned rs ∧
      rs.length = twoUsers.length :=
  have h := C20_responses_in_input_order (reliableEnqueuer ["id-1", "id-2"]) noOptions
    ⟨"the-space"⟩ ⟨"the-org"⟩ "the-client" "" "my.scope" "some-request-id" ⟨0⟩
    storedRuntime reversedRuntime [] committingConn twoUsers (by decide) (by decide)
  ⟨by decide, by decide, by decide,
    h.elim fun rs hrs => ⟨rs, hrs.1, hrs.2.1, hrs.2.2.1⟩⟩

/-- The failures that `UsersEmailsByIDs` does surface: for every id list, if `tokenHost`
returns an error, `UsersEmailsByIDs` returns the nil user list with that error and makes no
directory query; and if a directory query answers with an error, `UsersEmailsByIDs` returns
the nil user list with that error, the failed query is the last one made, and the queries made
are those of an initial segment of the ids (none for the remaining ids). A `tokenHost` that
panics is not among these cases. -/
theorem uaa.returned_lookup_failure_is_surfaced (z : uaa.ZonedUAAClient) (lib : uaa.Libraries)
    (token : String) (ids : List String) :
    (∀ host err : String, z.tokenHost lib token = .returned (host, some err) →
      (z.UsersEmailsByIDs lib token ids).outcome = .returned ([], some err) ∧
      (z.UsersEmailsByIDs lib token ids).calls = []) ∧
    (∀ call ∈ (z.UsersEmailsByIDs lib token ids).calls, ∀ err : String,
      call.answer = .error err →
      (z.UsersEmailsByIDs lib token ids).outcome = .returned ([], some err) ∧
      (z.UsersEmailsByIDs lib token ids).calls.getLast? = some call ∧
      ((z.UsersEmailsByIDs lib token ids).calls).map (fun c => c.query.Filter) =
        (ids.take (z.UsersEmailsByIDs lib token ids).calls.length).map uaa.idFilter) := by
  constructor
  · intro host err hh
    simp [uaa.ZonedUAAClient.UsersEmailsByIDs, hh]
  · intro call hcall err herr
    unfold uaa.ZonedUAAClient.UsersEmailsByIDs at hcall ⊢
    split at hcall
    · simp at hcall
    · simp at hcall
    · rename_i uaaHost hh
      simp only [hh]
      dsimp only at hcall ⊢
      obtain ⟨h1, h2⟩ := uaa.usersLoop_error lib _ token ids [] [] call err hcall herr
      exact ⟨by rw [h1], h2, uaa.usersLoop_filters lib _ token ids [] []⟩

/-- The surfaced failures on examples: a token that does not parse, and a directory that
fails on the second of three ids. -/
theorem uaa.returned_lookup_failure_is_surfaced_example :
    uaa.testClient.tokenHost uaa.rejectingLibraries "a-token" =
      .returned ("", some "token is malformed") ∧
    (uaa.testClient.UsersEmailsByIDs uaa.rejectingLibraries "a-token"
      ["user-1", "user-2"]).outcome = .returned ([], some "token is malformed") ∧
    (uaa.testClient.UsersEmailsByIDs uaa.rejectingLibraries "a-token"
      ["user-1", "user-2"]).calls = [] ∧
    (⟨⟨"https://uaa.example.com", false⟩, ⟨uaa.idFilter "missing"⟩, "a-token",
        .error "directory is down"⟩ : uaa.ListCall) ∈
      (uaa.testClient.UsersEmailsByIDs uaa.testLibraries "a-token"
        ["user-1", "missing", "user-3"]).calls ∧
    (uaa.testClient.UsersEmailsByIDs uaa.testLibraries "a-token"
      ["user-1", "missing", "user-3"]).outcome = .returned ([], some "directory is down") ∧
    ((uaa.testClient.UsersEmailsByIDs uaa.testLibraries "a-token"
      ["user-1", "missing", "user-3"]).calls).map (fun c => c.query.Filter) =
      [uaa.idFilter "user-1", uaa.idFilter "missing"] :=
  have h := uaa.returned_lookup_failure_is_surfaced uaa.testClient uaa.rejectingLibraries
    "a-token"
    ["user-1", "user-2"]
  have h' := uaa.returned_lookup_failure_is_surfaced uaa.testClient uaa.testLibraries
    "a-token"
    ["user-1", "missing", "user-3"]
  ⟨by decide, (h.1 "" "token is malformed" (by decide)).1,
    (h.1 "" "token is malformed" (by decide)).2, by decide,
    (h'.2 ⟨⟨"https://uaa.example.com", false⟩, ⟨uaa.idFilter "missing"⟩, "a-token",
      .error "directory is down"⟩ (by decide) "directory is down" rfl).1, by decide⟩

/-- C17, the code on a token from which no issuer host can be derived: the token parses, but
its claims have no "iss" entry, or an "iss" entry that is not a string. For every id list
`UsersEmailsByIDs` then makes no directory query and panics at the type assertion inside
`tokenHost` (line 44 calling line 79): it does not return the nil user list together with an
error, as it does when the token does not parse. -/
theorem C17_lookup_panics_without_string_issuer :
    (∃ parsedToken : uaa.Token,
      uaa.issuerlessLibraries.jwtParse "a-token" uaa.testClient.UAAPublicKey =
        .ok parsedToken ∧ parsedToken.Claims "iss" = none) ∧
    (∃ parsedToken : uaa.Token,
      uaa.numericIssuerLibraries.jwtParse "a-token" uaa.testClient.UAAPublicKey =
        .ok parsedToken ∧ parsedToken.Claims "iss" = some .other) ∧
    (∀ ids : List String,
      (uaa.testClient.UsersEmailsByIDs uaa.issuerlessLibraries "a-token" ids).outcome =
        .panicked "interface conversion: interface is not string" ∧
      (uaa.testClient.UsersEmailsByIDs uaa.issuerlessLibraries "a-token" ids).calls = [] ∧
      (uaa.testClient.UsersEmailsByIDs uaa.numericIssuerLibraries "a-token" ids).outcome =
        .panicked "interface conversion: interface is not string" ∧
      (uaa.testClient.UsersEmailsByIDs uaa.numericIssuerLibraries "a-token" ids).calls = [] ∧
      ∀ err : String,
        (uaa.testClient.UsersEmailsByIDs uaa.issuerlessLibraries "a-token" ids).outcome ≠
          .returned ([], some err) ∧
        (uaa.testClient.UsersEmailsByIDs uaa.numericIssuerLibraries "a-token" ids).outcome ≠
          .returned ([], some err)) ∧
    (uaa.testClient.UsersEmailsByIDs uaa.rejectingLibraries "a-token"
      ["user-1", "user-2"]).outcome = .returned ([], some "token is malformed") :=
  have h1 : ∀ ids : List String,
      uaa.testClient.UsersEmailsByIDs uaa.issuerlessLibraries "a-token" ids =
        ⟨.panicked "interface conversion: interface is not string", []⟩ := fun _ => rfl
  have h2 : ∀ ids : List String,
      uaa.testClient.UsersEmailsByIDs uaa.numericIssuerLibraries "a-token" ids =
        ⟨.panicked "interface conversion: interface is not string", []⟩ := by
    intro ids
    simp [uaa.ZonedUAAClient.UsersEmailsByIDs, uaa.ZonedUAAClient.tokenHost,
      uaa.numericIssuerLibraries]
  ⟨⟨_, rfl, rfl⟩, ⟨_, rfl, by decide⟩,
    fun ids => ⟨by rw [h1], by rw [h1], by rw [h2], by rw [h2],
      fun err => ⟨by rw [h1]; simp, by rw [h2]; simp⟩⟩,
    by decide⟩

/-- C18, the code on instance index 1: `StartQueueGauge` starts nothing there, but
`StartMessageGC` starts the message GC, as it does on every instance index. -/
theorem C18_message_gc_starts_on_every_instance :
    application.Application.StartQueueGauge ⟨⟨⟨1⟩, false, false⟩⟩ = [] ∧
    application.Application.StartMessageGC ⟨⟨⟨1⟩, false, false⟩⟩ =
      [application.BootEffect.messageGCRun (24 * application.Hour) (1 * application.Hour)] ∧
    ∀ app : application.Application,
      app.StartMessageGC =
        [application.BootEffect.messageGCRun (24 * application.Hour)
          (1 * application.Hour)] :=
  ⟨by decide, rfl, fun _ => rfl⟩

/-- C19, counterexample: a mail client cannot be constructed; `StartWorkers` panics with that
error at the first worker and neither constructs nor starts any worker. -/
theorem C19_mail_client_error_starts_no_worker :
    web.StartWorkers web.testEnvironment (fun _ _ _ _ => some "missing port in address") =
      ⟨.panicked "missing port in address",
        [web.WorkerEffect.newClient "user" "pass" "smtp.example.com:587"
          (some "missing port in address")]⟩ ∧
    web.constructedIDs (web.StartWorkers web.testEnvironment
      (fun _ _ _ _ => some "missing port in address")).effects = [] ∧
    (web.constructedIDs (web.StartWorkers web.testEnvironment
      (fun _ _ _ _ => some "missing port in address")).effects).length ≠ web.WorkerCount := by
  decide

/-- C19, amended: when no mail client request answers with an error, `StartWorkers` returns
after constructing exactly `WorkerCount` (= 10) delivery workers, with the pairwise distinct
ids 1 through 10 in this order, and starting each of them exactly once; and when a mail client
request answers with an error, `StartWorkers` panics with that error at that worker: the failed
request is its last effect, and the workers constructed and started are those of the `k`
iterations before it, with ids 1 through `k` for some `k` below `WorkerCount`. -/
theorem C19_ten_workers_constructed_and_started (env : web.Environment)
    (newClient : web.NewClient) :
    ((∀ e ∈ (web.StartWorkers env newClient).effects, e.isFailure = false) →
      (web.StartWorkers env newClient).outcome = .returned () ∧
      web.constructedIDs (web.StartWorkers env newClient).effects =
        [1, 2, 3, 4, 5, 6, 7, 8, 9, 10] ∧
      web.startedIDs (web.StartWorkers env newClient).effects =
        [1, 2, 3, 4, 5, 6, 7, 8, 9, 10] ∧
      (web.constructedIDs (web.StartWorkers env newClient).effects).length = web.WorkerCount ∧
      (web.constructedIDs (web.StartWorkers env newClient).effects).Nodup ∧
      web.WorkerCount = 10 ∧ application.WorkerCount = 10) ∧
    (∀ user pass addr err : String,
      web.WorkerEffect.newClient user pass addr (some err) ∈
        (web.StartWorkers env newClient).effects →
      (web.StartWorkers env newClient).outcome = .panicked err ∧
      (web.StartWorkers env newClient).effects.getLast? =
        some (web.WorkerEffect.newClient user pass addr (some err)) ∧
      ∃ k : Nat, k < web.WorkerCount ∧
        web.constructedIDs (web.StartWorkers env newClient).effects = List.range' 1 k ∧
        web.startedIDs (web.StartWorkers env newClient).effects = List.range' 1 k) := by
  have heff : (web.StartWorkers env newClient).effects =
      (web.startLoop env newClient web.WorkerCount 0 []).2 := by
    unfold web.StartWorkers
    split <;> rename_i h <;> rw [h]
  constructor
  · intro hok
    rw [heff] at hok ⊢
    obtain ⟨h1, h2, h3⟩ := web.startLoop_of_no_failure env newClient web.WorkerCount 0 [] hok
    have hout : (web.StartWorkers env newClient).outcome = .returned () := by
      unfold web.StartWorkers
      split
      · rename_i err effects h
        rw [h] at h1
        simp at h1
      · rfl
    have hrange : List.range' (0 + 1) web.WorkerCount = [1, 2, 3, 4, 5, 6, 7, 8, 9, 10] := by
      decide
    rw [h2, h3, hrange]
    exact ⟨hout, rfl, rfl, rfl, by decide, rfl, rfl⟩
  · intro user pass addr err hmem
    rw [heff] at hmem ⊢
    obtain ⟨h1, h2, k, hk, h3, h4⟩ :=
      web.startLoop_of_failure env newClient web.WorkerCount 0 [] user pass addr err hmem
    have hout : (web.StartWorkers env newClient).outcome = .panicked err := by
      unfold web.StartWorkers
      split
      · rename_i err' effects h
        rw [h] at h1
        simp only [Option.some.injEq] at h1
        rw [h1]
      · rename_i effects h
        rw [h] at h1
        simp at h1
    exact ⟨hout, h2, k, hk, h3, h4⟩

/-- Witness of C19 (amended): every mail client is constructed, and the ten workers are
started; the mail client of the third worker cannot be constructed, and `StartWorkers` panics
with that error after starting the workers 1 and 2. -/
theorem C19_ten_workers_constructed_and_started_witness :
    ((∀ e ∈ (web.StartWorkers web.testEnvironment (fun _ _ _ _ => none)).effects,
      e.isFailure = false) ∧
    (web.StartWorkers web.testEnvironment (fun _ _ _ _ => none)).outcome = .returned () ∧
    web.startedIDs (web.StartWorkers web.testEnvironment (fun _ _ _ _ => none)).effects =
      [1, 2, 3, 4, 5, 6, 7, 8, 9, 10]) ∧
    (web.WorkerEffect.newClient "user" "pass" "smtp.example.com:587"
      (some "connection refused") ∈
        (web.StartWorkers web.testEnvironment web.failingAtThird).effects ∧
    (web.StartWorkers web.testEnvironment web.failingAtThird).outcome =
      .panicked "connection refused" ∧
    web.startedIDs (web.StartWorkers web.testEnvironment web.failingAtThird).effects =
      [1, 2]) :=
  have h := (C19_ten_workers_constructed_and_started web.testEnvironment
    (fun _ _ _ _ => none)).1 (by decide)
  have h' := (C19_ten_workers_constructed_and_started web.testEnvironment
    web.failingAtThird).2 "user" "pass" "smtp.example.com:587" "connection refused" (by decide)
  ⟨⟨by decide, h.1, h.2.2.1⟩, by decide, h'.1, by decide⟩

/-- C21, counterexample: the repository and the queue accept everything (their answers depend
on nothing), and `Commit` fails exactly when the upsert of "id-2" came last. Visiting the
entries of the job map as stored makes the commit fail and `Enqueue` return the empty list;
visiting them in reverse makes it return the two responses. -/
theorem C21_order_sensitive_commit_changes_result :
    (∀ (h h' : History) (m : Message),
      (reliableEnqueuer ["id-1", "id-2"]).messagesRepo h m =
        (reliableEnqueuer ["id-1", "id-2"]).messagesRepo h' m) ∧
    (∀ (h h' : History) (j : Job),
      (reliableEnqueuer ["id-1", "id-2"]).queue h j =
        (reliableEnqueuer ["id-1", "id-2"]).queue h' j) ∧
    (testEnqueue (reliableEnqueuer ["id-1", "id-2"]) storedRuntime orderSensitiveConn
      twoUsers).outcome = .returned [] ∧
    (testEnqueue (reliableEnqueuer ["id-1", "id-2"]) reversedRuntime orderSensitiveConn
      twoUsers).outcome =
      .returned [⟨"queued", "user-1", "id-1", "some-request-id"⟩,
        ⟨"queued", "user-2@example.com", "id-2", "some-request-id"⟩] ∧
    (testEnqueue (reliableEnqueuer ["id-1", "id-2"]) storedRuntime orderSensitiveConn
      twoUsers).outcome ≠
      (testEnqueue (reliableEnqueuer ["id-1", "id-2"]) reversedRuntime orderSensitiveConn
        twoUsers).outcome :=
  ⟨fun _ _ _ => rfl, fun _ _ _ => rfl, by decide, by decide, by decide⟩

/-- C21, amended: for fixed inputs, a repository whose answer to an upsert depends only on the
message, a queue whose answer to an insert depends only on the job, and a `Commit` whose
answer does not depend on the order of the upserts made before it (after the effects `h0`
before the call, the generator calls and `Begin`, reordering the successful upserts of the
transaction leaves the answer of `Commit` unchanged; nothing is asked of `Commit` on other
histories or under other rearrangements), every two iteration orders of the job map give the
same outcome of `Enqueue`, hence the same returned response list. -/
theorem C21_outcome_independent_of_iteration_order (runtime runtime' : Runtime)
    (h0 : History) (conn : ConnectionInterface) (users : List User)
    (hups : ∀ (h h' : History) (m : Message),
      enqueuer.messagesRepo h m = enqueuer.messagesRepo h' m)
    (hq : ∀ (h h' : History) (j : Job), enqueuer.queue h j = enqueuer.queue h' j)
    (hc : ∀ (ids : List String) (es es' : JobMap), es.Perm es' →
      conn.Commit (h0 ++ ids.map generateOk ++ [Event.begin] ++ es.map upsertOk) =
        conn.Commit (h0 ++ ids.map generateOk ++ [Event.begin] ++ es'.map upsertOk)) :
    (enqueuer.Enqueue options space organization clientID uaaHost scope vcapRequestID
      reqReceived runtime h0 conn users).outcome =
    (enqueuer.Enqueue options space organization clientID uaaHost scope vcapRequestID
      reqReceived runtime' h0 conn users).outcome := by
  rcases hb : buildLoop enqueuer options space organization clientID uaaHost scope
    vcapRequestID reqReceived h0 users [] [] with ⟨r, gen⟩
  cases r with
  | error err =>
    rw [Enqueue_outcome_of_error enqueuer options space organization clientID uaaHost scope
        vcapRequestID reqReceived runtime h0 conn users err gen hb,
      Enqueue_outcome_of_error enqueuer options space organization clientID uaaHost scope
        vcapRequestID reqReceived runtime' h0 conn users err gen hb]
  | ok p =>
    obtain ⟨responses, jobs⟩ := p
    rw [Enqueue_outcome_of_ok enqueuer options space organization clientID uaaHost scope
        vcapRequestID reqReceived runtime h0 conn users responses jobs gen hb,
      Enqueue_outcome_of_ok enqueuer options space organization clientID uaaHost scope
        vcapRequestID reqReceived runtime' h0 conn users responses jobs gen hb]
    have h1 : (∀ e ∈ runtime.rangeMessages.range jobs,
          enqueuer.messagesRepo [] { ID := e.1, Status := StatusQueued } = none) ↔
        (∀ e ∈ runtime'.rangeMessages.range jobs,
          enqueuer.messagesRepo [] { ID := e.1, Status := StatusQueued } = none) := by
      constructor
      · intro h e he
        exact h e ((runtime.rangeMessages.perm jobs).mem_iff.mpr
          ((runtime'.rangeMessages.perm jobs).mem_iff.mp he))
      · intro h e he
        exact h e ((runtime'.rangeMessages.perm jobs).mem_iff.mpr
          ((runtime.rangeMessages.perm jobs).mem_iff.mp he))
    have h2 : conn.Commit (h0 ++ gen ++ [Event.begin] ++
          (runtime.rangeMessages.range jobs).map upsertOk) =
        conn.Commit (h0 ++ gen ++ [Event.begin] ++
          (runtime'.rangeMessages.range jobs).map upsertOk) := by
      obtain ⟨ids, -, hgen, -, -⟩ := buildLoop_ok enqueuer options space organization clientID
        uaaHost scope vcapRequestID reqReceived users h0 [] [] responses jobs gen hb
      rw [hgen]
      exact hc ids _ _ ((runtime.rangeMessages.perm jobs).trans
        (runtime'.rangeMessages.perm jobs).symm)
    have h3 : (∀ e ∈ runtime.rangeJobs.range jobs, enqueuer.queue [] e.2 = none) ↔
        (∀ e ∈ runtime'.rangeJobs.range jobs, enqueuer.queue [] e.2 = none) := by
      constructor
      · intro h e he
        exact h e ((runtime.rangeJobs.perm jobs).mem_iff.mpr
          ((runtime'.rangeJobs.perm jobs).mem_iff.mp he))
      · intro h e he
        exact h e ((runtime'.rangeJobs.perm jobs).mem_iff.mpr
          ((runtime.rangeJobs.perm jobs).mem_iff.mp he))
    simp only [upsertLoop_eq_none_iff enqueuer hups, enqueueLoop_eq_none_iff enqueuer hq, h1,
      h2, h3]

/-- Witness of C21 (amended): reliable collaborators, a commit whose answer depends on the
first effect of the history only, entries visited as stored and in reverse. -/
theorem C21_outcome_independent_of_iteration_order_witness :
    (∀ (h h' : History) (m : Message),
      (reliableEnqueuer ["id-1", "id-2"]).messagesRepo h m =
        (reliableEnqueuer ["id-1", "id-2"]).messagesRepo h' m) ∧
    (∀ (h h' : History) (j : Job),
      (reliableEnqueuer ["id-1", "id-2"]).queue h j =
        (reliableEnqueuer ["id-1", "id-2"]).queue h' j) ∧
    (∀ (ids : List String) (es es' : JobMap), es.Perm es' →
      firstEffectConn.Commit ([] ++ ids.map generateOk ++ [Event.begin] ++ es.map upsertOk) =
        firstEffectConn.Commit
          ([] ++ ids.map generateOk ++ [Event.begin] ++ es'.map upsertOk)) ∧
    firstEffectConn.Commit [Event.begin, generateOk "id-1"] ≠
      firstEffectConn.Commit [generateOk "id-1", Event.begin] ∧
    (testEnqueue (reliableEnqueuer ["id-1", "id-2"]) storedRuntime firstEffectConn
      twoUsers).outcome =
    (testEnqueue (reliableEnqueuer ["id-1", "id-2"]) reversedRuntime firstEffectConn
      twoUsers).outcome :=
  ⟨fun _ _ _ => rfl, fun _ _ _ => rfl,
    fun ids _ _ _ => by cases ids <;> rfl,
    by decide,
    C21_outcome_independent_of_iteration_order (reliableEnqueuer ["id-1", "id-2"]) noOptions
      ⟨"the-space"⟩ ⟨"the-org"⟩ "the-client" "" "my.scope" "some-request-id" ⟨0⟩
      storedRuntime reversedRuntime [] firstEffectConn twoUsers (fun _ _ _ => rfl)
      (fun _ _ _ => rfl) (fun ids _ _ _ => by cases ids <;> rfl)⟩

/-- C22: in test mode `ConfigureSMTP` returns without any call on the mail client and without
a fatal error; outside test mode, when `Connect` and `Hello` return no error, the fatal error
"smtp-config-mismatch" is raised if and only if the server's support of STARTTLS differs from
the configured `SMTPTLS` flag, and otherwise the call returns. -/
theorem C22_smtp_mismatch_iff_tls_support_differs (app : application.Application)
    (mailClient : application.MailClient) :
    (app.env.TestMode = true → app.ConfigureSMTP mailClient = ⟨.returned (), []⟩) ∧
    (app.env.TestMode = false → mailClient.Connect = none → mailClient.Hello = none →
      ((∃ message : String, application.SMTPEffect.fatal "smtp-config-mismatch" message ∈
          (app.ConfigureSMTP mailClient).effects) ↔
        (mailClient.Extension "STARTTLS").1 ≠ app.env.SMTPTLS) ∧
      ((mailClient.Extension "STARTTLS").1 = app.env.SMTPTLS →
        (app.ConfigureSMTP mailClient).outcome = .returned ()) ∧
      ((mailClient.Extension "STARTTLS").1 ≠ app.env.SMTPTLS →
        ∃ message : String, (app.ConfigureSMTP mailClient).outcome = .panicked message)) := by
  constructor
  · intro ht
    simp [application.Application.ConfigureSMTP, ht]
  · intro ht hconnect hhello
    unfold application.Application.ConfigureSMTP
    simp only [ht, hconnect, hhello]
    cases hs : (mailClient.Extension "STARTTLS").1 <;> cases hc : app.env.SMTPTLS <;> simp

/-- Witness of C22: a server that supports STARTTLS, a configuration that does not use it. -/
theorem C22_smtp_mismatch_iff_tls_support_differs_witness :
    (⟨⟨⟨0⟩, false, false⟩⟩ : application.Application).env.TestMode = false ∧
    application.tlsMailClient.Connect = none ∧ application.tlsMailClient.Hello = none ∧
    (application.tlsMailClient.Extension "STARTTLS").1 ≠
      (⟨⟨⟨0⟩, false, false⟩⟩ : application.Application).env.SMTPTLS ∧
    ∃ message : String, application.SMTPEffect.fatal "smtp-config-mismatch" message ∈
      (application.Application.ConfigureSMTP ⟨⟨⟨0⟩, false, false⟩⟩
        application.tlsMailClient).effects :=
  ⟨rfl, rfl, rfl, by decide,
    ((C22_smtp_mismatch_iff_tls_support_differs ⟨⟨⟨0⟩, false, false⟩⟩
      application.tlsMailClient).2 rfl rfl rfl).1.mpr (by decide)⟩

/-- C23, the code on a token without a string issuer: when the token parses and its claims
have no "iss" entry, or an "iss" entry that is not a string, `tokenHost` panics at the type
assertion of line 79 instead of returning an error. -/
theorem C23_tokenHost_panics_without_string_issuer :
    uaa.testClient.tokenHost uaa.issuerlessLibraries "a-token" =
      .panicked "interface conversion: interface is not string" ∧
    uaa.testClient.tokenHost uaa.numericIssuerLibraries "a-token" =
      .panicked "interface conversion: interface is not string" ∧
    (uaa.testClient.UsersEmailsByIDs uaa.issuerlessLibraries "a-token" ["user-1"]).outcome =
      .panicked "interface conversion: interface is not string" := by
  decide

/-- C24, counterexample: the directory answers every query without error, but the token does
not parse; `UsersEmailsByIDs` makes no query for the id "user-1" and returns the nil list with
the error, not the users of that id. -/
theorem C24_unparsed_token_makes_no_query :
    (∀ (h : List uaa.ListCall) (config : uaa.WarrantConfig) (query : uaa.WarrantQuery)
        (token : String),
      uaa.staleTokenLibraries.usersList h config query token =
        .ok [⟨"some-user", ["some-user@example.com"]⟩]) ∧
    (∀ call ∈ (uaa.testClient.UsersEmailsByIDs uaa.staleTokenLibraries "a-token"
        ["user-1"]).calls, call.isFailure = false) ∧
    (uaa.testClient.UsersEmailsByIDs uaa.staleTokenLibraries "a-token" ["user-1"]).calls = [] ∧
    (uaa.testClient.UsersEmailsByIDs uaa.staleTokenLibraries "a-token" ["user-1"]).outcome =
      .returned ([], some "token is expired") :=
  ⟨fun _ _ _ _ => rfl, by decide, by decide, by decide⟩

/-- C24, amended: when `tokenHost` returns the issuer host without error and every directory
query answers without error, `UsersEmailsByIDs` makes exactly one query per input id, in the
order of the ids (a repeated id is queried again), each with the filter of that id, the
client's configuration and the token, and returns, with no error, the concatenation in that
order of the users found by the queries, each with the `ID` and `Emails` of the directory
user. -/
theorem C24_lookup_concatenates_users (z : uaa.ZonedUAAClient) (lib : uaa.Libraries)
    (token : String) (ids : List String) (uaaHost : String)
    (hhost : z.tokenHost lib token = .returned (uaaHost, none))
    (hok : ∀ call ∈ (z.UsersEmailsByIDs lib token ids).calls, call.isFailure = false) :
    (z.UsersEmailsByIDs lib token ids).outcome =
      .returned ((((z.UsersEmailsByIDs lib token ids).calls).map uaa.ListCall.users).flatten,
        none) ∧
    ((z.UsersEmailsByIDs lib token ids).calls).map (fun c => c.query.Filter) =
      ids.map uaa.idFilter ∧
    (∀ call ∈ (z.UsersEmailsByIDs lib token ids).calls,
      call.config = ⟨uaaHost, !z.verifySSL⟩ ∧ call.token = token) ∧
    (∀ call ∈ (z.UsersEmailsByIDs lib token ids).calls, ∀ users,
      call.answer = .ok users →
      call.users = users.map (fun w => ({ ID := w.ID, Emails := w.Emails } : uaa.User))) := by
  have hrun : z.UsersEmailsByIDs lib token ids =
      ⟨.returned (uaa.usersLoop lib ⟨uaaHost, !z.verifySSL⟩ token [] ids []).1,
        (uaa.usersLoop lib ⟨uaaHost, !z.verifySSL⟩ token [] ids []).2⟩ := by
    simp [uaa.ZonedUAAClient.UsersEmailsByIDs, hhost]
  rw [hrun] at hok ⊢
  dsimp only at hok ⊢
  obtain ⟨h1, h2, h3⟩ := uaa.usersLoop_ok lib ⟨uaaHost, !z.verifySSL⟩ token ids [] [] hok
  refine ⟨?_, h2, h3, ?_⟩
  · rw [h1]
    simp
  · intro call _ users hu
    simp [uaa.ListCall.users, hu, uaa.newUserFromWarrantUser]

/-- Witness of C24 (amended): the id "user-1" given twice. -/
theorem C24_lookup_concatenates_users_witness :
    uaa.testClient.tokenHost uaa.testLibraries "a-token" =
      .returned ("https://uaa.example.com", none) ∧
    (∀ call ∈ (uaa.testClient.UsersEmailsByIDs uaa.testLibraries "a-token"
        ["user-1", "user-1"]).calls, call.isFailure = false) ∧
    (uaa.testClient.UsersEmailsByIDs uaa.testLibraries "a-token"
      ["user-1", "user-1"]).outcome =
      .returned ([⟨"some-user", ["some-user@example.com"]⟩,
        ⟨"some-user", ["some-user@example.com"]⟩], none) ∧
    ((uaa.testClient.UsersEmailsByIDs uaa.testLibraries "a-token"
      ["user-1", "user-1"]).calls).map (fun c => c.query.Filter) =
      [uaa.idFilter "user-1", uaa.idFilter "user-1"] :=
  ⟨by decide, by decide, by decide,
    (C24_lookup_concatenates_users uaa.testClient uaa.testLibraries "a-token"
      ["user-1", "user-1"] "https://uaa.example.com" (by decide) (by decide)).2.1⟩

end Claims

end Notifications
